import Mathlib

set_option maxHeartbeats 1600000
set_option maxRecDepth 8000

/-
A shallow embedding of the Lua 4.0 LL(1) parser and code generator
(src/lparser.c) together with a model of the collaborators it calls that are
outside the given sources (the bytecode writer lcode.c, the lexer driver
llex.c and the limit constants of llimits.h/lopcodes.h), modelled from the
specification.  The parser functions are transcribed from lparser.c; the
mutually recursive grammar handlers are expressed as a single fuel-indexed
interpreter `run` over a `Job` tag carrying each handler's arguments, so
that all definitions are executable and reduce definitionally.
-/

namespace Lua

/-- Tokens produced by the external lexer (llex.h): keywords, literals with
their semantic payload, multi-character punctuation, single characters and
end of stream.  `in` is not a keyword in this language version; it arrives
as `NAME "in"`. -/
inductive Tk where
  | NAME (s : String)
  | NUMBER (r : Int)
  | STRING (s : String)
  | AND | BREAK | DO | ELSE | ELSEIF | END | FOR | FUNCTION | IF | LOCAL
  | NIL | NOT | OR | REPEAT | RETURN | THEN | UNTIL | WHILE
  | CONCAT | DOTS | EQ | GE | LE | NE
  | EOS
  | chr (c : Char)
deriving DecidableEq, Repr

/-- Unary operator classification (lcode.h). -/
inductive UnOprT where
  | OPR_MINUS | OPR_NOT | OPR_NOUNOPR
deriving DecidableEq, Repr

/-- Binary operator classification (lcode.h), in the ORDER OPR sequence that
indexes the priority table. -/
inductive BinOprT where
  | OPR_ADD | OPR_SUB | OPR_MULT | OPR_DIV | OPR_POW | OPR_CONCAT
  | OPR_NE | OPR_EQ | OPR_LT | OPR_LE | OPR_GT | OPR_GE
  | OPR_AND | OPR_OR | OPR_NOBINOPR
deriving DecidableEq, Repr

/-- Opcodes of the instructions either emitted directly by lparser.c or by
the modelled bytecode writer.  Binary and unary operator instructions are
collapsed into one constructor each carrying the operator. -/
inductive Op where
  | END | RETURN | CALL
  | PUSHNIL | POP | PUSHINT | PUSHSTRING | PUSHNUM
  | PUSHUPVALUE | GETLOCAL | GETGLOBAL | GETTABLE | PUSHSELF
  | CREATETABLE | SETLOCAL | SETGLOBAL | SETTABLE | SETLIST | SETMAP
  | CLOSURE | JMP | JMPF | JMPT | JMPONF | JMPONT
  | FORPREP | FORLOOP | LFORPREP | LFORLOOP
  | BINOP (b : BinOprT) | UNOP (u : UnOprT)
deriving DecidableEq, Repr

/-- An emitted instruction: opcode plus up to two integer operands.  For
one-operand (U/S) instructions the operand is `a`. -/
structure Instr where
  op : Op
  a : Int := 0
  b : Int := 0
deriving DecidableEq, Repr

instance : Inhabited Instr := ⟨{ op := .END }⟩

/-- Expression descriptor kinds (lparser.h). -/
inductive EK where
  | VGLOBAL | VLOCAL | VINDEXED | VEXP
deriving DecidableEq, Repr

/-- Expression descriptor: kind plus the union payload, modelled with the
index field and the two jump lists all present (`u.index` resp. `u.l.t`,
`u.l.f`); jump lists are kept as external lists of instruction addresses,
one of the representations the design allows, with the empty list playing
the role of NO_JUMP. -/
structure expdesc where
  k : EK := .VGLOBAL
  idx : Nat := 0
  tl : List Nat := []
  fl : List Nat := []
deriving DecidableEq, Repr

instance : Inhabited expdesc := ⟨{}⟩

/-- A fresh VEXP descriptor with both jump lists empty. -/
def vexp0 : expdesc := { k := .VEXP, idx := 0, tl := [], fl := [] }

/-- Local-variable debug record (lobject.h LocVar). -/
structure LocVar where
  varname : String := ""
  startpc : Nat := 0
  endpc : Nat := 0
deriving DecidableEq, Repr

instance : Inhabited LocVar := ⟨{}⟩

/-- Function prototype under construction (lobject.h Proto).  Nested
prototypes are referenced by index into the arena `LexState.protos`,
modelling the C pointers.  Logical sizes are the list lengths, so the
separate capacity counters of the C code are not needed. -/
structure Proto where
  code : List Instr := []
  kstr : List String := []
  knum : List Int := []
  kproto : List Nat := []
  locvars : List LocVar := []
  lineinfo : List Int := []
  numparams : Nat := 0
  is_vararg : Bool := false
  maxstacksize : Int := 0
  nupvalues : Nat := 0
  lineDefined : Nat := 0
  source : String := ""
deriving DecidableEq, Repr

instance : Inhabited Proto := ⟨{}⟩

/-- Break label: jump list of pending breaks plus the operand-stack level
captured at loop entry; the chain is the list in `FuncState.bl`. -/
structure Breaklabel where
  breaklist : List Nat := []
  stacklevel : Int := 0
deriving DecidableEq, Repr

/-- Per-function compilation state (lparser.h FuncState).  The chain through
`prev` is the list `LexState.fss` (head = innermost).  `actloc` maps an
active-local slot to an index into `f.locvars`; `upvals` is the upvalue
descriptor array; `jlt` is the list of jumps whose target is the next
instruction to be emitted. -/
structure FuncState where
  f : Proto := {}
  pc : Nat := 0
  lasttarget : Nat := 0
  jlt : List Nat := []
  stacklevel : Int := 0
  nactloc : Nat := 0
  actloc : Nat → Nat := fun _ => 0
  upvals : Nat → expdesc := fun _ => {}
  bl : List Breaklabel := []
  lastline : Nat := 0

instance : Inhabited FuncState := ⟨{}⟩

/-- Whole-compilation state (llex.h LexState): the FuncState chain (head is
the function currently compiled), the arena of finished nested prototypes,
current token, one-token look-ahead (EOS = empty, as in the C code), the
remaining token stream with line numbers, and the interning hint map
modelling `TString.u.s.constindex`. -/
structure LexState where
  fss : List FuncState := []
  protos : List Proto := []
  t : Tk := .EOS
  lookahead : Tk := .EOS
  rest : List (Tk × Nat) := []
  linenumber : Nat := 1
  lastline : Nat := 1
  source : String := ""
  hint : String → Nat := fun _ => 0

instance : Inhabited LexState := ⟨{}⟩

/-- Errors: a syntax/semantic/limit error with its message, or fuel
exhaustion of the interpreter (no run of the C code corresponds to it). -/
inductive Err where
  | fuel
  | msg (m : String)
deriving DecidableEq, Repr

/-- Constructor-part descriptor (lparser.c Constdesc): element count and
kind tag `k` (0 = list part, 1 = record part, or the delimiting token code
for an empty part). -/
structure Constdesc where
  n : Nat := 0
  k : Int := 0
deriving DecidableEq, Repr

/-! ### Limit constants

Modelled from the spec: the numeric resource caps live in llimits.h and
lopcodes.h, which are not part of the given sources; the values below are
the caps the specification calls "configurable but fixed at compile time",
with the operand widths of the 32-bit instruction encoding. -/

def MAXLOCALS : Nat := 200

def MAXUPVALUES : Nat := 32

def MAXPARAMS : Nat := 100

def MAXVARSLH : Nat := 100

def MAXARG_U : Nat := 67108863

def MAXARG_A : Nat := 131071

def MAXSTACK : Int := 256

def MULT_RET : Int := 255

def LFIELDS_PER_FLUSH : Nat := 64

def RFIELDS_PER_FLUSH : Nat := 8

def MAX_INT : Int := 2147483647

/-! ### FuncState chain access -/

/-- The innermost (current) FuncState. -/
def headFS (ls : LexState) : FuncState := ls.fss.headD {}

/-- Replace the current FuncState. -/
def setFS (ls : LexState) (fs : FuncState) : LexState :=
  { ls with fss := fs :: ls.fss.tail }

/-- FuncState at depth `k` in the chain (0 = current, 1 = enclosing). -/
def getFrame (ls : LexState) (k : Nat) : FuncState := ls.fss.getD k {}

/-- Replace the FuncState at depth `k`. -/
def setFrame (ls : LexState) (k : Nat) (fs : FuncState) : LexState :=
  { ls with fss := ls.fss.set k fs }

/-! ### Lexer driver (lparser.c next/lookahead over the llex.c stream)

Modelled from the spec where llex.c is concerned: `luaX_lex` is a pull from
the pre-lexed token stream `rest`, updating `linenumber`; at end of stream
it yields EOS forever. -/

/-- Advance to the next token (lparser.c `next`): promote a stashed
look-ahead if present, else pull from the lexer. -/
def next (ls : LexState) : LexState :=
  let ls := { ls with lastline := ls.linenumber }
  if ls.lookahead ≠ Tk.EOS then
    { ls with t := ls.lookahead, lookahead := Tk.EOS }
  else
    match ls.rest with
    | [] => { ls with t := Tk.EOS }
    | (tk, ln) :: r => { ls with t := tk, rest := r, linenumber := ln }

/-- Stash one token of look-ahead (lparser.c `lookahead`). -/
def lookaheadT (ls : LexState) : LexState :=
  match ls.rest with
  | [] => { ls with lookahead := Tk.EOS }
  | (tk, ln) :: r => { ls with lookahead := tk, rest := r, linenumber := ln }

/-- Token display text (llex.c luaX_token2str, modelled from the spec). -/
def token2str : Tk → String
  | .chr c => String.mk [c]
  | .AND => "and" | .BREAK => "break" | .DO => "do" | .ELSE => "else"
  | .ELSEIF => "elseif" | .END => "end" | .FOR => "for"
  | .FUNCTION => "function" | .IF => "if" | .LOCAL => "local"
  | .NIL => "nil" | .NOT => "not" | .OR => "or" | .REPEAT => "repeat"
  | .RETURN => "return" | .THEN => "then" | .UNTIL => "until"
  | .WHILE => "while"
  | .CONCAT => ".." | .DOTS => "..." | .EQ => "==" | .GE => ">="
  | .LE => "<=" | .NE => "~="
  | .NUMBER _ => "<number>" | .NAME _ => "<name>" | .STRING _ => "<string>"
  | .EOS => "<eof>"

/-- Integer token code (llex.h): single characters are their code point,
the other terminals get codes from 257 up; only distinctness matters, it is
what Constdesc.k stores for an empty constructor part. -/
def tokCode : Tk → Int
  | .chr c => (c.toNat : Int)
  | .AND => 257 | .BREAK => 258 | .DO => 259 | .ELSE => 260
  | .ELSEIF => 261 | .END => 262 | .FOR => 263 | .FUNCTION => 264
  | .IF => 265 | .LOCAL => 266 | .NIL => 267 | .NOT => 268 | .OR => 269
  | .REPEAT => 270 | .RETURN => 271 | .THEN => 272 | .UNTIL => 273
  | .WHILE => 274
  | .CONCAT => 275 | .DOTS => 276 | .EQ => 277 | .GE => 278 | .LE => 279
  | .NE => 280
  | .NUMBER _ => 281 | .NAME _ => 282 | .STRING _ => 283 | .EOS => 284

/-- A single-quote character, used in error message formatting. -/
def sq : String := String.mk [Char.ofNat 39]

/-- Message of `error_expected` (lparser.c). -/
def error_expected_msg (t : Tk) : String :=
  "`" ++ token2str t ++ sq ++ " expected"

/-- lparser.c `check`: demand token `c` and consume it. -/
def check (ls : LexState) (c : Tk) : Except Err LexState :=
  if ls.t = c then .ok (next ls) else .error (.msg (error_expected_msg c))

/-- lparser.c `optional`: consume token `c` if present. -/
def optional (ls : LexState) (c : Tk) : Bool × LexState :=
  if ls.t = c then (true, next ls) else (false, ls)

/-- lparser.c `check_match`: demand the closing token `what`; on failure the
message names the opening token `who` and its line when that line differs
from the current one. -/
def check_match (ls : LexState) (what who : Tk) (whereLine : Nat) :
    Except Err LexState :=
  if ls.t = what then .ok (next ls)
  else if whereLine = ls.linenumber then
    .error (.msg (error_expected_msg what))
  else
    .error (.msg ("`" ++ token2str what ++ sq ++ " expected (to close `" ++
      token2str who ++ sq ++ " at line " ++ toString whereLine ++ ")"))

/-- llex.c luaX_checklimit, modelled from the spec: exceeding a resource cap
raises an error naming the resource. -/
def luaX_checklimit (val limit : Nat) (m : String) : Except Err Unit :=
  if val > limit then .error (.msg ("too many " ++ m)) else .ok ()

/-- lparser.c `str_checkname`: demand a NAME token and return its string. -/
def str_checkname (ls : LexState) : Except Err (String × LexState) :=
  match ls.t with
  | .NAME s => .ok (s, next ls)
  | _ => .error (.msg ("<name> expected"))

/-! ### Bytecode writer

Modelled from the spec: lcode.c is outside the given sources.  The model
implements the emitter contract the parser consumes: appending instructions
with symbolic stack-depth tracking, jump creation/patching/concatenation
with jump lists kept as external lists of instruction addresses, the
jump-pending-chain `jlt` of jumps targeting the next emitted instruction,
descriptor forcing (`tostack`), stores, short-circuit infix/posfix setup,
constant loading with deduplication, and the open-call interface
(`lastisopen` / `setcallreturns` with MULT_RET as the unfixed operand). -/

/-- Stack level after executing instruction `i` at symbolic level `sl`:
the per-opcode symbolic stack effect.  CALL leaves the level alone because
the parser pre-adjusts it in `funcargs`; SETLIST/SETMAP flush down to one
above the table slot carried in the operand. -/
def instrEffect (sl : Int) (i : Instr) : Int :=
  match i.op with
  | .PUSHINT | .PUSHSTRING | .PUSHNUM | .GETLOCAL | .GETGLOBAL
  | .PUSHUPVALUE | .CREATETABLE | .PUSHSELF => sl + 1
  | .PUSHNIL => sl + i.a
  | .POP => sl - i.a
  | .GETTABLE => sl - 1
  | .SETLOCAL | .SETGLOBAL => sl - 1
  | .SETTABLE => sl - i.b
  | .SETLIST => i.b + 1
  | .SETMAP => i.a + 1
  | .CLOSURE => sl + 1 - i.b
  | .FORLOOP => sl - 3
  | .LFORPREP => sl + 3
  | .LFORLOOP => sl - 4
  | .JMPF | .JMPT | .JMPONF | .JMPONT => sl - 1
  | .BINOP _ => sl - 1
  | _ => sl

/-- lcode.c luaK_deltastack: add `delta` to the symbolic stack level,
recording the maximum and rejecting overflow past MAXSTACK. -/
def luaK_deltastack (ls : LexState) (delta : Int) : Except Err LexState :=
  let fs := headFS ls
  let sl := fs.stacklevel + delta
  if delta > 0 ∧ sl > fs.f.maxstacksize then
    if sl > MAXSTACK then .error (.msg "function or expression too complex")
    else .ok (setFS ls { fs with stacklevel := sl,
                                 f := { fs.f with maxstacksize := sl } })
  else .ok (setFS ls { fs with stacklevel := sl })

/-- Rewrite the target operand of every instruction in jump list `l` to
`target`. -/
def patchListCode (c : List Instr) (l : List Nat) (target : Nat) :
    List Instr :=
  l.foldl (fun c p => c.set p { c.getD p default with a := (target : Int) }) c

/-- Append one instruction: resolve the pending jump-to-next-instruction
list `jlt` onto it, track the stack level, record line info, and return the
address of the new instruction. -/
def luaK_code (ls : LexState) (i : Instr) : Except Err (Nat × LexState) :=
  let fs := headFS ls
  let pc := fs.pc
  let fs := { fs with f := { fs.f with code := patchListCode fs.f.code fs.jlt fs.pc },
                      jlt := [] }
  let ls := setFS ls fs
  match luaK_deltastack ls (instrEffect fs.stacklevel i - fs.stacklevel) with
  | .error e => .error e
  | .ok ls =>
    let fs := headFS ls
    .ok (pc, setFS ls { fs with
      pc := fs.pc + 1,
      f := { fs.f with code := fs.f.code ++ [i],
                       lineinfo := fs.f.lineinfo ++ [(ls.lastline : Int)] } })

/-- One-operand instruction append (lcode.h luaK_code1). -/
def luaK_code1 (ls : LexState) (o : Op) (u : Int) : Except Err (Nat × LexState) :=
  luaK_code ls { op := o, a := u }

/-- Two-operand instruction append (lcode.h luaK_code2). -/
def luaK_code2 (ls : LexState) (o : Op) (a b : Int) : Except Err (Nat × LexState) :=
  luaK_code ls { op := o, a := a, b := b }

/-- lcode.c luaK_getlabel: declare the current position a jump target,
resolving the pending `jlt` list there and disabling peepholes across it. -/
def luaK_getlabel (ls : LexState) : Nat × LexState :=
  let fs := headFS ls
  (fs.pc, setFS ls { fs with
    lasttarget := fs.pc, jlt := [],
    f := { fs.f with code := patchListCode fs.f.code fs.jlt fs.pc } })

/-- lcode.c luaK_patchlist: point every jump in `l` at `target`; jumps to
the current end of code join the pending `jlt` list instead. -/
def luaK_patchlist (ls : LexState) (l : List Nat) (target : Nat) : LexState :=
  let fs := headFS ls
  if target = fs.pc then setFS ls { fs with jlt := fs.jlt ++ l }
  else setFS ls { fs with
    f := { fs.f with code := patchListCode fs.f.code l target } }

/-- lcode.c luaK_jump: emit an unconditional forward jump with unresolved
target, returned as a singleton jump list. -/
def luaK_jump (ls : LexState) : Except Err (List Nat × LexState) :=
  match luaK_code1 ls .JMP (-1) with
  | .error e => .error e
  | .ok (p, ls) => .ok ([p], ls)

/-- lcode.c luaK_lastisopen: whether the last emitted instruction is an
open call, i.e. a CALL whose return-count operand is still MULT_RET; never
looks back across a jump target. -/
def luaK_lastisopen (fs : FuncState) : Bool :=
  decide (fs.lasttarget < fs.pc) &&
    (match fs.f.code.getD (fs.pc - 1) default with
     | { op := .CALL, a := _, b := b } => decide (b = MULT_RET)
     | _ => false)

/-- lcode.c luaK_setcallreturns: fix the return-count operand of the last
open call to `nres` and account for the now-known values on the symbolic
stack; a no-op when the last instruction is not an open call. -/
def luaK_setcallreturns (ls : LexState) (nres : Int) : Except Err LexState :=
  let fs := headFS ls
  if luaK_lastisopen fs then
    let i := fs.f.code.getD (fs.pc - 1) default
    let ls := setFS ls { fs with
      f := { fs.f with code := fs.f.code.set (fs.pc - 1) { i with b := nres } } }
    luaK_deltastack ls nres
  else .ok ls

/-- lcode.c luaK_adjuststack: pop `n` values when `n` is positive, push
`-n` nils when negative, do nothing at zero. -/
def luaK_adjuststack (ls : LexState) (n : Int) : Except Err LexState :=
  if n > 0 then
    match luaK_code1 ls .POP n with
    | .error e => .error e
    | .ok (_, ls) => .ok ls
  else if n < 0 then
    match luaK_code1 ls .PUSHNIL (-n) with
    | .error e => .error e
    | .ok (_, ls) => .ok ls
  else .ok ls

/-- lcode.c luaK_kstr: load string constant `c` onto the stack. -/
def luaK_kstr (ls : LexState) (c : Nat) : Except Err LexState :=
  match luaK_code1 ls .PUSHSTRING (c : Int) with
  | .error e => .error e
  | .ok (_, ls) => .ok ls

/-- lcode.c number_constant: index of `r` in the number-constant pool,
deduplicating, appending when new. -/
def number_constant (ls : LexState) (r : Int) : Except Err (Nat × LexState) :=
  let fs := headFS ls
  match fs.f.knum.indexOf? r with
  | some c => .ok (c, ls)
  | none =>
    if fs.f.knum.length + 1 > MAXARG_U then
      .error (.msg "constant table overflow")
    else
      .ok (fs.f.knum.length,
        setFS ls { fs with f := { fs.f with knum := fs.f.knum ++ [r] } })

/-- lcode.c luaK_number: load a numeric literal, as an immediate PUSHINT
when small, else through the number-constant pool. -/
def luaK_number (ls : LexState) (r : Int) : Except Err LexState :=
  if -32767 ≤ r ∧ r ≤ 32767 then
    match luaK_code1 ls .PUSHINT r with
    | .error e => .error e
    | .ok (_, ls) => .ok ls
  else
    match number_constant ls r with
    | .error e => .error e
    | .ok (c, ls) =>
      match luaK_code1 ls .PUSHNUM (c : Int) with
      | .error e => .error e
      | .ok (_, ls) => .ok ls

/-- lcode.c luaK_tostack: force the descriptor's value onto the stack.
Locals, globals and indexed pairs load; a VEXP is already on top: with
`onlyone` an open call is fixed to one result, and pending jump lists are
resolved at the current label when present. -/
def luaK_tostack (ls : LexState) (v : expdesc) (onlyone : Bool) :
    Except Err (expdesc × LexState) :=
  match v.k with
  | .VLOCAL =>
    match luaK_code1 ls .GETLOCAL (v.idx : Int) with
    | .error e => .error e
    | .ok (_, ls) => .ok (vexp0, ls)
  | .VGLOBAL =>
    match luaK_code1 ls .GETGLOBAL (v.idx : Int) with
    | .error e => .error e
    | .ok (_, ls) => .ok (vexp0, ls)
  | .VINDEXED =>
    match luaK_code1 ls .GETTABLE 0 with
    | .error e => .error e
    | .ok (_, ls) => .ok (vexp0, ls)
  | .VEXP =>
    match (if onlyone then luaK_setcallreturns ls 1 else .ok ls) with
    | .error e => .error e
    | .ok ls =>
      if v.tl = [] ∧ v.fl = [] then .ok (vexp0, ls)
      else
        let (lbl, ls) := luaK_getlabel ls
        let ls := luaK_patchlist ls v.tl lbl
        let ls := luaK_patchlist ls v.fl lbl
        .ok (vexp0, ls)

/-- lcode.c luaK_storevar: store the value on top of the stack into the
variable described by `v`. -/
def luaK_storevar (ls : LexState) (v : expdesc) : Except Err LexState :=
  match v.k with
  | .VLOCAL =>
    match luaK_code1 ls .SETLOCAL (v.idx : Int) with
    | .error e => .error e
    | .ok (_, ls) => .ok ls
  | .VGLOBAL =>
    match luaK_code1 ls .SETGLOBAL (v.idx : Int) with
    | .error e => .error e
    | .ok (_, ls) => .ok ls
  | .VINDEXED =>
    match luaK_code2 ls .SETTABLE 3 3 with
    | .error e => .error e
    | .ok (_, ls) => .ok ls
  | .VEXP => .error (.msg "cannot store an expression")

/-- Close an open call to one result without resolving pending jump lists:
the discharge used by conditions and short-circuit combination. -/
def dischargeG (ls : LexState) (v : expdesc) : Except Err (expdesc × LexState) :=
  match v.k with
  | .VEXP =>
    match luaK_setcallreturns ls 1 with
    | .error e => .error e
    | .ok ls => .ok (v, ls)
  | _ => luaK_tostack ls v true

/-- lcode.c luaK_goiftrue: jump when the condition is false.  The value is
forced, a jump-on-false is emitted and linked into the false list; the true
list is resolved at the fall-through label.  `keep` preserves the tested
value on the taken branch (the short-circuit form). -/
def luaK_goiftrue (ls : LexState) (v : expdesc) (keep : Bool) :
    Except Err (expdesc × LexState) :=
  match dischargeG ls v with
  | .error e => .error e
  | .ok (v, ls) =>
    match luaK_code1 ls (if keep then .JMPONF else .JMPF) (-1) with
    | .error e => .error e
    | .ok (p, ls) =>
      let (lbl, ls) := luaK_getlabel ls
      let ls := luaK_patchlist ls v.tl lbl
      .ok ({ k := .VEXP, idx := 0, tl := [], fl := v.fl ++ [p] }, ls)

/-- lcode.c luaK_goiffalse: dual of goiftrue, jumping when the condition is
true and linking into the true list. -/
def luaK_goiffalse (ls : LexState) (v : expdesc) (keep : Bool) :
    Except Err (expdesc × LexState) :=
  match dischargeG ls v with
  | .error e => .error e
  | .ok (v, ls) =>
    match luaK_code1 ls (if keep then .JMPONT else .JMPT) (-1) with
    | .error e => .error e
    | .ok (p, ls) =>
      let (lbl, ls) := luaK_getlabel ls
      let ls := luaK_patchlist ls v.fl lbl
      .ok ({ k := .VEXP, idx := 0, tl := v.tl ++ [p], fl := [] }, ls)

/-- lcode.c luaK_prefix: apply a unary operator to a forced value. -/
def luaK_prefixop (ls : LexState) (u : UnOprT) (v : expdesc) :
    Except Err (expdesc × LexState) :=
  match luaK_tostack ls v true with
  | .error e => .error e
  | .ok (_, ls) =>
    match luaK_code1 ls (.UNOP u) 0 with
    | .error e => .error e
    | .ok (_, ls) => .ok (vexp0, ls)

/-- lcode.c luaK_infix: operator setup before the right operand is parsed —
short-circuit jumps for and/or, a plain force for the rest. -/
def luaK_infixop (ls : LexState) (op : BinOprT) (v : expdesc) :
    Except Err (expdesc × LexState) :=
  match op with
  | .OPR_AND => luaK_goiftrue ls v true
  | .OPR_OR => luaK_goiffalse ls v true
  | _ => luaK_tostack ls v true

/-- lcode.c luaK_posfix: combine after the right operand — merge jump lists
for and/or, emit the operator instruction for the rest. -/
def luaK_posfix (ls : LexState) (op : BinOprT) (v v2 : expdesc) :
    Except Err (expdesc × LexState) :=
  match op with
  | .OPR_AND =>
    match dischargeG ls v2 with
    | .error e => .error e
    | .ok (v2, ls) =>
      .ok ({ k := .VEXP, idx := 0, tl := v2.tl, fl := v.fl ++ v2.fl }, ls)
  | .OPR_OR =>
    match dischargeG ls v2 with
    | .error e => .error e
    | .ok (v2, ls) =>
      .ok ({ k := .VEXP, idx := 0, tl := v.tl ++ v2.tl, fl := v2.fl }, ls)
  | _ =>
    match luaK_tostack ls v2 true with
    | .error e => .error e
    | .ok (_, ls) =>
      match luaK_code1 ls (.BINOP op) 0 with
      | .error e => .error e
      | .ok (_, ls) => .ok (vexp0, ls)

/-! ### String constants and the scope manager (lparser.c) -/

/-- lparser.c string_constant, acting on the FuncState at chain depth `kf`
(0 = current function, 1 = the enclosing one as used by `pushupvalue`).
The constindex hint stored on interned strings is the map `hint`; a stale
or foreign hint is detected exactly as in the C code and the string is then
appended to the pool. -/
def string_constant (ls : LexState) (kf : Nat) (s : String) :
    Except Err (Nat × LexState) :=
  let fs := getFrame ls kf
  let c := ls.hint s
  if c < fs.f.kstr.length ∧ fs.f.kstr.getD c "" = s then .ok (c, ls)
  else if fs.f.kstr.length + 1 > MAXARG_U then
    .error (.msg "constant table overflow")
  else
    let c := fs.f.kstr.length
    .ok (c, { setFrame ls kf { fs with f := { fs.f with kstr := fs.f.kstr ++ [s] } } with
              hint := Function.update ls.hint s c })

/-- lparser.c code_string: intern and load a string literal. -/
def code_string (ls : LexState) (s : String) : Except Err LexState :=
  match string_constant ls 0 s with
  | .error e => .error e
  | .ok (c, ls) => luaK_kstr ls c

/-- lparser.c checkname: demand a NAME and intern it. -/
def checkname (ls : LexState) : Except Err (Nat × LexState) :=
  match str_checkname ls with
  | .error e => .error e
  | .ok (s, ls) => string_constant ls 0 s

/-- lparser.c luaI_registerlocalvar: append a locvar debug record, returning
its index. -/
def luaI_registerlocalvar (ls : LexState) (varname : String) :
    Nat × LexState :=
  let fs := headFS ls
  (fs.f.locvars.length,
   setFS ls { fs with
     f := { fs.f with locvars := fs.f.locvars ++ [{ varname := varname }] } })

/-- lparser.c new_localvar: register variable number `n` of the statement
being parsed, without activating it. -/
def new_localvar (ls : LexState) (name : String) (n : Nat) :
    Except Err LexState :=
  let fs := headFS ls
  match luaX_checklimit (fs.nactloc + n + 1) MAXLOCALS "local variables" with
  | .error e => .error e
  | .ok _ =>
    let (idx, ls) := luaI_registerlocalvar ls name
    let fs := headFS ls
    .ok (setFS ls { fs with
      actloc := Function.update fs.actloc (fs.nactloc + n) idx })

/-- lparser.c adjustlocalvars: activate the next `nvars` pending locals,
stamping their startpc with the current pc. -/
def adjustlocalvars : LexState → Nat → LexState
  | ls, 0 => ls
  | ls, n+1 =>
    let fs := headFS ls
    let idx := fs.actloc fs.nactloc
    let lv := fs.f.locvars.getD idx default
    let ls := setFS ls
      { fs with
        nactloc := fs.nactloc + 1,
        f := { fs.f with
          locvars := fs.f.locvars.set idx { lv with startpc := fs.pc } } }
    adjustlocalvars ls n

/-- lparser.c removelocalvars: deactivate the last `nvars` locals, stamping
their endpc. -/
def removelocalvars : LexState → Nat → LexState
  | ls, 0 => ls
  | ls, n+1 =>
    let fs := headFS ls
    let idx := fs.actloc (fs.nactloc - 1)
    let lv := fs.f.locvars.getD idx default
    let ls := setFS ls
      { fs with
        nactloc := fs.nactloc - 1,
        f := { fs.f with
          locvars := fs.f.locvars.set idx { lv with endpc := fs.pc } } }
    removelocalvars ls n

/-- Scan the active locals of one function from slot `i-1` down to 0 for
name `n` (the inner loop of lparser.c search_local). -/
def findSlotAux (fs : FuncState) (n : String) : Nat → Option Nat
  | 0 => none
  | i+1 =>
    if (fs.f.locvars.getD (fs.actloc i) default).varname = n then some i
    else findSlotAux fs n i

/-- Highest active slot of `fs` holding a local named `n`. -/
def findSlot (fs : FuncState) (n : String) : Option Nat :=
  findSlotAux fs n fs.nactloc

/-- lparser.c search_local: walk the FuncState chain outward; on a hit make
the descriptor VLOCAL with the slot and return the chain level, else make
it VGLOBAL and return -1. -/
def search_local : List FuncState → String → Int × expdesc
  | [], _ => (-1, { k := .VGLOBAL })
  | fs :: rest, n =>
    match findSlot fs n with
    | some i => (0, { k := .VLOCAL, idx := i })
    | none =>
      let (lv, v) := search_local rest n
      (if lv = -1 then -1 else lv + 1, v)

/-- lparser.c singlevar: resolve a bare name — a local of the current
function, an error for a local of an enclosing function, or a global
interned into the current string-constant pool. -/
def singlevar (ls : LexState) (n : String) : Except Err (expdesc × LexState) :=
  let (level, v) := search_local ls.fss n
  if level ≥ 1 then
    .error (.msg "cannot access a variable in outer function")
  else if level = -1 then
    match string_constant ls 0 n with
    | .error e => .error e
    | .ok (c, ls) => .ok ({ v with idx := c }, ls)
  else .ok (v, ls)

/-- lparser.c indexupvalue: index of descriptor `v` in the upvalue array,
deduplicating on kind and index, appending when new. -/
def indexupvalue (ls : LexState) (v : expdesc) : Except Err (Nat × LexState) :=
  let fs := headFS ls
  match (List.range fs.f.nupvalues).find?
      (fun i => decide ((fs.upvals i).k = v.k ∧ (fs.upvals i).idx = v.idx)) with
  | some i => .ok (i, ls)
  | none =>
    match luaX_checklimit (fs.f.nupvalues + 1) MAXUPVALUES "upvalues" with
    | .error e => .error e
    | .ok _ =>
      .ok (fs.f.nupvalues, setFS ls { fs with
        upvals := Function.update fs.upvals fs.f.nupvalues v,
        f := { fs.f with nupvalues := fs.f.nupvalues + 1 } })

/-- lparser.c pushupvalue: resolve an explicit upvalue reference and emit
PUSHUPVALUE with its upvalue index.  The name must be a global (interned
into the enclosing pool; an error at top level) or a local of the function
immediately enclosing the current one. -/
def pushupvalue (ls : LexState) (n : String) : Except Err LexState :=
  let (level, v) := search_local ls.fss n
  let step : Except Err (expdesc × LexState) :=
    if level = -1 then
      if ls.fss.tail.isEmpty then
        .error (.msg "cannot access an upvalue at top level")
      else
        match string_constant ls 1 n with
        | .error e => .error e
        | .ok (c, ls) => .ok ({ v with idx := c }, ls)
    else if level ≠ 1 then
      .error (.msg "upvalue must be global or local to immediately outer function")
    else .ok (v, ls)
  match step with
  | .error e => .error e
  | .ok (v, ls) =>
    match indexupvalue ls v with
    | .error e => .error e
    | .ok (i, ls) =>
      match luaK_code1 ls .PUSHUPVALUE (i : Int) with
      | .error e => .error e
      | .ok (_, ls) => .ok ls

/-- lparser.c adjust_mult_assign: reconcile `nvars` targets with `nexps`
parsed expressions.  When the list ends in an open call the call absorbs
the (non-negative) shortfall; any remaining difference is settled by
popping extras or pushing nils. -/
def adjust_mult_assign (ls : LexState) (nvars nexps : Nat) :
    Except Err LexState :=
  let diff : Int := (nexps : Int) - (nvars : Int)
  if 0 < nexps ∧ luaK_lastisopen (headFS ls) then
    let diff := diff - 1
    if diff ≤ 0 then
      match luaK_setcallreturns ls (-diff) with
      | .error e => .error e
      | .ok ls => luaK_adjuststack ls 0
    else
      match luaK_setcallreturns ls 0 with
      | .error e => .error e
      | .ok ls => luaK_adjuststack ls diff
  else luaK_adjuststack ls diff

/-- lparser.c code_params: activate the parameters, record their count and
the vararg flag, declare the implicit `arg` local for vararg functions and
count the parameters on the symbolic stack. -/
def code_params (ls : LexState) (nparams : Nat) (dots : Bool) :
    Except Err LexState :=
  let ls := adjustlocalvars ls nparams
  match luaX_checklimit (headFS ls).nactloc MAXPARAMS "parameters" with
  | .error e => .error e
  | .ok _ =>
    let fs := headFS ls
    let ls := setFS ls { fs with
      f := { fs.f with numparams := fs.nactloc, is_vararg := dots } }
    if dots then
      match new_localvar ls "arg" 0 with
      | .error e => .error e
      | .ok ls =>
        let ls := adjustlocalvars ls 1
        luaK_deltastack ls ((headFS ls).nactloc : Int)
    else
      luaK_deltastack ls ((headFS ls).nactloc : Int)

/-- lparser.c enterbreak: push a break label capturing the current stack
level. -/
def enterbreak (ls : LexState) : LexState :=
  let fs := headFS ls
  setFS ls { fs with
    bl := { breaklist := [], stacklevel := fs.stacklevel } :: fs.bl }

/-- lparser.c leavebreak: pop the innermost break label and resolve its
pending break jumps at the current label. -/
def leavebreak (ls : LexState) : LexState :=
  let fs := headFS ls
  match fs.bl with
  | [] => ls
  | bl :: rest =>
    let ls := setFS ls { fs with bl := rest }
    let (lbl, ls) := luaK_getlabel ls
    luaK_patchlist ls bl.breaklist lbl

/-- lparser.c pushclosure: in the enclosing function, push the captured
upvalues, reference the finished prototype from the nested-prototype table
(the arena index models the C pointer) and emit CLOSURE. -/
def pushclosure (ls : LexState) (func : FuncState) : Except Err LexState :=
  let loaded : Except Err LexState := (List.range func.f.nupvalues).foldlM
    (fun ls i =>
      match luaK_tostack ls (func.upvals i) true with
      | .error e => .error e
      | .ok (_, ls) => .ok ls) ls
  match loaded with
  | .error e => .error e
  | .ok ls =>
    let fs := headFS ls
    if fs.f.kproto.length + 1 > MAXARG_A then
      .error (.msg "constant table overflow")
    else
      let ls := { setFS ls { fs with
          f := { fs.f with kproto := fs.f.kproto ++ [ls.protos.length] } } with
        protos := ls.protos ++ [func.f] }
      match luaK_code2 ls .CLOSURE (((headFS ls).f.kproto.length : Int) - 1)
          (func.f.nupvalues : Int) with
      | .error e => .error e
      | .ok (_, ls) => .ok ls

/-- lparser.c open_func: push a fresh FuncState with a fresh prototype. -/
def open_func (ls : LexState) : LexState :=
  { ls with fss := { f := { source := ls.source } } :: ls.fss }

/-- lparser.c close_func: emit the final RETURN, resolve pending jumps,
deactivate the remaining locals, seal the line-info table with the MAX_INT
sentinel, and pop the FuncState, returning it. -/
def close_func (ls : LexState) : Except Err (FuncState × LexState) :=
  match luaK_code1 ls .RETURN ((headFS ls).nactloc : Int) with
  | .error e => .error e
  | .ok (_, ls) =>
    let (_, ls) := luaK_getlabel ls
    let ls := removelocalvars ls (headFS ls).nactloc
    let fs := headFS ls
    let fs := { fs with f := { fs.f with lineinfo := fs.f.lineinfo ++ [MAX_INT] } }
    .ok (fs, { ls with fss := ls.fss.tail })

/-! ### Operator tables (lparser.c) -/

/-- lparser.c block_follow: tokens that end a block. -/
def block_follow : Tk → Bool
  | .ELSE | .ELSEIF | .END | .UNTIL | .EOS => true
  | _ => false

/-- lparser.c getunopr. -/
def getunopr : Tk → UnOprT
  | .NOT => .OPR_NOT
  | .chr c => if c = '-' then .OPR_MINUS else .OPR_NOUNOPR
  | _ => .OPR_NOUNOPR

/-- lparser.c getbinopr. -/
def getbinopr : Tk → BinOprT
  | .chr c =>
    if c = '+' then .OPR_ADD
    else if c = '-' then .OPR_SUB
    else if c = '*' then .OPR_MULT
    else if c = '/' then .OPR_DIV
    else if c = '^' then .OPR_POW
    else if c = '<' then .OPR_LT
    else if c = '>' then .OPR_GT
    else .OPR_NOBINOPR
  | .CONCAT => .OPR_CONCAT
  | .NE => .OPR_NE
  | .EQ => .OPR_EQ
  | .LE => .OPR_LE
  | .GE => .OPR_GE
  | .AND => .OPR_AND
  | .OR => .OPR_OR
  | _ => .OPR_NOBINOPR

/-- Left priority of each binary operator (lparser.c priority table). -/
def prioLeft : BinOprT → Int
  | .OPR_ADD | .OPR_SUB => 5
  | .OPR_MULT | .OPR_DIV => 6
  | .OPR_POW => 9
  | .OPR_CONCAT => 4
  | .OPR_NE | .OPR_EQ | .OPR_LT | .OPR_LE | .OPR_GT | .OPR_GE => 2
  | .OPR_AND | .OPR_OR => 1
  | .OPR_NOBINOPR => 0

/-- Right priority of each binary operator; power and concat are
right-associative. -/
def prioRight : BinOprT → Int
  | .OPR_ADD | .OPR_SUB => 5
  | .OPR_MULT | .OPR_DIV => 6
  | .OPR_POW => 8
  | .OPR_CONCAT => 3
  | .OPR_NE | .OPR_EQ | .OPR_LT | .OPR_LE | .OPR_GT | .OPR_GE => 2
  | .OPR_AND | .OPR_OR => 1
  | .OPR_NOBINOPR => 0

/-- Priority for unary operators (lparser.c UNARY_PRIORITY). -/
def UNARY_PRIORITY : Int := 7

/-- lcode.c luaK_fixfor: resolve the displacement operand of a FORPREP or
LFORPREP instruction at address `prep` to `target`. -/
def luaK_fixfor (ls : LexState) (prep target : Nat) : LexState :=
  let fs := headFS ls
  let i := fs.f.code.getD prep default
  setFS ls { fs with
    f := { fs.f with code := fs.f.code.set prep { i with a := (target : Int) } } }

/-! ### The recursive grammar handlers

The mutually recursive non-terminal functions of lparser.c, expressed as a
single fuel-indexed interpreter: `Job` carries each handler's arguments
(with a separate tag for each C-level loop, which becomes tail recursion),
`Res` the handler's result, and `run fuel job state` executes one handler.
Every recursive call uses the predecessor fuel, so `run` is structurally
recursive and reduces definitionally. -/

/-- One grammar handler invocation: the non-terminal (or loop) plus its
arguments. -/
inductive Job where
  | chunk
  | statement
  | block
  | expr
  | exp1
  | simpleexp
  | simpleexpLoop (v : expdesc)
  | primaryexp
  | subexpr (limit : Int)
  | subexprLoop (limit : Int) (v : expdesc) (op : BinOprT)
  | explist1
  | explist1Cont (n : Nat) (v : expdesc)
  | funcargs (slf : Nat)
  | constructor
  | constructorPart
  | recfield
  | recfields
  | recfieldsCont (tPos : Int) (n : Nat)
  | listfields
  | listfieldsCont (tPos : Int) (n : Nat) (v : expdesc)
  | assignment (v : expdesc) (nvars : Nat)
  | cond
  | whilestat (line : Nat)
  | repeatstat (line : Nat)
  | forbody (nvar : Nat) (prepfor loopfor : Op)
  | fornum (varname : String)
  | forlist (indexname : String)
  | forstat (line : Nat)
  | testThenBlock
  | ifstat (line : Nat)
  | ifLoop (v : expdesc) (esc : List Nat) (line : Nat)
  | localstat
  | localstatNames (nvars : Nat)
  | funcname
  | funcnameLoop (v : expdesc)
  | funcstat (line : Nat)
  | exprstat
  | retstat
  | breakstat
  | parlist
  | parlistLoop (nparams : Nat)
  | body (needself : Bool) (line : Nat)
deriving Repr

/-- Handler result: the C return value (and out-parameter descriptors). -/
inductive Res where
  | unit
  | b (x : Bool)
  | n (x : Nat)
  | e (v : expdesc)
  | oe (op : BinOprT) (v : expdesc)
  | cd (c : Constdesc)
  | be (needself : Bool) (v : expdesc)
  | nb (nparams : Nat) (dots : Bool)
deriving Repr

def Res.toB : Res → Bool
  | .b x => x
  | _ => false

def Res.toN : Res → Nat
  | .n x => x
  | _ => 0

def Res.toE : Res → expdesc
  | .e v => v
  | .oe _ v => v
  | .be _ v => v
  | _ => vexp0

def Res.toOE : Res → BinOprT × expdesc
  | .oe o v => (o, v)
  | _ => (.OPR_NOBINOPR, vexp0)

def Res.toCd : Res → Constdesc
  | .cd c => c
  | _ => {}

def Res.toBe : Res → Bool × expdesc
  | .be x v => (x, v)
  | _ => (false, vexp0)

def Res.toNb : Res → Nat × Bool
  | .nb x y => (x, y)
  | _ => (0, false)

/-- Shape of the recursion callback handed to every handler. -/
abbrev RunT := Job → LexState → Except Err (Res × LexState)

/-- lparser.c explist1, entry: parse the first expression, then the
comma-separated continuation. -/
def explist1F (rec : RunT) (ls : LexState) : Except Err (Res × LexState) :=
  match rec .expr ls with
  | .error e => .error e
  | .ok (r, ls) => rec (.explist1Cont 1 r.toE) ls

/-- lparser.c explist1, comma loop: intermediate expressions are forced to
one value; the last is left with an open number of values. -/
def explist1ContF (rec : RunT) (n : Nat) (v : expdesc) (ls : LexState) :
    Except Err (Res × LexState) :=
  if ls.t = .chr ',' then
    let ls := next ls
    match luaK_tostack ls v true with
    | .error e => .error e
    | .ok (_, ls) =>
      match rec .expr ls with
      | .error e => .error e
      | .ok (r, ls) => rec (.explist1Cont (n + 1) r.toE) ls
  else
    match luaK_tostack ls v false with
    | .error e => .error e
    | .ok (_, ls) => .ok (.n n, ls)

/-- Call-site epilogue of lparser.c funcargs: the call removes function and
arguments from the symbolic stack and a CALL with open return count is
emitted. -/
def funcargsFin (ls : LexState) (slevel : Int) : Except Err (Res × LexState) :=
  let fs := headFS ls
  let ls := setFS ls { fs with stacklevel := slevel }
  match luaK_code2 ls .CALL slevel MULT_RET with
  | .error e => .error e
  | .ok (_, ls) => .ok (.unit, ls)

/-- lparser.c funcargs: parenthesized expression list, inline constructor,
or string literal; `slf` accounts for an implicit self argument. -/
def funcargsF (rec : RunT) (slf : Nat) (ls : LexState) :
    Except Err (Res × LexState) :=
  let slevel : Int := (headFS ls).stacklevel - (slf : Int) - 1
  match ls.t with
  | .chr '(' =>
    let line := ls.linenumber
    let ls := next ls
    let argsStep : Except Err LexState :=
      if ls.t = .chr ')' then .ok ls
      else
        match rec .explist1 ls with
        | .error e => .error e
        | .ok (_, ls) => .ok ls
    match argsStep with
    | .error e => .error e
    | .ok ls =>
      match check_match ls (.chr ')') (.chr '(') line with
      | .error e => .error e
      | .ok ls => funcargsFin ls slevel
  | .chr '{' =>
    match rec .constructor ls with
    | .error e => .error e
    | .ok (_, ls) => funcargsFin ls slevel
  | .STRING s =>
    match code_string ls s with
    | .error e => .error e
    | .ok ls => funcargsFin (next ls) slevel
  | _ => .error (.msg "function arguments expected")

/-- lparser.c recfield: a `name = exp` or `[exp] = exp` pair. -/
def recfieldF (rec : RunT) (ls : LexState) : Except Err (Res × LexState) :=
  let keyStep : Except Err LexState :=
    match ls.t with
    | .NAME _ =>
      match checkname ls with
      | .error e => .error e
      | .ok (c, ls) => luaK_kstr ls c
    | .chr '[' =>
      let ls := next ls
      match rec .exp1 ls with
      | .error e => .error e
      | .ok (_, ls) => check ls (.chr ']')
    | _ => .error (.msg ("<name> or `[" ++ sq ++ " expected"))
  match keyStep with
  | .error e => .error e
  | .ok ls =>
    match check ls (.chr '=') with
    | .error e => .error e
    | .ok ls =>
      match rec .exp1 ls with
      | .error e => .error e
      | .ok (_, ls) => .ok (.unit, ls)

/-- lparser.c recfields, entry. -/
def recfieldsF (rec : RunT) (ls : LexState) : Except Err (Res × LexState) :=
  let tPos : Int := (headFS ls).stacklevel - 1
  match rec .recfield ls with
  | .error e => .error e
  | .ok (_, ls) => rec (.recfieldsCont tPos 1) ls

/-- lparser.c recfields, comma loop with SETMAP flushes every
RFIELDS_PER_FLUSH pairs and a closing SETMAP. -/
def recfieldsContF (rec : RunT) (tPos : Int) (n : Nat) (ls : LexState) :
    Except Err (Res × LexState) :=
  if ls.t = .chr ',' then
    let ls := next ls
    if ls.t = .chr ';' ∨ ls.t = .chr '}' then
      match luaK_code1 ls .SETMAP tPos with
      | .error e => .error e
      | .ok (_, ls) => .ok (.n n, ls)
    else
      let flushStep : Except Err LexState :=
        if n % RFIELDS_PER_FLUSH = 0 then
          match luaK_code1 ls .SETMAP tPos with
          | .error e => .error e
          | .ok (_, ls) => .ok ls
        else .ok ls
      match flushStep with
      | .error e => .error e
      | .ok ls =>
        match rec .recfield ls with
        | .error e => .error e
        | .ok (_, ls) => rec (.recfieldsCont tPos (n + 1)) ls
  else
    match luaK_code1 ls .SETMAP tPos with
    | .error e => .error e
    | .ok (_, ls) => .ok (.n n, ls)

/-- lparser.c listfields, entry. -/
def listfieldsF (rec : RunT) (ls : LexState) : Except Err (Res × LexState) :=
  let tPos : Int := (headFS ls).stacklevel - 1
  match rec .expr ls with
  | .error e => .error e
  | .ok (r, ls) => rec (.listfieldsCont tPos 1 r.toE) ls

/-- lparser.c listfields, comma loop: SETLIST flushes every
LFIELDS_PER_FLUSH elements, a cap on the number of item groups, the last
expression kept open. -/
def listfieldsContF (rec : RunT) (tPos : Int) (n : Nat) (v : expdesc)
    (ls : LexState) : Except Err (Res × LexState) :=
  if ls.t = .chr ',' then
    let ls := next ls
    if ls.t = .chr ';' ∨ ls.t = .chr '}' then
      match luaK_tostack ls v false with
      | .error e => .error e
      | .ok (_, ls) =>
        match luaK_code2 ls .SETLIST (((n - 1) / LFIELDS_PER_FLUSH : Nat) : Int) tPos with
        | .error e => .error e
        | .ok (_, ls) => .ok (.n n, ls)
    else
      match luaK_tostack ls v true with
      | .error e => .error e
      | .ok (_, ls) =>
        match luaX_checklimit (n / LFIELDS_PER_FLUSH) MAXARG_A
            ("`item groups" ++ sq ++ " in a list initializer") with
        | .error e => .error e
        | .ok _ =>
          let flushStep : Except Err LexState :=
            if n % LFIELDS_PER_FLUSH = 0 then
              match luaK_code2 ls .SETLIST (((n - 1) / LFIELDS_PER_FLUSH : Nat) : Int) tPos with
              | .error e => .error e
              | .ok (_, ls) => .ok ls
            else .ok ls
          match flushStep with
          | .error e => .error e
          | .ok ls =>
            match rec .expr ls with
            | .error e => .error e
            | .ok (r, ls) => rec (.listfieldsCont tPos (n + 1) r.toE) ls
  else
    match luaK_tostack ls v false with
    | .error e => .error e
    | .ok (_, ls) =>
      match luaK_code2 ls .SETLIST (((n - 1) / LFIELDS_PER_FLUSH : Nat) : Int) tPos with
      | .error e => .error e
      | .ok (_, ls) => .ok (.n n, ls)

/-- lparser.c constructor_part: empty (kind = delimiter token code), record
fields (kind 1) or list fields (kind 0); a NAME needs one token of
look-ahead to decide. -/
def constructorPartF (rec : RunT) (ls : LexState) :
    Except Err (Res × LexState) :=
  match ls.t with
  | .chr ';' => .ok (.cd { n := 0, k := tokCode ls.t }, ls)
  | .chr '}' => .ok (.cd { n := 0, k := tokCode ls.t }, ls)
  | .NAME _ =>
    let ls := lookaheadT ls
    if ls.lookahead ≠ .chr '=' then
      match rec .listfields ls with
      | .error e => .error e
      | .ok (r, ls) => .ok (.cd { n := r.toN, k := 0 }, ls)
    else
      match rec .recfields ls with
      | .error e => .error e
      | .ok (r, ls) => .ok (.cd { n := r.toN, k := 1 }, ls)
  | .chr '[' =>
    match rec .recfields ls with
    | .error e => .error e
    | .ok (r, ls) => .ok (.cd { n := r.toN, k := 1 }, ls)
  | _ =>
    match rec .listfields ls with
    | .error e => .error e
    | .ok (r, ls) => .ok (.cd { n := r.toN, k := 0 }, ls)

/-- lparser.c constructor: CREATETABLE with a reserved size operand, one or
two sub-parts that must differ in kind, then the operand patched with the
total element count, capped at the U-operand width. -/
def constructorF (rec : RunT) (ls : LexState) : Except Err (Res × LexState) :=
  let line := ls.linenumber
  match luaK_code1 ls .CREATETABLE 0 with
  | .error e => .error e
  | .ok (pcT, ls) =>
    match check ls (.chr '{') with
    | .error e => .error e
    | .ok ls =>
      match rec .constructorPart ls with
      | .error e => .error e
      | .ok (r1, ls) =>
        let cd := r1.toCd
        let (consumed, ls) := optional ls (.chr ';')
        let partsStep : Except Err (Nat × LexState) :=
          if consumed then
            match rec .constructorPart ls with
            | .error e => .error e
            | .ok (r2, ls) =>
              if cd.k ≠ r2.toCd.k then .ok (cd.n + r2.toCd.n, ls)
              else .error (.msg "invalid constructor syntax")
          else .ok (cd.n, ls)
        match partsStep with
        | .error e => .error e
        | .ok (nelems, ls) =>
          match check_match ls (.chr '}') (.chr '{') line with
          | .error e => .error e
          | .ok ls =>
            match luaX_checklimit nelems MAXARG_U
                "elements in a table constructor" with
            | .error e => .error e
            | .ok _ =>
              let fs := headFS ls
              let i := fs.f.code.getD pcT default
              .ok (.unit, setFS ls { fs with
                f := { fs.f with
                  code := fs.f.code.set pcT { i with a := (nelems : Int) } } })

/-- lparser.c primaryexp: literals, constructors, function expressions,
parenthesized expressions, names and explicit upvalue references. -/
def primaryexpF (rec : RunT) (ls : LexState) : Except Err (Res × LexState) :=
  match ls.t with
  | .NUMBER r =>
    let ls := next ls
    match luaK_number ls r with
    | .error e => .error e
    | .ok ls => .ok (.e vexp0, ls)
  | .STRING s =>
    match code_string ls s with
    | .error e => .error e
    | .ok ls => .ok (.e vexp0, next ls)
  | .NIL =>
    match luaK_adjuststack ls (-1) with
    | .error e => .error e
    | .ok ls => .ok (.e vexp0, next ls)
  | .chr '{' =>
    match rec .constructor ls with
    | .error e => .error e
    | .ok (_, ls) => .ok (.e vexp0, ls)
  | .FUNCTION =>
    let ls := next ls
    match rec (.body false ls.linenumber) ls with
    | .error e => .error e
    | .ok (_, ls) => .ok (.e vexp0, ls)
  | .chr '(' =>
    let ls := next ls
    match rec .expr ls with
    | .error e => .error e
    | .ok (r, ls) =>
      match check ls (.chr ')') with
      | .error e => .error e
      | .ok ls => .ok (.e r.toE, ls)
  | .NAME _ =>
    match str_checkname ls with
    | .error e => .error e
    | .ok (n, ls) =>
      match singlevar ls n with
      | .error e => .error e
      | .ok (v, ls) => .ok (.e v, ls)
  | .chr '%' =>
    let ls := next ls
    match str_checkname ls with
    | .error e => .error e
    | .ok (n, ls) =>
      match pushupvalue ls n with
      | .error e => .error e
      | .ok ls => .ok (.e vexp0, ls)
  | _ => .error (.msg "unexpected symbol")

/-- lparser.c simpleexp, entry. -/
def simpleexpF (rec : RunT) (ls : LexState) : Except Err (Res × LexState) :=
  match rec .primaryexp ls with
  | .error e => .error e
  | .ok (r, ls) => rec (.simpleexpLoop r.toE) ls

/-- lparser.c simpleexp, suffix loop: field selection, indexing, method
calls and call arguments. -/
def simpleexpLoopF (rec : RunT) (v : expdesc) (ls : LexState) :
    Except Err (Res × LexState) :=
  match ls.t with
  | .chr '.' =>
    let ls := next ls
    match luaK_tostack ls v true with
    | .error e => .error e
    | .ok (v, ls) =>
      match checkname ls with
      | .error e => .error e
      | .ok (c, ls) =>
        match luaK_kstr ls c with
        | .error e => .error e
        | .ok ls => rec (.simpleexpLoop { v with k := .VINDEXED }) ls
  | .chr '[' =>
    let ls := next ls
    match luaK_tostack ls v true with
    | .error e => .error e
    | .ok (v, ls) =>
      match rec .exp1 ls with
      | .error e => .error e
      | .ok (_, ls) =>
        match check ls (.chr ']') with
        | .error e => .error e
        | .ok ls => rec (.simpleexpLoop { v with k := .VINDEXED }) ls
  | .chr ':' =>
    let ls := next ls
    match luaK_tostack ls v true with
    | .error e => .error e
    | .ok (_, ls) =>
      match checkname ls with
      | .error e => .error e
      | .ok (c, ls) =>
        match luaK_code1 ls .PUSHSELF (c : Int) with
        | .error e => .error e
        | .ok (_, ls) =>
          match rec (.funcargs 1) ls with
          | .error e => .error e
          | .ok (_, ls) => rec (.simpleexpLoop vexp0) ls
  | .chr '(' =>
    match luaK_tostack ls v true with
    | .error e => .error e
    | .ok (_, ls) =>
      match rec (.funcargs 0) ls with
      | .error e => .error e
      | .ok (_, ls) => rec (.simpleexpLoop vexp0) ls
  | .STRING _ =>
    match luaK_tostack ls v true with
    | .error e => .error e
    | .ok (_, ls) =>
      match rec (.funcargs 0) ls with
      | .error e => .error e
      | .ok (_, ls) => rec (.simpleexpLoop vexp0) ls
  | .chr '{' =>
    match luaK_tostack ls v true with
    | .error e => .error e
    | .ok (_, ls) =>
      match rec (.funcargs 0) ls with
      | .error e => .error e
      | .ok (_, ls) => rec (.simpleexpLoop vexp0) ls
  | _ => .ok (.e v, ls)

/-- lparser.c subexpr, entry: optional unary operator, then the operator
loop above the priority limit. -/
def subexprF (rec : RunT) (limit : Int) (ls : LexState) :
    Except Err (Res × LexState) :=
  let uop := getunopr ls.t
  let firstStep : Except Err (expdesc × LexState) :=
    if uop ≠ .OPR_NOUNOPR then
      let ls := next ls
      match rec (.subexpr UNARY_PRIORITY) ls with
      | .error e => .error e
      | .ok (r, ls) => luaK_prefixop ls uop r.toOE.2
    else
      match rec .simpleexp ls with
      | .error e => .error e
      | .ok (r, ls) => .ok (r.toE, ls)
  match firstStep with
  | .error e => .error e
  | .ok (v, ls) => rec (.subexprLoop limit v (getbinopr ls.t)) ls

/-- lparser.c subexpr, binary-operator loop: consume operators whose left
priority exceeds the limit, with infix setup and postfix combination. -/
def subexprLoopF (rec : RunT) (limit : Int) (v : expdesc) (op : BinOprT)
    (ls : LexState) : Except Err (Res × LexState) :=
  if op ≠ .OPR_NOBINOPR ∧ prioLeft op > limit then
    let ls := next ls
    match luaK_infixop ls op v with
    | .error e => .error e
    | .ok (v, ls) =>
      match rec (.subexpr (prioRight op)) ls with
      | .error e => .error e
      | .ok (r, ls) =>
        match luaK_posfix ls op v r.toOE.2 with
        | .error e => .error e
        | .ok (v, ls) => rec (.subexprLoop limit v r.toOE.1) ls
  else .ok (.oe op v, ls)

/-- lparser.c expr. -/
def exprF (rec : RunT) (ls : LexState) : Except Err (Res × LexState) :=
  match rec (.subexpr (-1)) ls with
  | .error e => .error e
  | .ok (r, ls) => .ok (.e r.toOE.2, ls)

/-- lparser.c exp1: an expression forced to exactly one stack value. -/
def exp1F (rec : RunT) (ls : LexState) : Except Err (Res × LexState) :=
  match rec .expr ls with
  | .error e => .error e
  | .ok (r, ls) =>
    match luaK_tostack ls r.toE true with
    | .error e => .error e
    | .ok (_, ls) => .ok (.unit, ls)

/-- lparser.c block: a chunk in a fresh scope; on exit the locals declared
inside are popped and deactivated. -/
def blockF (rec : RunT) (ls : LexState) : Except Err (Res × LexState) :=
  let nact := (headFS ls).nactloc
  match rec .chunk ls with
  | .error e => .error e
  | .ok (_, ls) =>
    let fs := headFS ls
    match luaK_adjuststack ls ((fs.nactloc : Int) - (nact : Int)) with
    | .error e => .error e
    | .ok ls => .ok (.unit, removelocalvars ls ((headFS ls).nactloc - nact))

/-- lparser.c assignment: collect further targets recursively, then parse
the right-hand list and store right to left; VINDEXED stores leave their
table/key pair as garbage counted in the returned value. -/
def assignmentF (rec : RunT) (v : expdesc) (nvars : Nat) (ls : LexState) :
    Except Err (Res × LexState) :=
  match luaX_checklimit nvars MAXVARSLH "variables in a multiple assignment" with
  | .error e => .error e
  | .ok _ =>
    let leftStep : Except Err (Nat × LexState) :=
      if ls.t = .chr ',' then
        let ls := next ls
        match rec .simpleexp ls with
        | .error e => .error e
        | .ok (r, ls) =>
          if r.toE.k = .VEXP then .error (.msg "syntax error")
          else
            match rec (.assignment r.toE (nvars + 1)) ls with
            | .error e => .error e
            | .ok (r, ls) => .ok (r.toN, ls)
      else
        match check ls (.chr '=') with
        | .error e => .error e
        | .ok ls =>
          match rec .explist1 ls with
          | .error e => .error e
          | .ok (r, ls) =>
            match adjust_mult_assign ls nvars r.toN with
            | .error e => .error e
            | .ok ls => .ok (0, ls)
    match leftStep with
    | .error e => .error e
    | .ok (left, ls) =>
      if v.k ≠ .VINDEXED then
        match luaK_storevar ls v with
        | .error e => .error e
        | .ok ls => .ok (.n left, ls)
      else
        match luaK_code2 ls .SETTABLE ((left : Int) + (nvars : Int) + 2) 1 with
        | .error e => .error e
        | .ok (_, ls) => .ok (.n (left + 2), ls)

/-- lparser.c cond: an expression tested for truth, jumping on false. -/
def condF (rec : RunT) (ls : LexState) : Except Err (Res × LexState) :=
  match rec .expr ls with
  | .error e => .error e
  | .ok (r, ls) =>
    match luaK_goiftrue ls r.toE false with
    | .error e => .error e
    | .ok (v, ls) => .ok (.e v, ls)

/-- lparser.c whilestat. -/
def whilestatF (rec : RunT) (line : Nat) (ls : LexState) :
    Except Err (Res × LexState) :=
  let (while_init, ls) := luaK_getlabel ls
  let ls := enterbreak ls
  let ls := next ls
  match rec .cond ls with
  | .error e => .error e
  | .ok (r, ls) =>
    match check ls .DO with
    | .error e => .error e
    | .ok ls =>
      match rec .block ls with
      | .error e => .error e
      | .ok (_, ls) =>
        match luaK_jump ls with
        | .error e => .error e
        | .ok (j, ls) =>
          let ls := luaK_patchlist ls j while_init
          let (lbl, ls) := luaK_getlabel ls
          let ls := luaK_patchlist ls r.toE.fl lbl
          match check_match ls .END .WHILE line with
          | .error e => .error e
          | .ok ls => .ok (.unit, leavebreak ls)

/-- lparser.c repeatstat. -/
def repeatstatF (rec : RunT) (line : Nat) (ls : LexState) :
    Except Err (Res × LexState) :=
  let (repeat_init, ls) := luaK_getlabel ls
  let ls := enterbreak ls
  let ls := next ls
  match rec .block ls with
  | .error e => .error e
  | .ok (_, ls) =>
    match check_match ls .UNTIL .REPEAT line with
    | .error e => .error e
    | .ok ls =>
      match rec .cond ls with
      | .error e => .error e
      | .ok (r, ls) =>
        let ls := luaK_patchlist ls r.toE.fl repeat_init
        .ok (.unit, leavebreak ls)

/-- lparser.c forbody: the loop preparation instruction with unresolved
displacement, the scoped control variables, the block, the loop instruction
jumping back, and the fixed-up displacement. -/
def forbodyF (rec : RunT) (nvar : Nat) (prepfor loopfor : Op) (ls : LexState) :
    Except Err (Res × LexState) :=
  match luaK_code1 ls prepfor (-1) with
  | .error e => .error e
  | .ok (prep, ls) =>
    let (blockinit, ls) := luaK_getlabel ls
    match check ls .DO with
    | .error e => .error e
    | .ok ls =>
      let ls := adjustlocalvars ls nvar
      match rec .block ls with
      | .error e => .error e
      | .ok (_, ls) =>
        match luaK_code1 ls loopfor (-1) with
        | .error e => .error e
        | .ok (lp, ls) =>
          let ls := luaK_patchlist ls [lp] blockinit
          let (lbl, ls) := luaK_getlabel ls
          let ls := luaK_fixfor ls prep lbl
          .ok (.unit, removelocalvars ls nvar)

/-- lparser.c fornum: numeric for with default step 1 and the reserved
limit/step locals. -/
def fornumF (rec : RunT) (varname : String) (ls : LexState) :
    Except Err (Res × LexState) :=
  match check ls (.chr '=') with
  | .error e => .error e
  | .ok ls =>
    match rec .exp1 ls with
    | .error e => .error e
    | .ok (_, ls) =>
      match check ls (.chr ',') with
      | .error e => .error e
      | .ok ls =>
        match rec .exp1 ls with
        | .error e => .error e
        | .ok (_, ls) =>
          let (hasStep, ls) := optional ls (.chr ',')
          let stepStep : Except Err LexState :=
            if hasStep then
              match rec .exp1 ls with
              | .error e => .error e
              | .ok (_, ls) => .ok ls
            else
              match luaK_code1 ls .PUSHINT 1 with
              | .error e => .error e
              | .ok (_, ls) => .ok ls
          match stepStep with
          | .error e => .error e
          | .ok ls =>
            match new_localvar ls varname 0 with
            | .error e => .error e
            | .ok ls =>
              match new_localvar ls "(limit)" 1 with
              | .error e => .error e
              | .ok ls =>
                match new_localvar ls "(step)" 2 with
                | .error e => .error e
                | .ok ls => rec (.forbody 3 .FORPREP .FORLOOP) ls

/-- lparser.c forlist: generic for; `in` is matched as a contextual name,
not a keyword. -/
def forlistF (rec : RunT) (indexname : String) (ls : LexState) :
    Except Err (Res × LexState) :=
  match check ls (.chr ',') with
  | .error e => .error e
  | .ok ls =>
    match str_checkname ls with
    | .error e => .error e
    | .ok (valname, ls) =>
      if ls.t = .NAME "in" then
        let ls := next ls
        match rec .exp1 ls with
        | .error e => .error e
        | .ok (_, ls) =>
          match new_localvar ls "(table)" 0 with
          | .error e => .error e
          | .ok ls =>
            match new_localvar ls "(index)" 1 with
            | .error e => .error e
            | .ok ls =>
              match new_localvar ls indexname 2 with
              | .error e => .error e
              | .ok ls =>
                match new_localvar ls valname 3 with
                | .error e => .error e
                | .ok ls => rec (.forbody 4 .LFORPREP .LFORLOOP) ls
      else .error (.msg ("`in" ++ sq ++ " expected"))

/-- lparser.c forstat: dispatch between numeric and generic for under one
break label. -/
def forstatF (rec : RunT) (line : Nat) (ls : LexState) :
    Except Err (Res × LexState) :=
  let ls := enterbreak ls
  let ls := next ls
  match str_checkname ls with
  | .error e => .error e
  | .ok (varname, ls) =>
    let bodyStep : Except Err (Res × LexState) :=
      match ls.t with
      | .chr '=' => rec (.fornum varname) ls
      | .chr ',' => rec (.forlist varname) ls
      | _ => .error (.msg ("`=" ++ sq ++ " or `," ++ sq ++ " expected"))
    match bodyStep with
    | .error e => .error e
    | .ok (_, ls) =>
      match check_match ls .END .FOR line with
      | .error e => .error e
      | .ok ls => .ok (.unit, leavebreak ls)

/-- lparser.c test_then_block: IF/ELSEIF condition, THEN, block. -/
def testThenBlockF (rec : RunT) (ls : LexState) : Except Err (Res × LexState) :=
  let ls := next ls
  match rec .cond ls with
  | .error e => .error e
  | .ok (r, ls) =>
    match check ls .THEN with
    | .error e => .error e
    | .ok ls =>
      match rec .block ls with
      | .error e => .error e
      | .ok (_, ls) => .ok (.e r.toE, ls)

/-- lparser.c ifstat, entry. -/
def ifstatF (rec : RunT) (line : Nat) (ls : LexState) :
    Except Err (Res × LexState) :=
  match rec .testThenBlock ls with
  | .error e => .error e
  | .ok (r, ls) => rec (.ifLoop r.toE [] line) ls

/-- lparser.c ifstat, ELSEIF loop and ELSE epilogue: one escape list
collects the jumps over the remaining branches; each false exit is resolved
at the next branch label. -/
def ifLoopF (rec : RunT) (v : expdesc) (esc : List Nat) (line : Nat)
    (ls : LexState) : Except Err (Res × LexState) :=
  if ls.t = .ELSEIF then
    match luaK_jump ls with
    | .error e => .error e
    | .ok (j, ls) =>
      let esc := esc ++ j
      let (lbl, ls) := luaK_getlabel ls
      let ls := luaK_patchlist ls v.fl lbl
      match rec .testThenBlock ls with
      | .error e => .error e
      | .ok (r, ls) => rec (.ifLoop r.toE esc line) ls
  else
    let elseStep : Except Err (List Nat × LexState) :=
      if ls.t = .ELSE then
        match luaK_jump ls with
        | .error e => .error e
        | .ok (j, ls) =>
          let esc := esc ++ j
          let (lbl, ls) := luaK_getlabel ls
          let ls := luaK_patchlist ls v.fl lbl
          let ls := next ls
          match rec .block ls with
          | .error e => .error e
          | .ok (_, ls) => .ok (esc, ls)
      else .ok (esc ++ v.fl, ls)
    match elseStep with
    | .error e => .error e
    | .ok (esc, ls) =>
      let (lbl, ls) := luaK_getlabel ls
      let ls := luaK_patchlist ls esc lbl
      match check_match ls .END .IF line with
      | .error e => .error e
      | .ok ls => .ok (.unit, ls)

/-- lparser.c localstat, name loop: register each declared name without
activating it. -/
def localstatNamesF (rec : RunT) (nvars : Nat) (ls : LexState) :
    Except Err (Res × LexState) :=
  let ls := next ls
  match str_checkname ls with
  | .error e => .error e
  | .ok (name, ls) =>
    match new_localvar ls name nvars with
    | .error e => .error e
    | .ok ls =>
      if ls.t = .chr ',' then rec (.localstatNames (nvars + 1)) ls
      else .ok (.n (nvars + 1), ls)

/-- lparser.c localstat: the names, the optional initializer list, arity
adjustment, and only then activation of the new locals. -/
def localstatF (rec : RunT) (ls : LexState) : Except Err (Res × LexState) :=
  match rec (.localstatNames 0) ls with
  | .error e => .error e
  | .ok (r, ls) =>
    let nvars := r.toN
    let (hasInit, ls) := optional ls (.chr '=')
    let expsStep : Except Err (Nat × LexState) :=
      if hasInit then
        match rec .explist1 ls with
        | .error e => .error e
        | .ok (r, ls) => .ok (r.toN, ls)
      else .ok (0, ls)
    match expsStep with
    | .error e => .error e
    | .ok (nexps, ls) =>
      match adjust_mult_assign ls nvars nexps with
      | .error e => .error e
      | .ok ls => .ok (.unit, adjustlocalvars ls nvars)

/-- lparser.c funcname, entry. -/
def funcnameF (rec : RunT) (ls : LexState) : Except Err (Res × LexState) :=
  match str_checkname ls with
  | .error e => .error e
  | .ok (n, ls) =>
    match singlevar ls n with
    | .error e => .error e
    | .ok (v, ls) => rec (.funcnameLoop v) ls

/-- lparser.c funcname, dotted-path loop with the optional final colon that
demands an implicit self parameter. -/
def funcnameLoopF (rec : RunT) (v : expdesc) (ls : LexState) :
    Except Err (Res × LexState) :=
  if ls.t = .chr '.' then
    let ls := next ls
    match luaK_tostack ls v true with
    | .error e => .error e
    | .ok (v, ls) =>
      match checkname ls with
      | .error e => .error e
      | .ok (c, ls) =>
        match luaK_kstr ls c with
        | .error e => .error e
        | .ok ls => rec (.funcnameLoop { v with k := .VINDEXED }) ls
  else if ls.t = .chr ':' then
    let ls := next ls
    match luaK_tostack ls v true with
    | .error e => .error e
    | .ok (v, ls) =>
      match checkname ls with
      | .error e => .error e
      | .ok (c, ls) =>
        match luaK_kstr ls c with
        | .error e => .error e
        | .ok ls => .ok (.be true { v with k := .VINDEXED }, ls)
  else .ok (.be false v, ls)

/-- lparser.c funcstat. -/
def funcstatF (rec : RunT) (line : Nat) (ls : LexState) :
    Except Err (Res × LexState) :=
  let ls := next ls
  match rec .funcname ls with
  | .error e => .error e
  | .ok (r, ls) =>
    match rec (.body r.toBe.1 line) ls with
    | .error e => .error e
    | .ok (_, ls) =>
      match luaK_storevar ls r.toBe.2 with
      | .error e => .error e
      | .ok ls => .ok (.unit, ls)

/-- lparser.c exprstat: a call statement (the expression ends as a VEXP
whose last instruction must be an open call, fixed to zero results) or a
multi-assignment. -/
def exprstatF (rec : RunT) (ls : LexState) : Except Err (Res × LexState) :=
  match rec .simpleexp ls with
  | .error e => .error e
  | .ok (r, ls) =>
    if r.toE.k = .VEXP then
      if luaK_lastisopen (headFS ls) then
        match luaK_setcallreturns ls 0 with
        | .error e => .error e
        | .ok ls => .ok (.unit, ls)
      else .error (.msg "syntax error")
    else
      match rec (.assignment r.toE 1) ls with
      | .error e => .error e
      | .ok (r, ls) =>
        match luaK_adjuststack ls (r.toN : Int) with
        | .error e => .error e
        | .ok ls => .ok (.unit, ls)

/-- lparser.c retstat: optional expression list, RETURN at the active-local
level, symbolic stack reset. -/
def retstatF (rec : RunT) (ls : LexState) : Except Err (Res × LexState) :=
  let ls := next ls
  let expsStep : Except Err LexState :=
    if ¬ block_follow ls.t ∧ ls.t ≠ .chr ';' then
      match rec .explist1 ls with
      | .error e => .error e
      | .ok (_, ls) => .ok ls
    else .ok ls
  match expsStep with
  | .error e => .error e
  | .ok ls =>
    match luaK_code1 ls .RETURN ((headFS ls).nactloc : Int) with
    | .error e => .error e
    | .ok (_, ls) =>
      let fs := headFS ls
      .ok (.unit, setFS ls { fs with stacklevel := (fs.nactloc : Int) })

/-- lparser.c breakstat: error without an enclosing loop; otherwise adjust
the stack to the loop entry level, emit the break jump into the break list,
and restore the symbolic accounting. -/
def breakstatF (ls : LexState) : Except Err (Res × LexState) :=
  let fs := headFS ls
  let currentlevel := fs.stacklevel
  match fs.bl with
  | [] => .error (.msg "no loop to break")
  | bl :: _ =>
    let ls := next ls
    match luaK_adjuststack ls (currentlevel - bl.stacklevel) with
    | .error e => .error e
    | .ok ls =>
      match luaK_jump ls with
      | .error e => .error e
      | .ok (j, ls) =>
        let fs := headFS ls
        let ls :=
          match fs.bl with
          | [] => ls
          | bl2 :: r2 => setFS ls { fs with
              bl := { bl2 with breaklist := bl2.breaklist ++ j } :: r2 }
        match luaK_adjuststack ls (bl.stacklevel - currentlevel) with
        | .error e => .error e
        | .ok ls => .ok (.unit, ls)

/-- lparser.c statement: dispatch on the leading token; the returned flag
is true exactly for RETURN and BREAK, which must be last in their block. -/
def statementF (rec : RunT) (ls : LexState) : Except Err (Res × LexState) :=
  let line := ls.linenumber
  match ls.t with
  | .IF =>
    match rec (.ifstat line) ls with
    | .error e => .error e
    | .ok (_, ls) => .ok (.b false, ls)
  | .WHILE =>
    match rec (.whilestat line) ls with
    | .error e => .error e
    | .ok (_, ls) => .ok (.b false, ls)
  | .DO =>
    let ls := next ls
    match rec .block ls with
    | .error e => .error e
    | .ok (_, ls) =>
      match check_match ls .END .DO line with
      | .error e => .error e
      | .ok ls => .ok (.b false, ls)
  | .FOR =>
    match rec (.forstat line) ls with
    | .error e => .error e
    | .ok (_, ls) => .ok (.b false, ls)
  | .REPEAT =>
    match rec (.repeatstat line) ls with
    | .error e => .error e
    | .ok (_, ls) => .ok (.b false, ls)
  | .FUNCTION =>
    let ls := lookaheadT ls
    if ls.lookahead = .chr '(' then
      match rec .exprstat ls with
      | .error e => .error e
      | .ok (_, ls) => .ok (.b false, ls)
    else
      match rec (.funcstat line) ls with
      | .error e => .error e
      | .ok (_, ls) => .ok (.b false, ls)
  | .LOCAL =>
    match rec .localstat ls with
    | .error e => .error e
    | .ok (_, ls) => .ok (.b false, ls)
  | .RETURN =>
    match rec .retstat ls with
    | .error e => .error e
    | .ok (_, ls) => .ok (.b true, ls)
  | .BREAK =>
    match breakstatF ls with
    | .error e => .error e
    | .ok (_, ls) => .ok (.b true, ls)
  | _ =>
    match rec .exprstat ls with
    | .error e => .error e
    | .ok (_, ls) => .ok (.b false, ls)

/-- lparser.c parlist, parameter loop. -/
def parlistLoopF (rec : RunT) (nparams : Nat) (ls : LexState) :
    Except Err (Res × LexState) :=
  match ls.t with
  | .DOTS => .ok (.nb nparams true, next ls)
  | .NAME _ =>
    match str_checkname ls with
    | .error e => .error e
    | .ok (name, ls) =>
      match new_localvar ls name nparams with
      | .error e => .error e
      | .ok ls =>
        let (c, ls) := optional ls (.chr ',')
        if c then rec (.parlistLoop (nparams + 1)) ls
        else .ok (.nb (nparams + 1) false, ls)
  | _ => .error (.msg ("<name> or `..." ++ sq ++ " expected"))

/-- lparser.c parlist, entry. -/
def parlistF (rec : RunT) (ls : LexState) : Except Err (Res × LexState) :=
  if ls.t = .chr ')' then
    match code_params ls 0 false with
    | .error e => .error e
    | .ok ls => .ok (.unit, ls)
  else
    match rec (.parlistLoop 0) ls with
    | .error e => .error e
    | .ok (r, ls) =>
      match code_params ls r.toNb.1 r.toNb.2 with
      | .error e => .error e
      | .ok ls => .ok (.unit, ls)

/-- lparser.c body: a nested function - fresh FuncState, optional implicit
self, parameters, chunk, close, and CLOSURE emission in the parent. -/
def bodyF (rec : RunT) (needself : Bool) (line : Nat) (ls : LexState) :
    Except Err (Res × LexState) :=
  let ls := open_func ls
  let fs := headFS ls
  let ls := setFS ls { fs with f := { fs.f with lineDefined := line } }
  match check ls (.chr '(') with
  | .error e => .error e
  | .ok ls =>
    let selfStep : Except Err LexState :=
      if needself then
        match new_localvar ls "self" 0 with
        | .error e => .error e
        | .ok ls => .ok (adjustlocalvars ls 1)
      else .ok ls
    match selfStep with
    | .error e => .error e
    | .ok ls =>
      match rec .parlist ls with
      | .error e => .error e
      | .ok (_, ls) =>
        match check ls (.chr ')') with
        | .error e => .error e
        | .ok ls =>
          match rec .chunk ls with
          | .error e => .error e
          | .ok (_, ls) =>
            match check_match ls .END .FUNCTION line with
            | .error e => .error e
            | .ok ls =>
              match close_func ls with
              | .error e => .error e
              | .ok (fsC, ls) =>
                match pushclosure ls fsC with
                | .error e => .error e
                | .ok ls => .ok (.unit, ls)

/-- lparser.c chunk: statements until a block-follow token, stopping right
after a statement that must be last (RETURN/BREAK), each statement followed
by at most one optional semicolon. -/
def chunkF (rec : RunT) (ls : LexState) : Except Err (Res × LexState) :=
  if block_follow ls.t then .ok (.unit, ls)
  else
    match rec .statement ls with
    | .error e => .error e
    | .ok (r, ls) =>
      let (_, ls) := optional ls (.chr ';')
      if r.toB then .ok (.unit, ls)
      else rec .chunk ls

/-- Dispatch one handler through the recursion callback. -/
def runStep (rec : RunT) : Job → LexState → Except Err (Res × LexState)
  | .chunk, ls => chunkF rec ls
  | .statement, ls => statementF rec ls
  | .block, ls => blockF rec ls
  | .expr, ls => exprF rec ls
  | .exp1, ls => exp1F rec ls
  | .simpleexp, ls => simpleexpF rec ls
  | .simpleexpLoop v, ls => simpleexpLoopF rec v ls
  | .primaryexp, ls => primaryexpF rec ls
  | .subexpr limit, ls => subexprF rec limit ls
  | .subexprLoop limit v op, ls => subexprLoopF rec limit v op ls
  | .explist1, ls => explist1F rec ls
  | .explist1Cont n v, ls => explist1ContF rec n v ls
  | .funcargs slf, ls => funcargsF rec slf ls
  | .constructor, ls => constructorF rec ls
  | .constructorPart, ls => constructorPartF rec ls
  | .recfield, ls => recfieldF rec ls
  | .recfields, ls => recfieldsF rec ls
  | .recfieldsCont t n, ls => recfieldsContF rec t n ls
  | .listfields, ls => listfieldsF rec ls
  | .listfieldsCont t n v, ls => listfieldsContF rec t n v ls
  | .assignment v nvars, ls => assignmentF rec v nvars ls
  | .cond, ls => condF rec ls
  | .whilestat line, ls => whilestatF rec line ls
  | .repeatstat line, ls => repeatstatF rec line ls
  | .forbody nvar p l, ls => forbodyF rec nvar p l ls
  | .fornum varname, ls => fornumF rec varname ls
  | .forlist indexname, ls => forlistF rec indexname ls
  | .forstat line, ls => forstatF rec line ls
  | .testThenBlock, ls => testThenBlockF rec ls
  | .ifstat line, ls => ifstatF rec line ls
  | .ifLoop v esc line, ls => ifLoopF rec v esc line ls
  | .localstat, ls => localstatF rec ls
  | .localstatNames nvars, ls => localstatNamesF rec nvars ls
  | .funcname, ls => funcnameF rec ls
  | .funcnameLoop v, ls => funcnameLoopF rec v ls
  | .funcstat line, ls => funcstatF rec line ls
  | .exprstat, ls => exprstatF rec ls
  | .retstat, ls => retstatF rec ls
  | .breakstat, ls => breakstatF ls
  | .parlist, ls => parlistF rec ls
  | .parlistLoop n, ls => parlistLoopF rec n ls
  | .body needself line, ls => bodyF rec needself line ls

/-- The fuel-indexed interpreter over the grammar handlers. -/
def run : Nat → Job → LexState → Except Err (Res × LexState)
  | 0, _, _ => .error .fuel
  | n + 1, j, ls => runStep (run n) j ls

/-- lparser.c luaY_parser: open the main function, read the first token,
parse the chunk, demand end of stream, close, and return the prototype. -/
def luaY_parse (tokens : List (Tk × Nat)) (fuel : Nat) : Except Err Proto :=
  let ls : LexState := { source := "chunk", rest := tokens }
  let ls := open_func ls
  let ls := next ls
  match run fuel .chunk ls with
  | .error e => .error e
  | .ok (_, ls) =>
    if ls.t = .EOS then
      match close_func ls with
      | .error e => .error e
      | .ok (fs, _) => .ok fs.f
    else .error (.msg "<eof> expected")

/-! ### Basic unfolding lemmas -/

theorem run_succ (n : Nat) (j : Job) (ls : LexState) :
    run (n + 1) j ls = runStep (run n) j ls := rfl

theorem setFS_t (ls : LexState) (fs : FuncState) : (setFS ls fs).t = ls.t := rfl

theorem setFS_head (ls : LexState) (fs : FuncState) :
    headFS (setFS ls fs) = fs := rfl

theorem patchListCode_nil (c : List Instr) (target : Nat) :
    patchListCode c [] target = c := rfl

theorem check_ok (ls : LexState) (c : Tk) (h : ls.t = c) :
    check ls c = .ok (next ls) := by
  unfold check
  rw [h]
  simp

theorem optional_yes (ls : LexState) (c : Tk) (h : ls.t = c) :
    optional ls c = (true, next ls) := by
  unfold optional
  rw [h]
  simp

theorem optional_no (ls : LexState) (c : Tk) (h : ls.t ≠ c) :
    optional ls c = (false, ls) := by
  unfold optional
  rw [if_neg h]

theorem check_match_ok (ls : LexState) (what who : Tk) (w : Nat)
    (h : ls.t = what) : check_match ls what who w = .ok (next ls) := by
  unfold check_match
  rw [h]
  simp

theorem luaX_checklimit_ok (val limit : Nat) (m : String) (h : val ≤ limit) :
    luaX_checklimit val limit m = .ok () := by
  unfold luaX_checklimit
  rw [if_neg (by omega)]

/-! ### Behaviour of the modelled emitter operations -/

theorem luaK_deltastack_ok (ls : LexState) (d : Int)
    (h : d ≤ 0 ∨ (headFS ls).stacklevel + d ≤ MAXSTACK) :
    ∃ mx, luaK_deltastack ls d =
      .ok (setFS ls { headFS ls with
        stacklevel := (headFS ls).stacklevel + d,
        f := { (headFS ls).f with maxstacksize := mx } }) := by
  unfold luaK_deltastack
  dsimp only
  by_cases h1 : d > 0 ∧ (headFS ls).stacklevel + d > (headFS ls).f.maxstacksize
  · rw [if_pos h1]
    by_cases h2 : (headFS ls).stacklevel + d > MAXSTACK
    · exfalso
      simp only [MAXSTACK] at h h2
      omega
    · rw [if_neg h2]
      exact ⟨_, rfl⟩
  · rw [if_neg h1]
    exact ⟨_, rfl⟩

theorem luaK_code_ok (ls : LexState) (i : Instr)
    (hjlt : (headFS ls).jlt = [])
    (h : instrEffect (headFS ls).stacklevel i ≤ (headFS ls).stacklevel ∨
         instrEffect (headFS ls).stacklevel i ≤ MAXSTACK) :
    ∃ mx, luaK_code ls i = .ok ((headFS ls).pc,
      setFS ls { headFS ls with
        pc := (headFS ls).pc + 1,
        jlt := [],
        stacklevel := instrEffect (headFS ls).stacklevel i,
        f := { (headFS ls).f with
          maxstacksize := mx,
          code := (headFS ls).f.code ++ [i],
          lineinfo := (headFS ls).f.lineinfo ++ [(ls.lastline : Int)] } }) := by
  unfold luaK_code
  dsimp only
  rw [hjlt, patchListCode_nil]
  unfold luaK_deltastack
  dsimp only [setFS_head]
  have e1 : (headFS ls).stacklevel +
      (instrEffect (headFS ls).stacklevel i - (headFS ls).stacklevel) =
      instrEffect (headFS ls).stacklevel i := by ring
  by_cases h1 : instrEffect (headFS ls).stacklevel i - (headFS ls).stacklevel > 0 ∧
      (headFS ls).stacklevel +
        (instrEffect (headFS ls).stacklevel i - (headFS ls).stacklevel) >
        (headFS ls).f.maxstacksize
  · rw [if_pos h1]
    by_cases h2 : (headFS ls).stacklevel +
        (instrEffect (headFS ls).stacklevel i - (headFS ls).stacklevel) > MAXSTACK
    · exfalso
      simp only [MAXSTACK] at h h2
      omega
    · rw [if_neg h2]
      rw [e1]
      exact ⟨_, rfl⟩
  · rw [if_neg h1]
    rw [e1]
    exact ⟨_, rfl⟩



theorem lastisopen_spec (fs : FuncState) (h : luaK_lastisopen fs = true) :
    fs.lasttarget < fs.pc ∧
    (fs.f.code.getD (fs.pc - 1) default).op = .CALL ∧
    (fs.f.code.getD (fs.pc - 1) default).b = MULT_RET := by
  unfold luaK_lastisopen at h
  rw [Bool.and_eq_true] at h
  obtain ⟨h1, h2⟩ := h
  refine ⟨by simpa using h1, ?_⟩
  rcases e : fs.f.code.getD (fs.pc - 1) default with ⟨op, a, b⟩
  rw [e] at h2
  cases op <;> simp_all

theorem luaK_setcallreturns_open (ls : LexState) (n : Int)
    (hopen : luaK_lastisopen (headFS ls) = true)
    (h : n ≤ 0 ∨ (headFS ls).stacklevel + n ≤ MAXSTACK) :
    ∃ mx, luaK_setcallreturns ls n = .ok (setFS ls { headFS ls with
      stacklevel := (headFS ls).stacklevel + n,
      f := { (headFS ls).f with
        maxstacksize := mx,
        code := (headFS ls).f.code.set ((headFS ls).pc - 1)
          { (headFS ls).f.code.getD ((headFS ls).pc - 1) default with b := n } } }) := by
  unfold luaK_setcallreturns
  dsimp only
  rw [hopen, if_pos rfl]
  obtain ⟨mx, hd⟩ := luaK_deltastack_ok
    (setFS ls { headFS ls with
      f := { (headFS ls).f with
        code := (headFS ls).f.code.set ((headFS ls).pc - 1)
          { (headFS ls).f.code.getD ((headFS ls).pc - 1) default with b := n } } })
    n (by exact h)
  rw [hd]
  exact ⟨mx, rfl⟩

theorem luaK_setcallreturns_closed (ls : LexState) (n : Int)
    (hopen : luaK_lastisopen (headFS ls) = false) :
    luaK_setcallreturns ls n = .ok ls := by
  unfold luaK_setcallreturns
  dsimp only
  rw [hopen]
  simp

theorem luaK_adjuststack_zero (ls : LexState) : luaK_adjuststack ls 0 = .ok ls := by
  unfold luaK_adjuststack
  norm_num

theorem luaK_adjuststack_pos (ls : LexState) (n : Int) (hn : 0 < n)
    (hjlt : (headFS ls).jlt = []) :
    ∃ mx, luaK_adjuststack ls n = .ok (setFS ls { headFS ls with
      pc := (headFS ls).pc + 1,
      jlt := [],
      stacklevel := (headFS ls).stacklevel - n,
      f := { (headFS ls).f with
        maxstacksize := mx,
        code := (headFS ls).f.code ++ [{ op := Op.POP, a := n }],
        lineinfo := (headFS ls).f.lineinfo ++ [(ls.lastline : Int)] } }) := by
  unfold luaK_adjuststack luaK_code1
  rw [if_pos hn]
  obtain ⟨mx, hc⟩ := luaK_code_ok ls { op := Op.POP, a := n } hjlt
    (Or.inl (by simp only [instrEffect]; omega))
  rw [hc]
  exact ⟨mx, rfl⟩

theorem luaK_adjuststack_neg (ls : LexState) (n : Int) (hn : n < 0)
    (hjlt : (headFS ls).jlt = [])
    (hb : (headFS ls).stacklevel - n ≤ MAXSTACK) :
    ∃ mx, luaK_adjuststack ls n = .ok (setFS ls { headFS ls with
      pc := (headFS ls).pc + 1,
      jlt := [],
      stacklevel := (headFS ls).stacklevel - n,
      f := { (headFS ls).f with
        maxstacksize := mx,
        code := (headFS ls).f.code ++ [{ op := Op.PUSHNIL, a := -n }],
        lineinfo := (headFS ls).f.lineinfo ++ [(ls.lastline : Int)] } }) := by
  unfold luaK_adjuststack luaK_code1
  rw [if_neg (by omega), if_pos hn]
  obtain ⟨mx, hc⟩ := luaK_code_ok ls { op := Op.PUSHNIL, a := -n } hjlt
    (Or.inr (by simp only [instrEffect]; omega))
  rw [hc]
  refine ⟨mx, ?_⟩
  have e1 : (headFS ls).stacklevel + -n = (headFS ls).stacklevel - n := by ring
  simp only [instrEffect, e1]

theorem getD_concat (l : List Instr) (x : Instr) :
    (l ++ [x]).getD l.length default = x := by
  simp [List.getD_eq_getElem?_getD, List.getElem?_concat_length]

theorem getD_set_self (l : List Instr) (i : Nat) (x : Instr)
    (h : i < l.length) : (l.set i x).getD i default = x := by
  simp [List.getD_eq_getElem?_getD, List.getElem?_set_self, h]

/-! ### Claim C9 -/

/-- C9: parsing an empty chunk (immediately end-of-stream) succeeds with a
prototype whose code is exactly one RETURN with operand 0, numparams 0,
vararg flag clear, no upvalues, and all three constant vectors empty. -/
theorem C9_empty_chunk :
    ∃ p : Proto, luaY_parse [] 2 = .ok p ∧
      p.code = [{ op := Op.RETURN, a := 0, b := 0 }] ∧
      p.numparams = 0 ∧ p.is_vararg = false ∧ p.nupvalues = 0 ∧
      p.kstr = [] ∧ p.knum = [] ∧ p.kproto = [] :=
  ⟨_, rfl, rfl, rfl, rfl, rfl, rfl, rfl, rfl⟩

/-! ### Claim C6 -/

/-- A fresh main-chunk FuncState, as produced by open_func. -/
def fs0 : FuncState := { f := { source := "chunk" } }

/-- Token stream of the statement `a = {;;}`. -/
def c6toks : List (Tk × Nat) :=
  [(.NAME "a", 1), (.chr '=', 1), (.chr '{', 1), (.chr ';', 1),
   (.chr ';', 1), (.chr '}', 1)]

/-- Mid-parse state at the opening brace of the constructor `{;;}`. -/
def c6state : LexState :=
  { fss := [fs0], t := .chr '{',
    rest := [(.chr ';', 1), (.chr ';', 1), (.chr '}', 1)],
    source := "chunk" }

/-- C6 counterexample: in `{;;}` both sub-parts are present and have the
same kind tag, but the tag is the semicolon delimiter of an empty part —
neither list-fields (0) nor record-fields (1).  The constructor, and the
whole chunk `a = {;;}`, are nevertheless rejected with "invalid
constructor syntax", so failure is not confined to the both-list-fields or
both-record-fields situations the claim describes. -/
theorem C6_counterexample :
    (∃ p sE, luaK_code1 c6state .CREATETABLE 0 = .ok (p, sE) ∧
      (∃ cd1 s1, run 5 .constructorPart (next sE) = .ok (.cd cd1, s1) ∧
        ¬ (cd1.k = 0 ∨ cd1.k = 1) ∧ s1.t = .chr ';' ∧
        (∃ cd2 s2, run 5 .constructorPart (next s1) = .ok (.cd cd2, s2) ∧
          ¬ (cd2.k = 0 ∨ cd2.k = 1) ∧ cd1.k = cd2.k))) ∧
    run 6 .constructor c6state = .error (.msg "invalid constructor syntax") ∧
    luaY_parse c6toks 40 = .error (.msg "invalid constructor syntax") :=
  ⟨⟨_, _, rfl, _, _, rfl, by decide, rfl, _, _, rfl, by decide, by decide⟩,
   rfl, rfl⟩

/-- C6 (amended): when two sub-parts are present, compilation fails with
"invalid constructor syntax" exactly when the parts' kind tags are equal,
where an empty sub-part's tag is the delimiter token that ends it (so in
particular `{;;}` with two empty parts also fails); when the tags differ,
given the closing brace and the element cap, the constructor is
accepted. -/
theorem C6_kinds (fuel : Nat) (s0 sE s1 s2 : LexState) (pcT : Nat)
    (cd1 cd2 : Constdesc)
    (hE : luaK_code1 s0 .CREATETABLE 0 = .ok (pcT, sE))
    (hEt : sE.t = .chr '{')
    (h1 : run fuel .constructorPart (next sE) = .ok (.cd cd1, s1))
    (hsemi : s1.t = .chr ';')
    (h2 : run fuel .constructorPart (next s1) = .ok (.cd cd2, s2)) :
    (cd1.k = cd2.k →
      run (fuel + 1) .constructor s0 =
        .error (.msg "invalid constructor syntax")) ∧
    (cd1.k ≠ cd2.k → s2.t = .chr '}' → cd1.n + cd2.n ≤ MAXARG_U →
      ∃ s4, run (fuel + 1) .constructor s0 = .ok (.unit, s4)) := by
  have e0 : run (fuel + 1) .constructor s0 = constructorF (run fuel) s0 := rfl
  constructor
  · intro hk
    have hne : ¬ (cd1.k ≠ cd2.k) := not_not_intro hk
    simp only [e0, constructorF, hE, check_ok sE _ hEt, h1,
      optional_yes s1 _ hsemi, h2, Res.toCd, if_neg hne, if_true, if_false]
  · intro hk hbr hlim
    simp only [e0, constructorF, hE, check_ok sE _ hEt, h1,
      optional_yes s1 _ hsemi, h2, Res.toCd, if_pos hk,
      check_match_ok s2 _ _ _ hbr, luaX_checklimit_ok _ _ _ hlim,
      if_true, if_false]
    exact ⟨_, rfl⟩

/-- Mid-parse state at the opening brace of the constructor `{1; b = 2}`,
whose two sub-parts are a list part and a record part. -/
def c6ok : LexState :=
  { fss := [fs0], t := .chr '{',
    rest := [(.NUMBER 1, 1), (.chr ';', 1), (.NAME "b", 1), (.chr '=', 1),
             (.NUMBER 2, 1), (.chr '}', 1)],
    source := "chunk" }

theorem C6_kinds_witness :
    ∃ s4, run 21 .constructor c6ok = .ok (.unit, s4) :=
  (C6_kinds 20 c6ok _ _ _ _ _ _ rfl rfl rfl rfl rfl).2
    (by decide) rfl (by decide)

/-! ### Claim C3 -/

/-- C3: for a multiple assignment or local declaration with `nvars` targets
and `nexps` right-hand expressions — when `nexps > 0` and the last
expression is an open call, the call's return count is set to
`max (nvars - (nexps - 1)) 0`, and when `nvars - (nexps - 1) < 0` the
surplus values are popped; when the last expression is not an open call the
stack is adjusted by `nexps - nvars` (a POP of the extras when positive, a
push of nils when negative), so in each case the symbolic stack ends
exactly `nvars` values above where the right-hand list started. -/
theorem C3_adjust (ls : LexState) (nvars nexps : Nat)
    (hjlt : (headFS ls).jlt = [])
    (hpc : (headFS ls).pc = (headFS ls).f.code.length)
    (hbound : (headFS ls).stacklevel + (nvars : Int) ≤ MAXSTACK) :
    (0 < nexps → luaK_lastisopen (headFS ls) = true →
      ∃ ls', adjust_mult_assign ls nvars nexps = .ok ls' ∧
        ((headFS ls').f.code.getD ((headFS ls).pc - 1) default).op = .CALL ∧
        ((headFS ls').f.code.getD ((headFS ls).pc - 1) default).b =
          max ((nvars : Int) - ((nexps : Int) - 1)) 0 ∧
        ((nvars : Int) - ((nexps : Int) - 1) < 0 →
          (headFS ls').pc = (headFS ls).pc + 1 ∧
          (headFS ls').f.code.getD ((headFS ls').pc - 1) default =
            { op := Op.POP, a := ((nexps : Int) - 1) - (nvars : Int) }) ∧
        (0 ≤ (nvars : Int) - ((nexps : Int) - 1) →
          (headFS ls').pc = (headFS ls).pc) ∧
        (headFS ls').stacklevel =
          (headFS ls).stacklevel + (nvars : Int) - ((nexps : Int) - 1)) ∧
    (¬ (0 < nexps ∧ luaK_lastisopen (headFS ls) = true) →
      ∃ ls', adjust_mult_assign ls nvars nexps = .ok ls' ∧
        (headFS ls').stacklevel =
          (headFS ls).stacklevel - ((nexps : Int) - (nvars : Int)) ∧
        (nvars < nexps →
          (headFS ls').f.code.getD ((headFS ls').pc - 1) default =
            { op := Op.POP, a := (nexps : Int) - (nvars : Int) }) ∧
        (nexps < nvars →
          (headFS ls').f.code.getD ((headFS ls').pc - 1) default =
            { op := Op.PUSHNIL, a := (nvars : Int) - (nexps : Int) }) ∧
        (nexps = nvars → ls' = ls)) := by
  constructor
  · intro hne hopen
    obtain ⟨hlt, hcall, hmult⟩ := lastisopen_spec (headFS ls) hopen
    have hpc1 : (headFS ls).pc - 1 < (headFS ls).f.code.length := by omega
    unfold adjust_mult_assign
    dsimp only
    rw [if_pos ⟨hne, hopen⟩]
    by_cases hd : (nexps : Int) - (nvars : Int) - 1 ≤ 0
    · rw [if_pos hd]
      obtain ⟨mx, hsc⟩ := luaK_setcallreturns_open ls
        (-((nexps : Int) - (nvars : Int) - 1)) hopen (Or.inr (by omega))
      rw [hsc]
      dsimp only
      rw [luaK_adjuststack_zero]
      refine ⟨_, rfl, ?_, ?_, ?_, ?_, ?_⟩
      · dsimp only [setFS_head]
        rw [getD_set_self _ _ _ hpc1]
        exact hcall
      · dsimp only [setFS_head]
        rw [getD_set_self _ _ _ hpc1]
        rw [max_eq_left (by omega)]
        dsimp only
        omega
      · intro hlt2
        exact absurd hlt2 (by omega)
      · intro hge
        rfl
      · dsimp only [setFS_head]
        omega
    · rw [if_neg hd]
      obtain ⟨mx, hsc⟩ := luaK_setcallreturns_open ls 0 hopen (Or.inl le_rfl)
      rw [hsc]
      dsimp only
      obtain ⟨mx2, ha⟩ := luaK_adjuststack_pos
        (setFS ls { headFS ls with
          stacklevel := (headFS ls).stacklevel + 0,
          f := { (headFS ls).f with
            maxstacksize := mx,
            code := (headFS ls).f.code.set ((headFS ls).pc - 1)
              { (headFS ls).f.code.getD ((headFS ls).pc - 1) default with
                b := 0 } } })
        ((nexps : Int) - (nvars : Int) - 1) (by omega) (by exact hjlt)
      rw [ha]
      refine ⟨_, rfl, ?_, ?_, ?_, ?_, ?_⟩
      · dsimp only [setFS_head]
        rw [List.getD_eq_getElem?_getD, List.getElem?_append_left
          (by simpa using hpc1), ← List.getD_eq_getElem?_getD,
          getD_set_self _ _ _ hpc1]
        exact hcall
      · dsimp only [setFS_head]
        rw [List.getD_eq_getElem?_getD, List.getElem?_append_left
          (by simpa using hpc1), ← List.getD_eq_getElem?_getD,
          getD_set_self _ _ _ hpc1]
        rw [max_eq_right (by omega)]
      · intro hlt2
        refine ⟨rfl, ?_⟩
        dsimp only [setFS_head]
        have e2 : (headFS ls).pc + 1 - 1 =
            ((headFS ls).f.code.set ((headFS ls).pc - 1)
              { (headFS ls).f.code.getD ((headFS ls).pc - 1) default with
                b := 0 }).length := by
          simp [hpc]
        rw [e2, getD_concat]
        have e3 : (nexps : Int) - (nvars : Int) - 1 =
            ((nexps : Int) - 1) - (nvars : Int) := by ring
        rw [e3]
      · intro hge
        exact absurd hge (by omega)
      · dsimp only [setFS_head]
        omega
  · intro hno
    unfold adjust_mult_assign
    dsimp only
    rw [if_neg hno]
    rcases lt_trichotomy ((nexps : Int) - (nvars : Int)) 0 with hs | hs | hs
    · obtain ⟨mx, ha⟩ := luaK_adjuststack_neg ls _ hs hjlt (by omega)
      rw [ha]
      refine ⟨_, rfl, ?_, ?_, ?_, ?_⟩
      · dsimp only [setFS_head]
      · intro hlt2
        exact absurd hlt2 (by omega)
      · intro hlt2
        dsimp only [setFS_head]
        have e2 : (headFS ls).pc + 1 - 1 = (headFS ls).f.code.length := by
          simp [hpc]
        rw [e2, getD_concat]
        have e3 : -((nexps : Int) - (nvars : Int)) =
            (nvars : Int) - (nexps : Int) := by ring
        rw [e3]
      · intro heq
        exfalso
        omega
    · have hz : (nexps : Int) - (nvars : Int) = 0 := hs
      rw [hz, luaK_adjuststack_zero]
      refine ⟨_, rfl, by omega, ?_, ?_, fun _ => rfl⟩
      · intro hlt2
        exact absurd hlt2 (by omega)
      · intro hlt2
        exact absurd hlt2 (by omega)
    · obtain ⟨mx, ha⟩ := luaK_adjuststack_pos ls _ hs hjlt
      rw [ha]
      refine ⟨_, rfl, ?_, ?_, ?_, ?_⟩
      · dsimp only [setFS_head]
      · intro hlt2
        dsimp only [setFS_head]
        have e2 : (headFS ls).pc + 1 - 1 = (headFS ls).f.code.length := by
          simp [hpc]
        rw [e2, getD_concat]
      · intro hlt2
        exact absurd hlt2 (by omega)
      · intro heq
        exfalso
        omega



def c3fs : FuncState :=
  { f := { code := [{ op := .CALL, a := 0, b := 255 }], source := "chunk" },
    pc := 1 }

def c3state : LexState :=
  { fss := [c3fs], source := "chunk" }

theorem C3_adjust_witness :
    ∃ ls', adjust_mult_assign c3state 2 1 = .ok ls' ∧
      ((headFS ls').f.code.getD 0 default).op = .CALL ∧
      ((headFS ls').f.code.getD 0 default).b = max 2 0 ∧
      ((2 : Int) - ((1 : Int) - 1) < 0 →
        (headFS ls').pc = (headFS c3state).pc + 1 ∧
        (headFS ls').f.code.getD ((headFS ls').pc - 1) default =
          { op := Op.POP, a := ((1 : Int) - 1) - 2 }) ∧
      (0 ≤ (2 : Int) - ((1 : Int) - 1) → (headFS ls').pc = (headFS c3state).pc) ∧
      (headFS ls').stacklevel = (headFS c3state).stacklevel + 2 - ((1 : Int) - 1) :=
  (C3_adjust c3state 2 1 rfl rfl (by decide)).1 (by decide) rfl

/-- Whether `n` names an active local of `fs` (quantifier form of the
search the parser performs). -/
def isActive (fs : FuncState) (n : String) : Bool :=
  (List.range fs.nactloc).any (fun i =>
    decide ((fs.f.locvars.getD (fs.actloc i) default).varname = n))

theorem findSlotAux_some_spec (fs : FuncState) (n : String) :
    ∀ k i, findSlotAux fs n k = some i →
      i < k ∧ (fs.f.locvars.getD (fs.actloc i) default).varname = n ∧
      ∀ j, i < j → j < k →
        (fs.f.locvars.getD (fs.actloc j) default).varname ≠ n := by
  intro k
  induction k with
  | zero => intro i h; simp [findSlotAux] at h
  | succ k ih =>
    intro i h
    unfold findSlotAux at h
    by_cases he : (fs.f.locvars.getD (fs.actloc k) default).varname = n
    · rw [if_pos he] at h
      have : k = i := by injection h
      subst this
      exact ⟨Nat.lt_succ_self k, he, fun j hj hjk => absurd hjk (by omega)⟩
    · rw [if_neg he] at h
      obtain ⟨h1, h2, h3⟩ := ih i h
      refine ⟨by omega, h2, fun j hj hjk => ?_⟩
      rcases Nat.lt_succ_iff_lt_or_eq.mp hjk with hlt | heq
      · exact h3 j hj hlt
      · subst heq; exact he

theorem findSlotAux_none_spec (fs : FuncState) (n : String) :
    ∀ k, findSlotAux fs n k = none ↔
      ∀ j, j < k → (fs.f.locvars.getD (fs.actloc j) default).varname ≠ n := by
  intro k
  induction k with
  | zero => simp [findSlotAux]
  | succ k ih =>
    unfold findSlotAux
    by_cases he : (fs.f.locvars.getD (fs.actloc k) default).varname = n
    · rw [if_pos he]
      constructor
      · intro h
        simp at h
      · intro h
        exact absurd he (h k (Nat.lt_succ_self k))
    · rw [if_neg he, ih]
      constructor
      · intro h j hj
        rcases Nat.lt_succ_iff_lt_or_eq.mp hj with hlt | heq
        · exact h j hlt
        · subst heq; exact he
      · intro h j hj
        exact h j (by omega)

theorem findSlot_none_iff (fs : FuncState) (n : String) :
    findSlot fs n = none ↔ isActive fs n = false := by
  unfold findSlot isActive
  rw [findSlotAux_none_spec]
  simp [List.any_eq_true]

theorem search_local_cons_some (fs : FuncState) (rest : List FuncState)
    (n : String) (i : Nat) (h : findSlot fs n = some i) :
    search_local (fs :: rest) n = (0, { k := .VLOCAL, idx := i }) := by
  unfold search_local
  rw [h]

theorem search_local_global (fss : List FuncState) (n : String)
    (h : ∀ fs ∈ fss, isActive fs n = false) :
    search_local fss n = (-1, { k := .VGLOBAL }) := by
  induction fss with
  | nil => rfl
  | cons fs rest ih =>
    unfold search_local
    rw [(findSlot_none_iff fs n).mpr (h fs (by simp))]
    rw [ih (fun g hg => h g (by simp [hg]))]
    simp

theorem search_local_outer (fs : FuncState) (rest : List FuncState)
    (n : String) (hnone : findSlot fs n = none)
    (hfound : ∃ fs2 ∈ rest, isActive fs2 n = true) :
    1 ≤ (search_local (fs :: rest) n).1 := by
  have aux : ∀ l : List FuncState, (∃ g ∈ l, isActive g n = true) →
      0 ≤ (search_local l n).1 ∧ (search_local l n).1 ≠ -1 := by
    intro l
    induction l with
    | nil => intro h; simp at h
    | cons g r ih =>
      intro h
      unfold search_local
      rcases e : findSlot g n with _ | i
      · have : ∃ g2 ∈ r, isActive g2 n = true := by
          rcases h with ⟨g2, hg2, hact⟩
          rcases List.mem_cons.mp hg2 with rfl | hmem
          · exact absurd ((findSlot_none_iff g2 n).mp e) (by simp [hact])
          · exact ⟨g2, hmem, hact⟩
        obtain ⟨ih1, ih2⟩ := ih this
        constructor
        · simp only []
          split
          · omega
          · omega
        · simp only []
          split
          · next hh => exact absurd hh ih2
          · omega
      · constructor <;> simp
  obtain ⟨h0, hne⟩ := aux rest hfound
  unfold search_local
  rw [hnone]
  dsimp only
  split
  · next hh => exact absurd hh hne
  · omega



theorem getD_concat_str (l : List String) (x : String) :
    (l ++ [x]).getD l.length "" = x := by
  simp [List.getD_eq_getElem?_getD, List.getElem?_concat_length]

/-- C1: resolution of a bare NAME used as a variable.  If it matches an
active local of the current function, the descriptor is VLOCAL with the
highest matching slot (so the innermost shadowing binding wins, the scan
running from highest slot to lowest); if it matches an active local only of
some enclosing function, compilation fails with "cannot access a variable
in outer function"; if it matches no active local at any level it becomes
VGLOBAL and the name is interned into the current function's
string-constant pool. -/
theorem C1_singlevar (ls : LexState) (n : String)
    (hne : ls.fss.isEmpty = false)
    (hk : (headFS ls).f.kstr.length < MAXARG_U) :
    (isActive (headFS ls) n = true →
      ∃ i, singlevar ls n = .ok ({ k := .VLOCAL, idx := i }, ls) ∧
        i < (headFS ls).nactloc ∧
        ((headFS ls).f.locvars.getD ((headFS ls).actloc i) default).varname = n ∧
        (∀ j, i < j → j < (headFS ls).nactloc →
          ((headFS ls).f.locvars.getD ((headFS ls).actloc j) default).varname ≠ n)) ∧
    (isActive (headFS ls) n = false →
      (∃ fs ∈ ls.fss.tail, isActive fs n = true) →
      singlevar ls n = .error (.msg "cannot access a variable in outer function")) ∧
    ((∀ fs ∈ ls.fss, isActive fs n = false) →
      ∃ c ls', singlevar ls n = .ok ({ k := .VGLOBAL, idx := c }, ls') ∧
        (headFS ls').f.kstr.getD c "" = n ∧
        ls'.t = ls.t ∧ ls'.rest = ls.rest) := by
  obtain ⟨fs, rest, e⟩ : ∃ fs rest, ls.fss = fs :: rest := by
    cases h : ls.fss with
    | nil => rw [h] at hne; simp at hne
    | cons a b => exact ⟨a, b, rfl⟩
  have ehead : headFS ls = fs := by rw [headFS, e]; rfl
  have egf : getFrame ls 0 = fs := by rw [getFrame, e]; rfl
  refine ⟨?_, ?_, ?_⟩
  · intro hact
    rw [ehead] at hact
    have hfind : findSlot fs n ≠ none := by
      intro hcontra
      rw [findSlot_none_iff] at hcontra
      simp [hact] at hcontra
    rcases hfs : findSlot fs n with _ | i
    · exact absurd hfs hfind
    have hfs2 : findSlotAux fs n fs.nactloc = some i := hfs
    obtain ⟨h1, h2, h3⟩ := findSlotAux_some_spec fs n fs.nactloc i hfs2
    have hs : singlevar ls n = .ok ({ k := .VLOCAL, idx := i }, ls) := by
      unfold singlevar
      rw [e, search_local_cons_some fs rest n i hfs]
      dsimp only
      rw [if_neg (by norm_num), if_neg (by norm_num)]
    exact ⟨i, hs, by rw [ehead]; exact h1, by rw [ehead]; exact h2,
      by rw [ehead]; exact h3⟩
  · intro hnact hout
    rw [ehead] at hnact
    rw [e] at hout
    have h1 := search_local_outer fs rest n
      ((findSlot_none_iff fs n).mpr hnact) (by simpa using hout)
    unfold singlevar
    rw [e]
    rcases hsl : search_local (fs :: rest) n with ⟨level, v⟩
    rw [hsl] at h1
    dsimp only at h1 ⊢
    rw [if_pos (by omega)]
  · intro hall
    unfold singlevar
    rw [e, search_local_global (fs :: rest) n (by rw [← e]; exact hall)]
    dsimp only
    rw [if_neg (by norm_num), if_pos rfl]
    unfold string_constant
    simp only [getFrame]
    rw [e]
    simp only [List.getD_cons_zero]
    by_cases hhit : ls.hint n < fs.f.kstr.length ∧
        fs.f.kstr.getD (ls.hint n) "" = n
    · rw [if_pos hhit]
      exact ⟨ls.hint n, ls, rfl, by rw [ehead]; exact hhit.2, rfl, rfl⟩
    · rw [if_neg hhit, if_neg (by rw [ehead] at hk; omega)]
      refine ⟨fs.f.kstr.length, _, rfl, ?_, rfl, rfl⟩
      simp only [headFS, setFrame]
      rw [e]
      simp only [List.set_cons_zero, List.headD_cons]
      exact getD_concat_str fs.f.kstr n



def c1fs : FuncState :=
  { f := { locvars := [{ varname := "x" }, { varname := "y" },
                       { varname := "x" }],
           source := "chunk" },
    nactloc := 3,
    actloc := fun i => i }

def c1state : LexState := { fss := [c1fs], source := "chunk" }

theorem C1_singlevar_witness :
    ∃ i, singlevar c1state "x" = .ok ({ k := .VLOCAL, idx := i }, c1state) ∧
      i < (headFS c1state).nactloc ∧
      ((headFS c1state).f.locvars.getD ((headFS c1state).actloc i)
        default).varname = "x" ∧
      (∀ j, i < j → j < (headFS c1state).nactloc →
        ((headFS c1state).f.locvars.getD ((headFS c1state).actloc j)
          default).varname ≠ "x") :=
  (C1_singlevar c1state "x" rfl (by decide)).1 (by decide)

theorem indexupvalue_spec (ls : LexState) (v : expdesc)
    (hups : (headFS ls).f.nupvalues < MAXUPVALUES) :
    ∃ i ls2, indexupvalue ls v = .ok (i, ls2) ∧
      i < (headFS ls2).f.nupvalues ∧
      ((headFS ls2).upvals i).k = v.k ∧
      ((headFS ls2).upvals i).idx = v.idx ∧
      (headFS ls2).f.code = (headFS ls).f.code ∧
      (headFS ls2).pc = (headFS ls).pc ∧
      (headFS ls2).jlt = (headFS ls).jlt ∧
      (headFS ls2).stacklevel = (headFS ls).stacklevel ∧
      ls2.lastline = ls.lastline := by
  unfold indexupvalue
  dsimp only
  split
  next j hf =>
    have hj := List.find?_some hf
    have hjmem := List.mem_of_find?_eq_some hf
    simp only [decide_eq_true_eq] at hj
    simp only [List.mem_range] at hjmem
    exact ⟨j, ls, rfl, hjmem, hj.1, hj.2, rfl, rfl, rfl, rfl, rfl⟩
  next hf =>
    rw [luaX_checklimit_ok _ _ _ (by omega)]
    dsimp only
    refine ⟨(headFS ls).f.nupvalues, _, rfl, ?_, ?_, ?_, rfl, rfl, rfl, rfl, rfl⟩
    · dsimp only [setFS_head]
      omega
    · dsimp only [setFS_head]
      rw [Function.update_same]
    · dsimp only [setFS_head]
      rw [Function.update_same]



theorem search_local_cons_none (fs : FuncState) (rest : List FuncState)
    (n : String) (h : findSlot fs n = none) :
    search_local (fs :: rest) n =
      (if (search_local rest n).1 = -1 then -1 else (search_local rest n).1 + 1,
       (search_local rest n).2) := by
  rcases e2 : search_local rest n with ⟨lv, v⟩
  unfold search_local
  rw [h, e2]

/-- C2: an explicit upvalue reference `%name` compiles only when the name
resolves to a global — failing with "cannot access an upvalue at top
level" in the top-level chunk — or to an active local of the immediately
enclosing function; a local of the current function, or a local two or
more levels out, is a compile error.  On success a PUSHUPVALUE instruction
is emitted with the upvalue's index. -/
theorem C2_pushupvalue (ls : LexState) (n : String)
    (hjlt : (headFS ls).jlt = [])
    (hpc : (headFS ls).pc = (headFS ls).f.code.length)
    (hups : (headFS ls).f.nupvalues < MAXUPVALUES)
    (hsl : (headFS ls).stacklevel + 1 ≤ MAXSTACK)
    (hk1 : (getFrame ls 1).f.kstr.length < MAXARG_U) :
    (∀ fs0, ls.fss = [fs0] → isActive fs0 n = false →
      pushupvalue ls n =
        .error (.msg "cannot access an upvalue at top level")) ∧
    (∀ fs0 fs1 rest, ls.fss = fs0 :: fs1 :: rest →
      (∀ fs ∈ ls.fss, isActive fs n = false) →
      ∃ (i : Nat) (ls' : LexState), pushupvalue ls n = .ok ls' ∧
        (headFS ls').pc = (headFS ls).pc + 1 ∧
        (headFS ls').f.code.getD (headFS ls).pc default =
          { op := Op.PUSHUPVALUE, a := (i : Int) } ∧
        i < (headFS ls').f.nupvalues ∧
        ((headFS ls').upvals i).k = .VGLOBAL) ∧
    (∀ fs0 rest, ls.fss = fs0 :: rest → isActive fs0 n = true →
      pushupvalue ls n = .error
        (.msg "upvalue must be global or local to immediately outer function")) ∧
    (∀ fs0 fs1 rest, ls.fss = fs0 :: fs1 :: rest →
      isActive fs0 n = false → isActive fs1 n = true →
      ∃ (i : Nat) (ls' : LexState), pushupvalue ls n = .ok ls' ∧
        (headFS ls').pc = (headFS ls).pc + 1 ∧
        (headFS ls').f.code.getD (headFS ls).pc default =
          { op := Op.PUSHUPVALUE, a := (i : Int) } ∧
        i < (headFS ls').f.nupvalues ∧
        ((headFS ls').upvals i).k = .VLOCAL) ∧
    (∀ fs0 fs1 rest, ls.fss = fs0 :: fs1 :: rest →
      isActive fs0 n = false → isActive fs1 n = false →
      (∃ fs ∈ rest, isActive fs n = true) →
      pushupvalue ls n = .error
        (.msg "upvalue must be global or local to immediately outer function")) := by
  refine ⟨?_, ?_, ?_, ?_, ?_⟩
  · intro fs0 e h0
    unfold pushupvalue
    rw [e, search_local_global [fs0] n
      (by intro g hg; rw [List.mem_singleton] at hg; subst hg; exact h0)]
    dsimp only
    rw [if_pos rfl]
    simp
  · intro fs0 fs1 rest e hall
    have hhead : headFS ls = fs0 := by rw [headFS, e]; rfl
    unfold pushupvalue
    rw [e, search_local_global (fs0 :: fs1 :: rest) n (by rw [← e]; exact hall)]
    dsimp only
    rw [if_pos rfl]
    simp only [List.tail_cons, List.isEmpty_cons, if_false, Bool.false_eq_true]
    unfold string_constant
    simp only [getFrame]
    rw [e]
    simp only [List.getD_cons_succ, List.getD_cons_zero]
    have hk1b : fs1.f.kstr.length < MAXARG_U := by
      rw [getFrame, e] at hk1
      simpa using hk1
    by_cases hhit : ls.hint n < fs1.f.kstr.length ∧
        fs1.f.kstr.getD (ls.hint n) "" = n
    · rw [if_pos hhit]
      dsimp only
      obtain ⟨i, ls2, hid, hlt, hkk, hxx, hcode, hpcp, hjp, hslp, hllp⟩ :=
        indexupvalue_spec ls { k := .VGLOBAL, idx := ls.hint n } hups
      rw [hid]
      dsimp only
      unfold luaK_code1
      obtain ⟨mx, hc⟩ := luaK_code_ok ls2 { op := .PUSHUPVALUE, a := (i : Int) }
        (by rw [hjp]; exact hjlt)
        (Or.inr (by simp only [instrEffect]; rw [hslp]; omega))
      rw [hc]
      dsimp only
      refine ⟨i, _, rfl, ?_, ?_, ?_, ?_⟩
      · dsimp only [setFS_head]
        rw [hpcp]
      · dsimp only [setFS_head]
        rw [hcode, hpc, getD_concat]
      · dsimp only [setFS_head]
        exact hlt
      · dsimp only [setFS_head]
        exact hkk
    · rw [if_neg hhit, if_neg (by omega)]
      dsimp only
      set lsg : LexState :=
        { setFrame ls 1 { fs1 with
            f := { fs1.f with kstr := fs1.f.kstr ++ [n] } } with
          hint := Function.update ls.hint n fs1.f.kstr.length } with hlsg
      have hheadg : headFS lsg = headFS ls := by
        rw [hlsg, headFS, headFS, setFrame]
        rw [e]
        rfl
      obtain ⟨i, ls2, hid, hlt, hkk, hxx, hcode, hpcp, hjp, hslp, hllp⟩ :=
        indexupvalue_spec lsg { k := .VGLOBAL, idx := fs1.f.kstr.length }
          (by rw [hheadg]; exact hups)
      rw [hid]
      dsimp only
      unfold luaK_code1
      obtain ⟨mx, hc⟩ := luaK_code_ok ls2 { op := .PUSHUPVALUE, a := (i : Int) }
        (by rw [hjp, hheadg]; exact hjlt)
        (Or.inr (by simp only [instrEffect]; rw [hslp, hheadg]; omega))
      rw [hc]
      dsimp only
      refine ⟨i, _, rfl, ?_, ?_, ?_, ?_⟩
      · dsimp only [setFS_head]
        rw [hpcp, hheadg]
      · dsimp only [setFS_head]
        rw [hcode, hheadg, hpc, getD_concat]
      · dsimp only [setFS_head]
        exact hlt
      · dsimp only [setFS_head]
        exact hkk
  · intro fs0 rest e h0
    obtain ⟨i, hfs0⟩ : ∃ i, findSlot fs0 n = some i := by
      rcases h : findSlot fs0 n with _ | i
      · rw [findSlot_none_iff] at h
        simp [h0] at h
      · exact ⟨i, rfl⟩
    unfold pushupvalue
    rw [e, search_local_cons_some fs0 rest n i hfs0]
    dsimp only
    rw [if_neg (by norm_num), if_pos (by norm_num)]
  · intro fs0 fs1 rest e h0 h1
    obtain ⟨i, hfs1⟩ : ∃ i, findSlot fs1 n = some i := by
      rcases h : findSlot fs1 n with _ | i
      · rw [findSlot_none_iff] at h
        simp [h1] at h
      · exact ⟨i, rfl⟩
    have hs1 : search_local (fs0 :: fs1 :: rest) n =
        (1, { k := .VLOCAL, idx := i }) := by
      rw [search_local_cons_none fs0 (fs1 :: rest) n
        ((findSlot_none_iff fs0 n).mpr h0)]
      rw [search_local_cons_some fs1 rest n i hfs1]
      norm_num
    unfold pushupvalue
    rw [e, hs1]
    dsimp only
    rw [if_neg (by norm_num), if_neg (by norm_num)]
    dsimp only
    obtain ⟨j, ls2, hid, hlt, hkk, hxx, hcode, hpcp, hjp, hslp, hllp⟩ :=
      indexupvalue_spec ls { k := .VLOCAL, idx := i } hups
    rw [hid]
    dsimp only
    unfold luaK_code1
    obtain ⟨mx, hc⟩ := luaK_code_ok ls2 { op := .PUSHUPVALUE, a := (j : Int) }
      (by rw [hjp]; exact hjlt)
      (Or.inr (by simp only [instrEffect]; rw [hslp]; omega))
    rw [hc]
    dsimp only
    refine ⟨j, _, rfl, ?_, ?_, ?_, ?_⟩
    · dsimp only [setFS_head]
      rw [hpcp]
    · dsimp only [setFS_head]
      rw [hcode, hpc, getD_concat]
    · dsimp only [setFS_head]
      exact hlt
    · dsimp only [setFS_head]
      exact hkk
  · intro fs0 fs1 rest e h0 h1 hdeep
    have houter := search_local_outer fs1 rest n
      ((findSlot_none_iff fs1 n).mpr h1) hdeep
    have hs1 := search_local_cons_none fs0 (fs1 :: rest) n
      ((findSlot_none_iff fs0 n).mpr h0)
    have hne2 : ¬ ((search_local (fs1 :: rest) n).1 = -1) := by omega
    unfold pushupvalue
    rw [e, hs1]
    dsimp only
    rw [if_neg hne2]
    rw [if_neg (by omega), if_pos (by omega)]



def c2fs1 : FuncState :=
  { f := { locvars := [{ varname := "x" }], source := "chunk" },
    nactloc := 1,
    actloc := fun i => i }

def c2state : LexState := { fss := [fs0, c2fs1], source := "chunk" }

theorem C2_pushupvalue_witness :
    ∃ (i : Nat) (ls' : LexState), pushupvalue c2state "x" = .ok ls' ∧
      (headFS ls').pc = (headFS c2state).pc + 1 ∧
      (headFS ls').f.code.getD (headFS c2state).pc default =
        { op := Op.PUSHUPVALUE, a := (i : Int) } ∧
      i < (headFS ls').f.nupvalues ∧
      ((headFS ls').upvals i).k = .VLOCAL :=
  (C2_pushupvalue c2state "x" rfl rfl (by decide) (by decide)
    (by decide)).2.2.2.1 fs0 c2fs1 [] rfl (by decide) (by decide)

/-- C10: an expression statement whose parsed expression ends up as a VEXP
descriptor fails with "syntax error" unless the last emitted instruction is
an open call; only then is it accepted as a call statement, with the call's
return count set to 0. -/
theorem C10_exprstat (fuel : Nat) (s s1 : LexState) (v : expdesc)
    (h : run fuel .simpleexp s = .ok (.e v, s1))
    (hpc1 : (headFS s1).pc = (headFS s1).f.code.length) :
    (v.k = .VEXP → luaK_lastisopen (headFS s1) = false →
      run (fuel + 1) .exprstat s = .error (.msg "syntax error")) ∧
    (v.k = .VEXP → luaK_lastisopen (headFS s1) = true →
      ∃ s2, run (fuel + 1) .exprstat s = .ok (.unit, s2) ∧
        ((headFS s2).f.code.getD ((headFS s1).pc - 1) default).b = 0 ∧
        ((headFS s2).f.code.getD ((headFS s1).pc - 1) default).op = .CALL ∧
        (headFS s2).stacklevel = (headFS s1).stacklevel) := by
  have e0 : run (fuel + 1) .exprstat s = exprstatF (run fuel) s := rfl
  constructor
  · intro hv hopen
    rw [e0]
    unfold exprstatF
    rw [h]
    dsimp only [Res.toE]
    rw [if_pos hv, hopen]
    simp
  · intro hv hopen
    obtain ⟨hlt, hcall, hmult⟩ := lastisopen_spec (headFS s1) hopen
    have hpcpos : (headFS s1).pc - 1 < (headFS s1).f.code.length := by omega
    rw [e0]
    unfold exprstatF
    rw [h]
    dsimp only [Res.toE]
    rw [if_pos hv, hopen]
    obtain ⟨mx, hsc⟩ := luaK_setcallreturns_open s1 0 hopen (Or.inl le_rfl)
    rw [if_pos rfl, hsc]
    dsimp only
    refine ⟨_, rfl, ?_, ?_, ?_⟩
    · dsimp only [setFS_head]
      rw [getD_set_self _ _ _ hpcpos]
    · dsimp only [setFS_head]
      rw [getD_set_self _ _ _ hpcpos]
      exact hcall
    · dsimp only [setFS_head]
      omega

def c10state : LexState := { fss := [fs0], t := .NIL, source := "chunk" }

theorem C10_exprstat_witness :
    run 6 .exprstat c10state = .error (.msg "syntax error") :=
  (C10_exprstat 5 c10state _ _ rfl rfl).1 rfl rfl



/-- C8: `statement` reports the is-last flag true exactly for RETURN and
BREAK statements, and after such a statement the chunk loop consumes at
most one optional semicolon and stops parsing further statements, so a
following non-terminator token is left for the enclosing construct's
closing-token check (which then fails, as the witness shows on
`do return ; x = 1 end`). -/
theorem C8_chunk (fuel : Nat) (s s1 : LexState) (islast : Bool)
    (h : run fuel .statement s = .ok (.b islast, s1)) :
    (islast = true ↔ (s.t = .RETURN ∨ s.t = .BREAK)) ∧
    (islast = true →
      run (fuel + 1) .chunk s = .ok (.unit, (optional s1 (.chr ';')).2)) := by
  rcases fuel with _ | m
  · simp [run] at h
  have h' : statementF (run m) s = .ok (.b islast, s1) := h
  have hiff : islast = true ↔ (s.t = .RETURN ∨ s.t = .BREAK) := by
    unfold statementF at h'
    split at h' <;> (try dsimp only at h') <;>
      (repeat' (split at h')) <;> simp_all
  refine ⟨hiff, ?_⟩
  intro hl
  have hbf : block_follow s.t = false := by
    rcases hiff.mp hl with ht | ht <;> rw [ht] <;> rfl
  have e0 : run (m + 1 + 1) .chunk s = chunkF (run (m + 1)) s := rfl
  rw [e0]
  unfold chunkF
  rw [hbf]
  simp only [Bool.false_eq_true, if_false]
  rw [h]
  dsimp only [Res.toB]
  rw [hl]
  simp

def c8state : LexState :=
  { fss := [fs0], t := .RETURN,
    rest := [(.chr ';', 1), (.NAME "x", 1), (.END, 1)],
    source := "chunk" }

def c8toks : List (Tk × Nat) :=
  [(.DO, 1), (.RETURN, 1), (.chr ';', 1), (.NAME "x", 1), (.chr '=', 1),
   (.NUMBER 1, 1), (.END, 1)]

theorem C8_chunk_witness :
    ∃ s1, run 10 .statement c8state = .ok (.b true, s1) ∧
      run 11 .chunk c8state = .ok (.unit, (optional s1 (.chr ';')).2) ∧
      (optional s1 (.chr ';')).2.t = .NAME "x" ∧
      luaY_parse c8toks 40 = .error (.msg (error_expected_msg .END)) :=
  ⟨_, rfl, (C8_chunk 10 c8state _ true rfl).2 rfl, rfl, rfl⟩



theorem luaX_checklimit_err (val limit : Nat) (m : String) (h : limit < val) :
    luaX_checklimit val limit m = .error (.msg ("too many " ++ m)) := by
  unfold luaX_checklimit
  rw [if_pos h]

/-- C7: a table constructor first emits CREATETABLE with operand 0; after
the body is parsed, that same instruction's U-operand is overwritten with
the total element count of both sub-parts, and a total exceeding the
maximum U-operand width raises a size-limit error naming "elements in a
table constructor". -/
theorem C7_createtable (fuel : Nat) (s0 sE s1 s2 : LexState) (pcT : Nat)
    (cd1 cd2 : Constdesc)
    (hjlt : (headFS s0).jlt = [])
    (hpc : (headFS s0).pc = (headFS s0).f.code.length)
    (hsl : (headFS s0).stacklevel + 1 ≤ MAXSTACK)
    (hE : luaK_code1 s0 .CREATETABLE 0 = .ok (pcT, sE))
    (hEt : sE.t = .chr '{')
    (h1 : run fuel .constructorPart (next sE) = .ok (.cd cd1, s1))
    (hsemi : s1.t = .chr ';')
    (h2 : run fuel .constructorPart (next s1) = .ok (.cd cd2, s2))
    (hkind : cd1.k ≠ cd2.k)
    (hbr : s2.t = .chr '}') :
    pcT = (headFS s0).pc ∧
    (headFS sE).f.code.getD pcT default = { op := Op.CREATETABLE, a := 0 } ∧
    (headFS sE).pc = pcT + 1 ∧
    (MAXARG_U < cd1.n + cd2.n →
      run (fuel + 1) .constructor s0 =
        .error (.msg ("too many " ++ "elements in a table constructor"))) ∧
    (cd1.n + cd2.n ≤ MAXARG_U →
      ∃ s4, run (fuel + 1) .constructor s0 = .ok (.unit, s4) ∧
        s4 = setFS (next s2) { headFS (next s2) with
          f := { (headFS (next s2)).f with
            code := (headFS (next s2)).f.code.set pcT
              { (headFS (next s2)).f.code.getD pcT default with
                a := ((cd1.n + cd2.n : Nat) : Int) } } }) := by
  obtain ⟨mx, hc⟩ := luaK_code_ok s0 { op := Op.CREATETABLE, a := 0 } hjlt
    (Or.inr (by simp only [instrEffect]; omega))
  have hE2 := hE
  unfold luaK_code1 at hE2
  rw [hc] at hE2
  have hpcT : pcT = (headFS s0).pc := by
    injection hE2 with h3
    injection h3 with h4 h5
    exact h4.symm
  have hsE : sE = setFS s0 { headFS s0 with
      pc := (headFS s0).pc + 1,
      jlt := [],
      stacklevel := instrEffect (headFS s0).stacklevel
        { op := Op.CREATETABLE, a := 0 },
      f := { (headFS s0).f with
        maxstacksize := mx,
        code := (headFS s0).f.code ++ [{ op := Op.CREATETABLE, a := 0 }],
        lineinfo := (headFS s0).f.lineinfo ++ [(s0.lastline : Int)] } } := by
    injection hE2 with h3
    injection h3 with h4 h5
    exact h5.symm
  have e0 : run (fuel + 1) .constructor s0 = constructorF (run fuel) s0 := rfl
  refine ⟨hpcT, ?_, ?_, ?_, ?_⟩
  · rw [hsE]
    dsimp only [setFS_head]
    rw [hpcT, hpc, getD_concat]
  · rw [hsE]
    dsimp only [setFS_head]
    rw [hpcT]
  · intro hover
    simp only [e0, constructorF, hE, check_ok sE _ hEt, h1,
      optional_yes s1 _ hsemi, h2, Res.toCd, if_pos hkind,
      check_match_ok s2 _ _ _ hbr, luaX_checklimit_err _ _ _ hover,
      if_true, if_false]
  · intro hlim
    simp only [e0, constructorF, hE, check_ok sE _ hEt, h1,
      optional_yes s1 _ hsemi, h2, Res.toCd, if_pos hkind,
      check_match_ok s2 _ _ _ hbr, luaX_checklimit_ok _ _ _ hlim,
      if_true, if_false]
    exact ⟨_, rfl, rfl⟩

theorem C7_createtable_witness :
    ∃ s4, run 21 .constructor c6ok = .ok (.unit, s4) ∧
      (headFS s4).f.code.getD 0 default = { op := Op.CREATETABLE, a := 2 } := by
  obtain ⟨s4, hrun, hs4⟩ :=
    (C7_createtable 20 c6ok _ _ _ _ _ _ rfl rfl (by decide) rfl rfl rfl rfl
      rfl (by decide) rfl).2.2.2.2 (by decide)
  refine ⟨s4, hrun, ?_⟩
  rw [hs4]
  decide

end Lua

namespace Lua

/-- The per-frame active-local counts, innermost first. -/
def nactMap (ls : LexState) : List Nat :=
  ls.fss.map (fun fs => fs.nactloc)

theorem nactMap_len (ls : LexState) : (nactMap ls).length = ls.fss.length := by
  simp [nactMap]

theorem nactMap_setFS (ls : LexState) (fs : FuncState) (hne : ls.fss ≠ [])
    (h : fs.nactloc = (headFS ls).nactloc) :
    nactMap (setFS ls fs) = nactMap ls := by
  cases e : ls.fss with
  | nil => exact absurd e hne
  | cons a l =>
    simp [nactMap, setFS, headFS, e] at h ⊢
    exact h

theorem map_nact_set : ∀ (l : List FuncState) (k : Nat) (fs : FuncState),
    fs.nactloc = (l.getD k {}).nactloc →
    (l.set k fs).map (fun f => f.nactloc) = l.map (fun f => f.nactloc)
  | [], _, _, _ => rfl
  | a :: l, 0, fs, h => by simp only [List.set, List.map_cons, List.getD_cons_zero] at h ⊢; rw [h]
  | a :: l, k + 1, fs, h => by
      simp only [List.set, List.map_cons, List.getD_cons_succ] at h ⊢
      rw [map_nact_set l k fs h]

theorem nactMap_setFrame (ls : LexState) (k : Nat) (fs : FuncState)
    (h : fs.nactloc = (getFrame ls k).nactloc) :
    nactMap (setFrame ls k fs) = nactMap ls :=
  map_nact_set ls.fss k fs h

theorem headNact_of_nactMap (s s' : LexState) (h : nactMap s' = nactMap s) :
    (headFS s').nactloc = (headFS s).nactloc := by
  unfold nactMap headFS at *
  cases e1 : s.fss <;> cases e2 : s'.fss <;> rw [e1, e2] at h <;> simp_all

end Lua

namespace Lua

/-- States with the same frame count and the same per-frame nactloc. -/
theorem fss_ne_of_nactMap {s s' : LexState} (h : nactMap s' = nactMap s)
    (hne : s.fss ≠ []) : s'.fss ≠ [] := by
  intro he
  apply hne
  unfold nactMap at h
  rw [he] at h
  simpa using h.symm

theorem nactMap_of_fss {s s' : LexState} (h : s'.fss = s.fss) :
    nactMap s' = nactMap s := by
  unfold nactMap
  rw [h]

theorem nactMap_setFS_cons (ls : LexState) (fs : FuncState) :
    nactMap (setFS ls fs) = fs.nactloc :: (nactMap ls).tail := by
  unfold nactMap setFS
  cases ls.fss <;> simp

theorem nactMap_cons {ls : LexState} (hne : ls.fss ≠ []) :
    nactMap ls = (headFS ls).nactloc :: (nactMap ls).tail := by
  unfold nactMap headFS
  cases e : ls.fss with
  | nil => exact absurd e hne
  | cons a l => simp

theorem fss_next (ls : LexState) : (next ls).fss = ls.fss := by
  unfold next
  dsimp only
  split
  · rfl
  · split <;> rfl

theorem fss_lookaheadT (ls : LexState) : (lookaheadT ls).fss = ls.fss := by
  unfold lookaheadT
  split <;> rfl

theorem fss_optional (ls : LexState) (c : Tk) :
    (optional ls c).2.fss = ls.fss := by
  unfold optional
  split
  · exact fss_next ls
  · rfl

theorem fss_check {ls ls' : LexState} {c : Tk} (h : check ls c = .ok ls') :
    ls'.fss = ls.fss := by
  unfold check at h
  split at h
  · cases h; exact fss_next ls
  · cases h

theorem fss_check_match {ls ls' : LexState} {a b : Tk} {w : Nat}
    (h : check_match ls a b w = .ok ls') : ls'.fss = ls.fss := by
  unfold check_match at h
  split at h
  · cases h; exact fss_next ls
  · split at h <;> cases h

theorem fss_str_checkname {ls ls' : LexState} {n : String}
    (h : str_checkname ls = .ok (n, ls')) : ls'.fss = ls.fss := by
  unfold str_checkname at h
  split at h
  · cases h; exact fss_next ls
  · cases h

end Lua

namespace Lua

theorem setFS_ne (ls : LexState) (fs : FuncState) : (setFS ls fs).fss ≠ [] := by
  simp [setFS]

theorem patchlist_ne (ls : LexState) (l : List Nat) (t : Nat) :
    (luaK_patchlist ls l t).fss ≠ [] := by
  unfold luaK_patchlist
  dsimp only
  split <;> exact setFS_ne _ _

theorem pres_deltastack {ls ls' : LexState} {d : Int}
    (h : luaK_deltastack ls d = .ok ls') (hne : ls.fss ≠ []) :
    nactMap ls' = nactMap ls := by
  unfold luaK_deltastack at h
  dsimp only at h
  split at h
  · split at h
    · cases h
    · cases h
      exact nactMap_setFS ls _ hne rfl
  · cases h
    exact nactMap_setFS ls _ hne rfl

theorem pres_code {ls ls' : LexState} {i : Instr} {p : Nat}
    (h : luaK_code ls i = .ok (p, ls')) (hne : ls.fss ≠ []) :
    nactMap ls' = nactMap ls := by
  unfold luaK_code at h
  dsimp only at h
  split at h
  · cases h
  · next ls2 hd =>
    cases h
    refine (nactMap_setFS ls2 _ (fss_ne_of_nactMap (pres_deltastack hd
      (setFS_ne _ _)) (setFS_ne _ _)) rfl).trans ?_
    refine (pres_deltastack hd (setFS_ne _ _)).trans ?_
    exact nactMap_setFS ls _ hne rfl

theorem pres_code1 {ls ls' : LexState} {o : Op} {u : Int} {p : Nat}
    (h : luaK_code1 ls o u = .ok (p, ls')) (hne : ls.fss ≠ []) :
    nactMap ls' = nactMap ls := pres_code h hne

theorem pres_code2 {ls ls' : LexState} {o : Op} {a b : Int} {p : Nat}
    (h : luaK_code2 ls o a b = .ok (p, ls')) (hne : ls.fss ≠ []) :
    nactMap ls' = nactMap ls := pres_code h hne

theorem pres_getlabel (ls : LexState) (hne : ls.fss ≠ []) :
    nactMap (luaK_getlabel ls).2 = nactMap ls := by
  unfold luaK_getlabel
  exact nactMap_setFS ls _ hne rfl

theorem pres_patchlist (ls : LexState) (l : List Nat) (t : Nat)
    (hne : ls.fss ≠ []) : nactMap (luaK_patchlist ls l t) = nactMap ls := by
  unfold luaK_patchlist
  dsimp only
  split <;> exact nactMap_setFS ls _ hne rfl

theorem pres_jump {ls ls' : LexState} {l : List Nat}
    (h : luaK_jump ls = .ok (l, ls')) (hne : ls.fss ≠ []) :
    nactMap ls' = nactMap ls := by
  unfold luaK_jump at h
  split at h
  · cases h
  · next p ls2 hc =>
    cases h
    exact pres_code1 hc hne

theorem pres_setcallreturns {ls ls' : LexState} {nres : Int}
    (h : luaK_setcallreturns ls nres = .ok ls') (hne : ls.fss ≠ []) :
    nactMap ls' = nactMap ls := by
  unfold luaK_setcallreturns at h
  dsimp only at h
  split at h
  · rw [pres_deltastack h (setFS_ne _ _)]
    exact nactMap_setFS ls _ hne rfl
  · cases h
    rfl

theorem pres_adjuststack {ls ls' : LexState} {n : Int}
    (h : luaK_adjuststack ls n = .ok ls') (hne : ls.fss ≠ []) :
    nactMap ls' = nactMap ls := by
  unfold luaK_adjuststack at h
  split at h
  · split at h
    · cases h
    · next p ls2 hc => cases h; exact pres_code1 hc hne
  · split at h
    · split at h
      · cases h
      · next p ls2 hc => cases h; exact pres_code1 hc hne
    · cases h; rfl

theorem pres_kstr {ls ls' : LexState} {c : Nat}
    (h : luaK_kstr ls c = .ok ls') (hne : ls.fss ≠ []) :
    nactMap ls' = nactMap ls := by
  unfold luaK_kstr at h
  split at h
  · cases h
  · next p ls2 hc => cases h; exact pres_code1 hc hne

theorem pres_number_constant {ls ls' : LexState} {r : Int} {c : Nat}
    (h : number_constant ls r = .ok (c, ls')) (hne : ls.fss ≠ []) :
    nactMap ls' = nactMap ls := by
  unfold number_constant at h
  dsimp only at h
  split at h
  · cases h; rfl
  · split at h
    · cases h
    · cases h
      exact nactMap_setFS ls _ hne rfl

theorem pres_number {ls ls' : LexState} {r : Int}
    (h : luaK_number ls r = .ok ls') (hne : ls.fss ≠ []) :
    nactMap ls' = nactMap ls := by
  unfold luaK_number at h
  split at h
  · split at h
    · cases h
    · next p ls2 hc => cases h; exact pres_code1 hc hne
  · split at h
    · cases h
    · next c ls2 hc =>
      split at h
      · cases h
      · next p ls3 hc2 =>
        cases h
        rw [pres_code1 hc2 (fss_ne_of_nactMap (pres_number_constant hc hne) hne)]
        exact pres_number_constant hc hne

theorem pres_tostack {ls ls' : LexState} {v v' : expdesc} {o : Bool}
    (h : luaK_tostack ls v o = .ok (v', ls')) (hne : ls.fss ≠ []) :
    nactMap ls' = nactMap ls := by
  unfold luaK_tostack at h
  split at h
  · split at h
    · cases h
    · next p ls2 hc => cases h; exact pres_code1 hc hne
  · split at h
    · cases h
    · next p ls2 hc => cases h; exact pres_code1 hc hne
  · split at h
    · cases h
    · next p ls2 hc => cases h; exact pres_code1 hc hne
  · split at h
    · cases h
    · next ls2 hs =>
      have h2 : nactMap ls2 = nactMap ls := by
        split at hs
        · exact pres_setcallreturns hs hne
        · cases hs; rfl
      have hne2 : ls2.fss ≠ [] := fss_ne_of_nactMap h2 hne
      split at h
      · cases h; exact h2
      · cases h
        refine (pres_patchlist _ _ _ (patchlist_ne _ _ _)).trans ?_
        refine (pres_patchlist _ _ _ (setFS_ne _ _)).trans ?_
        exact (nactMap_setFS ls2 _ hne2 rfl).trans h2

theorem pres_storevar {ls ls' : LexState} {v : expdesc}
    (h : luaK_storevar ls v = .ok ls') (hne : ls.fss ≠ []) :
    nactMap ls' = nactMap ls := by
  unfold luaK_storevar at h
  split at h
  · split at h
    · cases h
    · next p ls2 hc => cases h; exact pres_code1 hc hne
  · split at h
    · cases h
    · next p ls2 hc => cases h; exact pres_code1 hc hne
  · split at h
    · cases h
    · next p ls2 hc => cases h; exact pres_code2 hc hne
  · cases h

theorem pres_dischargeG {ls ls' : LexState} {v v' : expdesc}
    (h : dischargeG ls v = .ok (v', ls')) (hne : ls.fss ≠ []) :
    nactMap ls' = nactMap ls := by
  unfold dischargeG at h
  split at h
  · split at h
    · cases h
    · next ls2 hs => cases h; exact pres_setcallreturns hs hne
  · exact pres_tostack h hne

theorem pres_goiftrue {ls ls' : LexState} {v v' : expdesc} {keep : Bool}
    (h : luaK_goiftrue ls v keep = .ok (v', ls')) (hne : ls.fss ≠ []) :
    nactMap ls' = nactMap ls := by
  unfold luaK_goiftrue at h
  split at h
  · cases h
  · next v2 ls2 hd =>
    have h2 := pres_dischargeG hd hne
    have hne2 := fss_ne_of_nactMap h2 hne
    split at h
    · cases h
    · next p ls3 hc =>
      have h3 := pres_code1 hc hne2
      have hne3 := fss_ne_of_nactMap h3 hne2
      cases h
      refine (pres_patchlist _ _ _ (setFS_ne _ _)).trans ?_
      exact (nactMap_setFS ls3 _ hne3 rfl).trans (h3.trans h2)

theorem pres_goiffalse {ls ls' : LexState} {v v' : expdesc} {keep : Bool}
    (h : luaK_goiffalse ls v keep = .ok (v', ls')) (hne : ls.fss ≠ []) :
    nactMap ls' = nactMap ls := by
  unfold luaK_goiffalse at h
  split at h
  · cases h
  · next v2 ls2 hd =>
    have h2 := pres_dischargeG hd hne
    have hne2 := fss_ne_of_nactMap h2 hne
    split at h
    · cases h
    · next p ls3 hc =>
      have h3 := pres_code1 hc hne2
      have hne3 := fss_ne_of_nactMap h3 hne2
      cases h
      refine (pres_patchlist _ _ _ (setFS_ne _ _)).trans ?_
      exact (nactMap_setFS ls3 _ hne3 rfl).trans (h3.trans h2)

theorem pres_prefixop {ls ls' : LexState} {u : UnOprT} {v v' : expdesc}
    (h : luaK_prefixop ls u v = .ok (v', ls')) (hne : ls.fss ≠ []) :
    nactMap ls' = nactMap ls := by
  unfold luaK_prefixop at h
  split at h
  · cases h
  · next v2 ls2 ht =>
    have h2 := pres_tostack ht hne
    have hne2 := fss_ne_of_nactMap h2 hne
    split at h
    · cases h
    · next p ls3 hc =>
      cases h
      rw [pres_code1 hc hne2, h2]

theorem pres_infixop {ls ls' : LexState} {op : BinOprT} {v v' : expdesc}
    (h : luaK_infixop ls op v = .ok (v', ls')) (hne : ls.fss ≠ []) :
    nactMap ls' = nactMap ls := by
  unfold luaK_infixop at h
  split at h
  · exact pres_goiftrue h hne
  · exact pres_goiffalse h hne
  · exact pres_tostack h hne

theorem pres_posfix {ls ls' : LexState} {op : BinOprT} {v v2 v' : expdesc}
    (h : luaK_posfix ls op v v2 = .ok (v', ls')) (hne : ls.fss ≠ []) :
    nactMap ls' = nactMap ls := by
  unfold luaK_posfix at h
  split at h
  · split at h
    · cases h
    · next w ls2 hd => cases h; exact pres_dischargeG hd hne
  · split at h
    · cases h
    · next w ls2 hd => cases h; exact pres_dischargeG hd hne
  · split at h
    · cases h
    · next w ls2 ht =>
      have h2 := pres_tostack ht hne
      have hne2 := fss_ne_of_nactMap h2 hne
      split at h
      · cases h
      · next p ls3 hc =>
        cases h
        rw [pres_code1 hc hne2, h2]

theorem pres_fixfor (ls : LexState) (p t : Nat) (hne : ls.fss ≠ []) :
    nactMap (luaK_fixfor ls p t) = nactMap ls := by
  unfold luaK_fixfor
  exact nactMap_setFS ls _ hne rfl

end Lua

namespace Lua

theorem pres_string_constant {ls ls' : LexState} {kf c : Nat} {n : String}
    (h : string_constant ls kf n = .ok (c, ls')) :
    nactMap ls' = nactMap ls := by
  unfold string_constant at h
  dsimp only at h
  split at h
  · cases h; rfl
  · split at h
    · cases h
    · cases h
      exact nactMap_setFrame ls kf _ rfl

theorem pres_code_string {ls ls' : LexState} {n : String}
    (h : code_string ls n = .ok ls') (hne : ls.fss ≠ []) :
    nactMap ls' = nactMap ls := by
  unfold code_string at h
  split at h
  · cases h
  · next c ls2 hs =>
    have h2 := pres_string_constant hs
    exact (pres_kstr h (fss_ne_of_nactMap h2 hne)).trans h2

theorem pres_checkname {ls ls' : LexState} {c : Nat}
    (h : checkname ls = .ok (c, ls')) :
    nactMap ls' = nactMap ls := by
  unfold checkname at h
  split at h
  · cases h
  · next n ls2 hs =>
    exact (pres_string_constant h).trans (nactMap_of_fss (fss_str_checkname hs))

theorem pres_registerlocalvar (ls : LexState) (n : String) (hne : ls.fss ≠ []) :
    nactMap (luaI_registerlocalvar ls n).2 = nactMap ls := by
  unfold luaI_registerlocalvar
  exact nactMap_setFS ls _ hne rfl

theorem pres_new_localvar {ls ls' : LexState} {n : String} {k : Nat}
    (h : new_localvar ls n k = .ok ls') (hne : ls.fss ≠ []) :
    nactMap ls' = nactMap ls := by
  unfold new_localvar at h
  dsimp only at h
  split at h
  · cases h
  · cases h
    refine (nactMap_setFS _ _ (setFS_ne _ _) rfl).trans ?_
    exact pres_registerlocalvar ls n hne

theorem pres_singlevar {ls ls' : LexState} {n : String} {v : expdesc}
    (h : singlevar ls n = .ok (v, ls')) :
    nactMap ls' = nactMap ls := by
  unfold singlevar at h
  dsimp only at h
  split at h
  · cases h
  · split at h
    · split at h
      · cases h
      · cases h; exact pres_string_constant (by assumption)
    · cases h; rfl

theorem pres_indexupvalue {ls ls' : LexState} {v : expdesc} {i : Nat}
    (h : indexupvalue ls v = .ok (i, ls')) (hne : ls.fss ≠ []) :
    nactMap ls' = nactMap ls := by
  unfold indexupvalue at h
  dsimp only at h
  split at h
  · cases h; rfl
  · split at h
    · cases h
    · cases h
      exact nactMap_setFS ls _ hne rfl

theorem pres_pushupvalue {ls ls' : LexState} {n : String}
    (h : pushupvalue ls n = .ok ls') (hne : ls.fss ≠ []) :
    nactMap ls' = nactMap ls := by
  unfold pushupvalue at h
  dsimp only at h
  split at h
  · cases h
  · next v2 ls2 hs =>
    have h2 : nactMap ls2 = nactMap ls := by
      split at hs
      · split at hs
        · cases hs
        · split at hs
          · cases hs
          · cases hs; exact pres_string_constant (by assumption)
      · split at hs
        · cases hs
        · cases hs; rfl
    have hne2 := fss_ne_of_nactMap h2 hne
    split at h
    · cases h
    · next i ls3 hi =>
      have h3 := pres_indexupvalue hi hne2
      have hne3 := fss_ne_of_nactMap h3 hne2
      split at h
      · cases h
      · next p ls4 hc =>
        cases h
        exact (pres_code1 hc hne3).trans (h3.trans h2)

theorem pres_adjust_mult {ls ls' : LexState} {nvars nexps : Nat}
    (h : adjust_mult_assign ls nvars nexps = .ok ls') (hne : ls.fss ≠ []) :
    nactMap ls' = nactMap ls := by
  unfold adjust_mult_assign at h
  dsimp only at h
  split at h
  · split at h
    · split at h
      · cases h
      · next ls2 hs =>
        have h2 := pres_setcallreturns hs hne
        exact (pres_adjuststack h (fss_ne_of_nactMap h2 hne)).trans h2
    · split at h
      · cases h
      · next ls2 hs =>
        have h2 := pres_setcallreturns hs hne
        exact (pres_adjuststack h (fss_ne_of_nactMap h2 hne)).trans h2
  · exact pres_adjuststack h hne

theorem pres_enterbreak (ls : LexState) (hne : ls.fss ≠ []) :
    nactMap (enterbreak ls) = nactMap ls := by
  unfold enterbreak
  exact nactMap_setFS ls _ hne rfl

theorem pres_leavebreak (ls : LexState) (hne : ls.fss ≠ []) :
    nactMap (leavebreak ls) = nactMap ls := by
  unfold leavebreak
  dsimp only
  split
  · rfl
  · refine (pres_patchlist _ _ _ (setFS_ne _ _)).trans ?_
    refine (nactMap_setFS _ _ (setFS_ne _ _) rfl).trans ?_
    exact nactMap_setFS ls _ hne rfl

theorem pres_funcargsFin {ls ls' : LexState} {sl : Int} {r : Res}
    (h : funcargsFin ls sl = .ok (r, ls')) (hne : ls.fss ≠ []) :
    nactMap ls' = nactMap ls := by
  unfold funcargsFin at h
  dsimp only at h
  split at h
  · cases h
  · next p ls2 hc =>
    cases h
    exact (pres_code2 hc (setFS_ne _ _)).trans (nactMap_setFS ls _ hne rfl)

theorem pres_closure_fold {g : Nat → expdesc} :
    ∀ (l : List Nat) (ls ls' : LexState),
    l.foldlM (fun ls i =>
      (match luaK_tostack ls (g i) true with
       | .error e => .error e
       | .ok (_, ls) => .ok ls : Except Err LexState)) ls = .ok ls' →
    ls.fss ≠ [] → nactMap ls' = nactMap ls
  | [], ls, ls', h, _ => by
    cases h
    rfl
  | i :: l, ls, ls', h, hne => by
    rw [List.foldlM_cons] at h
    split at h
    · cases h
    · next v2 ls2 ht =>
      have h2 := pres_tostack ht hne
      exact (pres_closure_fold l ls2 ls' h (fss_ne_of_nactMap h2 hne)).trans h2

theorem pres_pushclosure {ls ls' : LexState} {func : FuncState}
    (h : pushclosure ls func = .ok ls') (hne : ls.fss ≠ []) :
    nactMap ls' = nactMap ls := by
  unfold pushclosure at h
  dsimp only at h
  split at h
  · cases h
  · next ls2 hf =>
    have h2 := pres_closure_fold (List.range func.f.nupvalues) ls ls2 hf hne
    have hne2 := fss_ne_of_nactMap h2 hne
    split at h
    · cases h
    · split at h
      · cases h
      · next p ls3 hc =>
        cases h
        refine (pres_code2 hc ?_).trans ?_
        · exact setFS_ne _ _
        · refine (nactMap_of_fss (s := setFS ls2 _) rfl).trans ?_
          exact (nactMap_setFS ls2 _ hne2 rfl).trans h2

end Lua

namespace Lua

theorem nactMap_adjustlocalvars :
    ∀ (n : Nat) (ls : LexState), ls.fss ≠ [] →
    nactMap (adjustlocalvars ls n) =
      ((headFS ls).nactloc + n) :: (nactMap ls).tail
  | 0, ls, hne => by
    rw [adjustlocalvars]
    simpa using nactMap_cons hne
  | n + 1, ls, hne => by
    rw [adjustlocalvars]
    dsimp only
    rw [nactMap_adjustlocalvars n _ (setFS_ne _ _)]
    rw [nactMap_setFS_cons]
    dsimp only [setFS_head, List.tail_cons]
    congr 1
    omega

theorem nactMap_removelocalvars :
    ∀ (n : Nat) (ls : LexState), ls.fss ≠ [] →
    nactMap (removelocalvars ls n) =
      ((headFS ls).nactloc - n) :: (nactMap ls).tail
  | 0, ls, hne => by
    rw [removelocalvars]
    simpa using nactMap_cons hne
  | n + 1, ls, hne => by
    rw [removelocalvars]
    dsimp only
    rw [nactMap_removelocalvars n _ (setFS_ne _ _)]
    rw [nactMap_setFS_cons]
    dsimp only [setFS_head, List.tail_cons]
    congr 1
    omega

theorem nactMap_open_func (ls : LexState) :
    nactMap (open_func ls) = 0 :: nactMap ls := by
  unfold open_func nactMap
  rfl

theorem nactMap_tail_state (ls : LexState) :
    nactMap { ls with fss := ls.fss.tail } = (nactMap ls).tail := by
  unfold nactMap
  dsimp only
  cases ls.fss <;> rfl

theorem pres_close_func {ls ls' : LexState} {fsr : FuncState}
    (h : close_func ls = .ok (fsr, ls')) (hne : ls.fss ≠ []) :
    nactMap ls' = (nactMap ls).tail := by
  unfold close_func at h
  split at h
  · cases h
  · next p ls2 hc =>
    have h2 := pres_code1 hc hne
    have hne2 := fss_ne_of_nactMap h2 hne
    cases h
    rw [nactMap_tail_state]
    rw [nactMap_removelocalvars _ _ (setFS_ne _ _)]
    dsimp only [List.tail_cons]
    rw [nactMap_setFS_cons]
    dsimp only [List.tail_cons]
    exact congrArg List.tail h2

theorem headNact_headD (ls : LexState) :
    (headFS ls).nactloc = (nactMap ls).headD 0 := by
  unfold headFS nactMap
  cases ls.fss <;> simp

theorem ne_of_nactMap_cons {ls : LexState} {a : Nat} {l : List Nat}
    (h : nactMap ls = a :: l) : ls.fss ≠ [] := by
  intro he
  unfold nactMap at h
  rw [he] at h
  exact absurd h (by simp)

theorem pres_code_params {ls ls' : LexState} {np : Nat} {dots : Bool}
    (h : code_params ls np dots = .ok ls') (hne : ls.fss ≠ []) :
    ∃ k, nactMap ls' = ((headFS ls).nactloc + k) :: (nactMap ls).tail := by
  unfold code_params at h
  dsimp only at h
  split at h
  · cases h
  · have ha := nactMap_adjustlocalvars np ls hne
    have hnea := ne_of_nactMap_cons ha
    have hb : nactMap (setFS (adjustlocalvars ls np)
        { headFS (adjustlocalvars ls np) with
          f := { (headFS (adjustlocalvars ls np)).f with
            numparams := (headFS (adjustlocalvars ls np)).nactloc,
            is_vararg := dots } }) = nactMap (adjustlocalvars ls np) :=
      nactMap_setFS _ _ hnea rfl
    split at h
    · split at h
      · cases h
      · next ls3 hn =>
        have h3 := (pres_new_localvar hn (setFS_ne _ _)).trans (hb.trans ha)
        have hne3 := ne_of_nactMap_cons h3
        have hd := nactMap_adjustlocalvars 1 ls3 hne3
        refine ⟨np + 1, ?_⟩
        rw [pres_deltastack h (ne_of_nactMap_cons hd), hd]
        rw [headNact_headD ls3, h3]
        dsimp only [List.headD_cons, List.tail_cons]
        rw [Nat.add_assoc]
    · refine ⟨np, ?_⟩
      rw [pres_deltastack h (ne_of_nactMap_cons (hb.trans ha))]
      exact hb.trans ha

end Lua

namespace Lua

/-- Jobs whose handler leaves the current frame's active-local count
unchanged (everything except statement sequencing, local declarations and
parameter lists). -/
def headPres : Job → Bool
  | .chunk | .statement | .localstat | .parlist => false
  | _ => true

/-- What every handler guarantees about the frame chain: same frame count,
the enclosing frames' active-local counts untouched, and the current
frame's count not decreased. -/
def StepLe (s s' : LexState) : Prop :=
  (nactMap s').tail = (nactMap s).tail ∧ s'.fss.length = s.fss.length ∧
  (headFS s).nactloc ≤ (headFS s').nactloc

/-- The full preservation contract of a handler. -/
def Pres (j : Job) (s s' : LexState) : Prop :=
  StepLe s s' ∧ (headPres j = true → nactMap s' = nactMap s)

theorem nactMap_len_eq {s s' : LexState} (h : nactMap s' = nactMap s) :
    s'.fss.length = s.fss.length := by
  have := congrArg List.length h
  simpa [nactMap] using this

theorem StepLe_of_eq {s s' : LexState} (h : nactMap s' = nactMap s) :
    StepLe s s' :=
  ⟨congrArg List.tail h, nactMap_len_eq h, (headNact_of_nactMap _ _ h).ge⟩

theorem StepLe_trans {s1 s2 s3 : LexState} (h1 : StepLe s1 s2)
    (h2 : StepLe s2 s3) : StepLe s1 s3 :=
  ⟨h2.1.trans h1.1, h2.2.1.trans h1.2.1, le_trans h1.2.2 h2.2.2⟩

theorem Pres_of_eq {j : Job} {s s' : LexState} (h : nactMap s' = nactMap s) :
    Pres j s s' :=
  ⟨StepLe_of_eq h, fun _ => h⟩

theorem Pres_of_le {j : Job} {s s' : LexState} (hj : headPres j = false)
    (hl : StepLe s s') : Pres j s s' :=
  ⟨hl, fun hp => by rw [hj] at hp; cases hp⟩

theorem Pres_front {j : Job} {s s1 s2 : LexState}
    (h : nactMap s1 = nactMap s) (p : Pres j s1 s2) : Pres j s s2 :=
  ⟨StepLe_trans (StepLe_of_eq h) p.1, fun hp => (p.2 hp).trans h⟩

theorem Pres_back {j : Job} {s s1 s2 : LexState}
    (h : nactMap s2 = nactMap s1) (p : Pres j s s1) : Pres j s s2 :=
  ⟨StepLe_trans p.1 (StepLe_of_eq h), fun hp => h.trans (p.2 hp)⟩

theorem ne_of_len {s s' : LexState} (h : s'.fss.length = s.fss.length)
    (hne : s.fss ≠ []) : s'.fss ≠ [] := by
  intro he
  apply hne
  rw [he] at h
  exact List.length_eq_zero.mp h.symm

theorem eq_of_StepLe_head {s s' : LexState} (hl : StepLe s s')
    (hh : (headFS s').nactloc = (headFS s).nactloc) (hne : s.fss ≠ []) :
    nactMap s' = nactMap s := by
  rw [nactMap_cons (ne_of_len hl.2.1 hne), nactMap_cons hne, hl.1, hh]

theorem pres_breakstatF {ls ls' : LexState} {r : Res}
    (h : breakstatF ls = .ok (r, ls')) (hne : ls.fss ≠ []) :
    nactMap ls' = nactMap ls := by
  unfold breakstatF at h
  dsimp only at h
  split at h
  · cases h
  · next bl rest hbl =>
    split at h
    · cases h
    · next ls2 ha =>
      have h2 := (pres_adjuststack ha (ne_of_nactMap_cons
        ((nactMap_of_fss (fss_next ls)).trans (nactMap_cons hne)))).trans
        (nactMap_of_fss (fss_next ls))
      have hne2 := fss_ne_of_nactMap h2 hne
      split at h
      · cases h
      · next j ls3 hj =>
        have h3 := (pres_jump hj hne2).trans h2
        have hne3 := fss_ne_of_nactMap h3 hne
        cases e4 : (headFS ls3).bl with
        | nil =>
          rw [e4] at h
          dsimp only at h
          split at h
          · cases h
          · next ls5 ha5 =>
            cases h
            exact (pres_adjuststack ha5 hne3).trans h3
        | cons bl2 r2 =>
          rw [e4] at h
          dsimp only at h
          split at h
          · cases h
          · next ls5 ha5 =>
            cases h
            refine (pres_adjuststack ha5 (setFS_ne _ _)).trans ?_
            exact (nactMap_setFS ls3 _ hne3 rfl).trans h3

end Lua

namespace Lua

theorem StepLe_of_bump {s s' : LexState} {k : Nat}
    (h : nactMap s' = ((headFS s).nactloc + k) :: (nactMap s).tail)
    (hne : s.fss ≠ []) : StepLe s s' := by
  refine ⟨by rw [h]; rfl, ?_, ?_⟩
  · rw [← nactMap_len, ← nactMap_len, h, nactMap_cons hne]
    rfl
  · rw [headNact_headD s', h]
    dsimp only [List.headD_cons]
    exact Nat.le_add_right _ _

theorem cons_of_StepLe {s s' : LexState} {c : Nat} {P : List Nat}
    (hl : StepLe s s') (hs : nactMap s = c :: P) :
    ∃ d, nactMap s' = d :: P := by
  have hne := ne_of_nactMap_cons hs
  have hne2 := ne_of_len hl.2.1 hne
  refine ⟨(headFS s').nactloc, ?_⟩
  rw [nactMap_cons hne2, hl.1, hs]
  rfl

theorem open_func_ne (ls : LexState) : (open_func ls).fss ≠ [] := by
  simp [open_func]

end Lua

namespace Lua

theorem ne_next {ls : LexState} (hne : ls.fss ≠ []) : (next ls).fss ≠ [] := by
  rw [fss_next]
  exact hne

theorem ne_lookaheadT {ls : LexState} (hne : ls.fss ≠ []) :
    (lookaheadT ls).fss ≠ [] := by
  rw [fss_lookaheadT]
  exact hne

theorem eq_next (ls : LexState) : nactMap (next ls) = nactMap ls :=
  nactMap_of_fss (fss_next ls)

theorem eq_lookaheadT (ls : LexState) : nactMap (lookaheadT ls) = nactMap ls :=
  nactMap_of_fss (fss_lookaheadT ls)

theorem eq_optional (ls : LexState) (c : Tk) :
    nactMap (optional ls c).2 = nactMap ls :=
  nactMap_of_fss (fss_optional ls c)

theorem eq_check {ls ls' : LexState} {c : Tk} (h : check ls c = .ok ls') :
    nactMap ls' = nactMap ls :=
  nactMap_of_fss (fss_check h)

theorem eq_check_match {ls ls' : LexState} {a b : Tk} {w : Nat}
    (h : check_match ls a b w = .ok ls') : nactMap ls' = nactMap ls :=
  nactMap_of_fss (fss_check_match h)

theorem eq_str_checkname {ls ls' : LexState} {n : String}
    (h : str_checkname ls = .ok (n, ls')) : nactMap ls' = nactMap ls :=
  nactMap_of_fss (fss_str_checkname h)

end Lua

namespace Lua

theorem getlabel_ne (ls : LexState) : (luaK_getlabel ls).2.fss ≠ [] := by
  unfold luaK_getlabel
  exact setFS_ne _ _

theorem forbody_tail {ls ls5 : LexState} {nvar : Nat}
    (e5 : nactMap ls5 = ((headFS ls).nactloc + nvar) :: (nactMap ls).tail)
    (hne : ls.fss ≠ []) (l : List Nat) (t prep : Nat) :
    nactMap (removelocalvars (luaK_fixfor
      (luaK_getlabel (luaK_patchlist ls5 l t)).2 prep
      (luaK_getlabel (luaK_patchlist ls5 l t)).1) nvar) = nactMap ls := by
  have e6 : nactMap (luaK_fixfor (luaK_getlabel (luaK_patchlist ls5 l t)).2
      prep (luaK_getlabel (luaK_patchlist ls5 l t)).1) =
      ((headFS ls).nactloc + nvar) :: (nactMap ls).tail :=
    (pres_fixfor _ _ _ (getlabel_ne _)).trans
      ((pres_getlabel _ (patchlist_ne _ _ _)).trans
      ((pres_patchlist _ _ _ (ne_of_nactMap_cons e5)).trans e5))
  rw [nactMap_removelocalvars _ _ (ne_of_nactMap_cons e6)]
  rw [headNact_headD, e6]
  dsimp only [List.headD_cons, List.tail_cons]
  rw [Nat.add_sub_cancel]
  exact (nactMap_cons hne).symm

theorem runPres : ∀ (fuel : Nat) (j : Job) (s : LexState) (r : Res)
    (s' : LexState), run fuel j s = .ok (r, s') → s.fss ≠ [] → Pres j s s' := by
  intro fuel
  induction fuel with
  | zero =>
    intro j s r s' h
    cases h
  | succ n ih =>
    intro j s r s' h hne
    rw [run_succ] at h
    cases j with
    | chunk =>
      replace h : chunkF (run n) s = .ok (r, s') := h
      unfold chunkF at h
      (try dsimp only at h)
      split at h
      · cases h
        exact Pres_of_le rfl (StepLe_of_eq rfl)
      · (try dsimp only at h)
        split at h
        · cases h
        · rename_i r1 ls1 h1
          have p1 := ih _ _ _ _ h1 hne
          have hne1 := ne_of_len p1.1.2.1 hne
          rcases ho : optional ls1 (.chr ';') with ⟨b2, ls2⟩
          rw [ho] at h
          dsimp only at h
          have e2 := eq_optional ls1 (Tk.chr ';')
          rw [ho] at e2
          (try dsimp only at h)
          split at h
          · cases h
            exact Pres_of_le rfl (StepLe_trans p1.1 (StepLe_of_eq e2))
          · have p3 := ih _ _ _ _ h (fss_ne_of_nactMap e2 hne1)
            exact Pres_of_le rfl (StepLe_trans p1.1
              (StepLe_trans (StepLe_of_eq e2) p3.1))
    | statement =>
      replace h : statementF (run n) s = .ok (r, s') := h
      unfold statementF at h
      dsimp only at h
      (try dsimp only at h)
      split at h
      · (try dsimp only at h)
        split at h
        · cases h
        · rename_i r1 ls1 h1
          cases h
          exact Pres_of_le rfl (StepLe_of_eq ((ih _ _ _ _ h1 hne).2 rfl))
      · (try dsimp only at h)
        split at h
        · cases h
        · rename_i r1 ls1 h1
          cases h
          exact Pres_of_le rfl (StepLe_of_eq ((ih _ _ _ _ h1 hne).2 rfl))
      · (try dsimp only at h)
        split at h
        · cases h
        · rename_i r1 ls1 h1
          have e1 := ((ih _ _ _ _ h1 (ne_next hne)).2 rfl).trans (eq_next s)
          (try dsimp only at h)
          split at h
          · cases h
          · rename_i ls2 h2
            cases h
            exact Pres_of_le rfl (StepLe_of_eq ((eq_check_match h2).trans e1))
      · (try dsimp only at h)
        split at h
        · cases h
        · rename_i r1 ls1 h1
          cases h
          exact Pres_of_le rfl (StepLe_of_eq ((ih _ _ _ _ h1 hne).2 rfl))
      · (try dsimp only at h)
        split at h
        · cases h
        · rename_i r1 ls1 h1
          cases h
          exact Pres_of_le rfl (StepLe_of_eq ((ih _ _ _ _ h1 hne).2 rfl))
      · (try dsimp only at h)
        split at h
        · (try dsimp only at h)
          split at h
          · cases h
          · rename_i r1 ls1 h1
            cases h
            exact Pres_of_le rfl (StepLe_of_eq
              (((ih _ _ _ _ h1 (ne_lookaheadT hne)).2 rfl).trans (eq_lookaheadT s)))
        · (try dsimp only at h)
          split at h
          · cases h
          · rename_i r1 ls1 h1
            cases h
            exact Pres_of_le rfl (StepLe_of_eq
              (((ih _ _ _ _ h1 (ne_lookaheadT hne)).2 rfl).trans (eq_lookaheadT s)))
      · (try dsimp only at h)
        split at h
        · cases h
        · rename_i r1 ls1 h1
          cases h
          exact Pres_of_le rfl (ih _ _ _ _ h1 hne).1
      · (try dsimp only at h)
        split at h
        · cases h
        · rename_i r1 ls1 h1
          cases h
          exact Pres_of_le rfl (StepLe_of_eq ((ih _ _ _ _ h1 hne).2 rfl))
      · (try dsimp only at h)
        split at h
        · cases h
        · rename_i r1 ls1 h1
          cases h
          exact Pres_of_le rfl (StepLe_of_eq (pres_breakstatF h1 hne))
      · (try dsimp only at h)
        split at h
        · cases h
        · rename_i r1 ls1 h1
          cases h
          exact Pres_of_le rfl (StepLe_of_eq ((ih _ _ _ _ h1 hne).2 rfl))
    | block =>
      replace h : blockF (run n) s = .ok (r, s') := h
      unfold blockF at h
      dsimp only at h
      (try dsimp only at h)
      split at h
      · cases h
      · rename_i r1 ls1 h1
        have p1 := ih _ _ _ _ h1 hne
        have hne1 := ne_of_len p1.1.2.1 hne
        (try dsimp only at h)
        split at h
        · cases h
        · rename_i ls2 ha
          have e2 := pres_adjuststack ha hne1
          have hne2 := fss_ne_of_nactMap e2 hne1
          cases h
          refine Pres_of_eq ?_
          rw [nactMap_removelocalvars _ _ hne2]
          rw [nactMap_cons hne]
          rw [(congrArg List.tail e2).trans p1.1.1]
          congr 1
          have hh := headNact_of_nactMap _ _ e2
          have hle := p1.1.2.2
          omega
    | expr =>
      replace h : exprF (run n) s = .ok (r, s') := h
      unfold exprF at h
      (try dsimp only at h)
      split at h
      · cases h
      · rename_i r1 ls1 h1
        cases h
        exact Pres_of_eq ((ih _ _ _ _ h1 hne).2 rfl)
    | exp1 =>
      replace h : exp1F (run n) s = .ok (r, s') := h
      unfold exp1F at h
      (try dsimp only at h)
      split at h
      · cases h
      · rename_i r1 ls1 h1
        have e1 := (ih _ _ _ _ h1 hne).2 rfl
        (try dsimp only at h)
        split at h
        · cases h
        · rename_i v2 ls2 ht
          cases h
          exact Pres_of_eq ((pres_tostack ht (fss_ne_of_nactMap e1 hne)).trans e1)
    | simpleexp =>
      replace h : simpleexpF (run n) s = .ok (r, s') := h
      unfold simpleexpF at h
      (try dsimp only at h)
      split at h
      · cases h
      · rename_i r1 ls1 h1
        have e1 := (ih _ _ _ _ h1 hne).2 rfl
        have e2 := (ih _ _ _ _ h (fss_ne_of_nactMap e1 hne)).2 rfl
        exact Pres_of_eq (e2.trans e1)
    | simpleexpLoop v =>
      replace h : simpleexpLoopF (run n) v s = .ok (r, s') := h
      unfold simpleexpLoopF at h
      (try dsimp only at h)
      split at h
      · (try dsimp only at h)
        split at h
        · cases h
        · rename_i v2 ls2 ht
          have e2 := (pres_tostack ht (ne_next hne)).trans (eq_next s)
          (try dsimp only at h)
          split at h
          · cases h
          · rename_i c3 ls3 hc
            have e3 := (pres_checkname hc).trans e2
            (try dsimp only at h)
            split at h
            · cases h
            · rename_i ls4 hk
              have e4 := (pres_kstr hk (fss_ne_of_nactMap e3 hne)).trans e3
              exact Pres_of_eq
                (((ih _ _ _ _ h (fss_ne_of_nactMap e4 hne)).2 rfl).trans e4)
      · (try dsimp only at h)
        split at h
        · cases h
        · rename_i v2 ls2 ht
          have e2 := (pres_tostack ht (ne_next hne)).trans (eq_next s)
          (try dsimp only at h)
          split at h
          · cases h
          · rename_i r3 ls3 h3
            have e3 := ((ih _ _ _ _ h3 (fss_ne_of_nactMap e2 hne)).2 rfl).trans e2
            (try dsimp only at h)
            split at h
            · cases h
            · rename_i ls4 h4
              have e4 := (eq_check h4).trans e3
              exact Pres_of_eq
                (((ih _ _ _ _ h (fss_ne_of_nactMap e4 hne)).2 rfl).trans e4)
      · (try dsimp only at h)
        split at h
        · cases h
        · rename_i v2 ls2 ht
          have e2 := (pres_tostack ht (ne_next hne)).trans (eq_next s)
          (try dsimp only at h)
          split at h
          · cases h
          · rename_i c3 ls3 hc
            have e3 := (pres_checkname hc).trans e2
            (try dsimp only at h)
            split at h
            · cases h
            · rename_i p4 ls4 h4
              have e4 := (pres_code1 h4 (fss_ne_of_nactMap e3 hne)).trans e3
              (try dsimp only at h)
              split at h
              · cases h
              · rename_i r5 ls5 h5
                have e5 := ((ih _ _ _ _ h5 (fss_ne_of_nactMap e4 hne)).2 rfl).trans e4
                exact Pres_of_eq
                  (((ih _ _ _ _ h (fss_ne_of_nactMap e5 hne)).2 rfl).trans e5)
      · (try dsimp only at h)
        split at h
        · cases h
        · rename_i v2 ls2 ht
          have e2 := pres_tostack ht hne
          (try dsimp only at h)
          split at h
          · cases h
          · rename_i r3 ls3 h3
            have e3 := ((ih _ _ _ _ h3 (fss_ne_of_nactMap e2 hne)).2 rfl).trans e2
            exact Pres_of_eq
              (((ih _ _ _ _ h (fss_ne_of_nactMap e3 hne)).2 rfl).trans e3)
      · (try dsimp only at h)
        split at h
        · cases h
        · rename_i v2 ls2 ht
          have e2 := pres_tostack ht hne
          (try dsimp only at h)
          split at h
          · cases h
          · rename_i r3 ls3 h3
            have e3 := ((ih _ _ _ _ h3 (fss_ne_of_nactMap e2 hne)).2 rfl).trans e2
            exact Pres_of_eq
              (((ih _ _ _ _ h (fss_ne_of_nactMap e3 hne)).2 rfl).trans e3)
      · (try dsimp only at h)
        split at h
        · cases h
        · rename_i v2 ls2 ht
          have e2 := pres_tostack ht hne
          (try dsimp only at h)
          split at h
          · cases h
          · rename_i r3 ls3 h3
            have e3 := ((ih _ _ _ _ h3 (fss_ne_of_nactMap e2 hne)).2 rfl).trans e2
            exact Pres_of_eq
              (((ih _ _ _ _ h (fss_ne_of_nactMap e3 hne)).2 rfl).trans e3)
      · cases h
        exact Pres_of_eq rfl
    | primaryexp =>
      replace h : primaryexpF (run n) s = .ok (r, s') := h
      unfold primaryexpF at h
      (try dsimp only at h)
      split at h
      · rename_i r0 heq
        (try dsimp only at h)
        split at h
        · cases h
        · rename_i ls1 h1
          cases h
          exact Pres_of_eq ((pres_number h1 (ne_next hne)).trans (eq_next s))
      · rename_i s0 heq
        (try dsimp only at h)
        split at h
        · cases h
        · rename_i ls1 h1
          cases h
          exact Pres_of_eq ((eq_next ls1).trans (pres_code_string h1 hne))
      · (try dsimp only at h)
        split at h
        · cases h
        · rename_i ls1 h1
          cases h
          exact Pres_of_eq ((eq_next ls1).trans (pres_adjuststack h1 hne))
      · (try dsimp only at h)
        split at h
        · cases h
        · rename_i r1 ls1 h1
          cases h
          exact Pres_of_eq ((ih _ _ _ _ h1 hne).2 rfl)
      · (try dsimp only at h)
        split at h
        · cases h
        · rename_i r1 ls1 h1
          cases h
          exact Pres_of_eq
            (((ih _ _ _ _ h1 (ne_next hne)).2 rfl).trans (eq_next s))
      · (try dsimp only at h)
        split at h
        · cases h
        · rename_i r1 ls1 h1
          have e1 := ((ih _ _ _ _ h1 (ne_next hne)).2 rfl).trans (eq_next s)
          (try dsimp only at h)
          split at h
          · cases h
          · rename_i ls2 h2
            cases h
            exact Pres_of_eq ((eq_check h2).trans e1)
      · rename_i n0 heq
        (try dsimp only at h)
        split at h
        · cases h
        · rename_i nm ls1 h1
          (try dsimp only at h)
          split at h
          · cases h
          · rename_i v1 ls2 h2
            cases h
            exact Pres_of_eq ((pres_singlevar h2).trans (eq_str_checkname h1))
      · (try dsimp only at h)
        split at h
        · cases h
        · rename_i nm ls1 h1
          have e1 := (eq_str_checkname h1).trans (eq_next s)
          (try dsimp only at h)
          split at h
          · cases h
          · rename_i ls2 h2
            cases h
            exact Pres_of_eq
              ((pres_pushupvalue h2 (fss_ne_of_nactMap e1 hne)).trans e1)
      · cases h
    | subexpr limit =>
      replace h : subexprF (run n) limit s = .ok (r, s') := h
      unfold subexprF at h
      dsimp only at h
      by_cases hu : getunopr s.t ≠ UnOprT.OPR_NOUNOPR
      · rw [if_pos hu] at h
        (try dsimp only at h)
        split at h
        · cases h
        · rename_i v1 ls1 hf
          have e1 : nactMap ls1 = nactMap s := by
            (try dsimp only at hf)
            split at hf
            · cases hf
            · rename_i r2 ls2 h2
              have e2 := ((ih _ _ _ _ h2 (ne_next hne)).2 rfl).trans (eq_next s)
              exact (pres_prefixop hf (fss_ne_of_nactMap e2 hne)).trans e2
          exact Pres_of_eq
            (((ih _ _ _ _ h (fss_ne_of_nactMap e1 hne)).2 rfl).trans e1)
      · rw [if_neg hu] at h
        (try dsimp only at h)
        split at h
        · cases h
        · rename_i v1 ls1 hf
          have e1 : nactMap ls1 = nactMap s := by
            (try dsimp only at hf)
            split at hf
            · cases hf
            · rename_i r2 ls2 h2
              cases hf
              exact (ih _ _ _ _ h2 hne).2 rfl
          exact Pres_of_eq
            (((ih _ _ _ _ h (fss_ne_of_nactMap e1 hne)).2 rfl).trans e1)
    | subexprLoop limit v op =>
      replace h : subexprLoopF (run n) limit v op s = .ok (r, s') := h
      unfold subexprLoopF at h
      (try dsimp only at h)
      split at h
      · (try dsimp only at h)
        split at h
        · cases h
        · rename_i v2 ls2 hi
          have e2 := (pres_infixop hi (ne_next hne)).trans (eq_next s)
          (try dsimp only at h)
          split at h
          · cases h
          · rename_i r3 ls3 h3
            have e3 := ((ih _ _ _ _ h3 (fss_ne_of_nactMap e2 hne)).2 rfl).trans e2
            (try dsimp only at h)
            split at h
            · cases h
            · rename_i v4 ls4 h4
              have e4 := (pres_posfix h4 (fss_ne_of_nactMap e3 hne)).trans e3
              exact Pres_of_eq
                (((ih _ _ _ _ h (fss_ne_of_nactMap e4 hne)).2 rfl).trans e4)
      · cases h
        exact Pres_of_eq rfl
    | explist1 =>
      replace h : explist1F (run n) s = .ok (r, s') := h
      unfold explist1F at h
      (try dsimp only at h)
      split at h
      · cases h
      · rename_i r1 ls1 h1
        have e1 := (ih _ _ _ _ h1 hne).2 rfl
        have e2 := (ih _ _ _ _ h (fss_ne_of_nactMap e1 hne)).2 rfl
        exact Pres_of_eq (e2.trans e1)
    | explist1Cont n0 v =>
      replace h : explist1ContF (run n) n0 v s = .ok (r, s') := h
      unfold explist1ContF at h
      (try dsimp only at h)
      split at h
      · (try dsimp only at h)
        split at h
        · cases h
        · rename_i v2 ls2 ht
          have e2 := (pres_tostack ht (ne_next hne)).trans (eq_next s)
          (try dsimp only at h)
          split at h
          · cases h
          · rename_i r3 ls3 h3
            have e3 := ((ih _ _ _ _ h3 (fss_ne_of_nactMap e2 hne)).2 rfl).trans e2
            exact Pres_of_eq
              (((ih _ _ _ _ h (fss_ne_of_nactMap e3 hne)).2 rfl).trans e3)
      · (try dsimp only at h)
        split at h
        · cases h
        · rename_i v2 ls2 ht
          cases h
          exact Pres_of_eq (pres_tostack ht hne)
    | funcargs slf =>
      replace h : funcargsF (run n) slf s = .ok (r, s') := h
      unfold funcargsF at h
      dsimp only at h
      (try dsimp only at h)
      split at h
      · (try dsimp only at h)
        split at h
        · cases h
        · rename_i ls2 ha
          have e2 : nactMap ls2 = nactMap s := by
            (try dsimp only at ha)
            split at ha
            · cases ha
              exact eq_next s
            · (try dsimp only at ha)
              split at ha
              · cases ha
              · rename_i r3 ls3 h3
                cases ha
                exact ((ih _ _ _ _ h3 (ne_next hne)).2 rfl).trans (eq_next s)
          (try dsimp only at h)
          split at h
          · cases h
          · rename_i ls4 h4
            have e4 := (eq_check_match h4).trans e2
            exact Pres_of_eq
              ((pres_funcargsFin h (fss_ne_of_nactMap e4 hne)).trans e4)
      · (try dsimp only at h)
        split at h
        · cases h
        · rename_i r1 ls1 h1
          have e1 := (ih _ _ _ _ h1 hne).2 rfl
          exact Pres_of_eq
            ((pres_funcargsFin h (fss_ne_of_nactMap e1 hne)).trans e1)
      · rename_i s0 heq
        (try dsimp only at h)
        split at h
        · cases h
        · rename_i ls1 h1
          have e1 := (eq_next ls1).trans (pres_code_string h1 hne)
          exact Pres_of_eq
            ((pres_funcargsFin h (fss_ne_of_nactMap e1 hne)).trans e1)
      · cases h
    | constructor =>
      replace h : constructorF (run n) s = .ok (r, s') := h
      unfold constructorF at h
      (try dsimp only at h)
      split at h
      · cases h
      · rename_i pcT ls1 h1
        have e1 := pres_code1 h1 hne
        (try dsimp only at h)
        split at h
        · cases h
        · rename_i ls2 h2
          have e2 := (eq_check h2).trans e1
          (try dsimp only at h)
          split at h
          · cases h
          · rename_i r1 ls3 h3
            have e3 := ((ih _ _ _ _ h3 (fss_ne_of_nactMap e2 hne)).2 rfl).trans e2
            rcases ho : optional ls3 (.chr ';') with ⟨b4, ls4⟩
            rw [ho] at h
            (try dsimp only at h)
            have e4 : nactMap ls4 = nactMap s := by
              have hoe := eq_optional ls3 (Tk.chr ';')
              rw [ho] at hoe
              exact hoe.trans e3
            split at h
            · cases h
            · rename_i nelems ls5 hp
              have e5 : nactMap ls5 = nactMap s := by
                split at hp
                · (try dsimp only at hp)
                  split at hp
                  · cases hp
                  · rename_i r2 ls6 h6
                    have e6 := ((ih _ _ _ _ h6 (fss_ne_of_nactMap e4 hne)).2
                      rfl).trans e4
                    split at hp
                    · cases hp
                      exact e6
                    · cases hp
                · cases hp
                  exact e4
              (try dsimp only at h)
              split at h
              · cases h
              · rename_i ls7 h7
                have e7 := (eq_check_match h7).trans e5
                (try dsimp only at h)
                split at h
                · cases h
                · cases h
                  exact Pres_of_eq
                    ((nactMap_setFS _ _ (fss_ne_of_nactMap e7 hne) rfl).trans e7)
    | constructorPart =>
      replace h : constructorPartF (run n) s = .ok (r, s') := h
      unfold constructorPartF at h
      (try dsimp only at h)
      split at h
      · cases h
        exact Pres_of_eq rfl
      · cases h
        exact Pres_of_eq rfl
      · rename_i n1 heq
        (try dsimp only at h)
        split at h
        · (try dsimp only at h)
          split at h
          · cases h
          · rename_i r2 ls2 h2
            cases h
            exact Pres_of_eq
              (((ih _ _ _ _ h2 (ne_lookaheadT hne)).2 rfl).trans (eq_lookaheadT s))
        · (try dsimp only at h)
          split at h
          · cases h
          · rename_i r2 ls2 h2
            cases h
            exact Pres_of_eq
              (((ih _ _ _ _ h2 (ne_lookaheadT hne)).2 rfl).trans (eq_lookaheadT s))
      · (try dsimp only at h)
        split at h
        · cases h
        · rename_i r2 ls2 h2
          cases h
          exact Pres_of_eq ((ih _ _ _ _ h2 hne).2 rfl)
      · (try dsimp only at h)
        split at h
        · cases h
        · rename_i r2 ls2 h2
          cases h
          exact Pres_of_eq ((ih _ _ _ _ h2 hne).2 rfl)
    | recfield =>
      replace h : recfieldF (run n) s = .ok (r, s') := h
      unfold recfieldF at h
      dsimp only at h
      (try dsimp only at h)
      split at h
      · cases h
      · rename_i ls1 hk
        have e1 : nactMap ls1 = nactMap s := by
          (try dsimp only at hk)
          split at hk
          · rename_i n1 heq
            (try dsimp only at hk)
            split at hk
            · cases hk
            · rename_i c2 ls2 h2
              exact (pres_kstr hk (fss_ne_of_nactMap (pres_checkname h2) hne)).trans
                (pres_checkname h2)
          · (try dsimp only at hk)
            split at hk
            · cases hk
            · rename_i r2 ls2 h2
              have e2 := ((ih _ _ _ _ h2 (ne_next hne)).2 rfl).trans (eq_next s)
              exact (eq_check hk).trans e2
          · cases hk
        (try dsimp only at h)
        split at h
        · cases h
        · rename_i ls3 h3
          have e3 := (eq_check h3).trans e1
          (try dsimp only at h)
          split at h
          · cases h
          · rename_i r4 ls4 h4
            cases h
            exact Pres_of_eq
              (((ih _ _ _ _ h4 (fss_ne_of_nactMap e3 hne)).2 rfl).trans e3)
    | recfields =>
      replace h : recfieldsF (run n) s = .ok (r, s') := h
      unfold recfieldsF at h
      dsimp only at h
      (try dsimp only at h)
      split at h
      · cases h
      · rename_i r1 ls1 h1
        have e1 := (ih _ _ _ _ h1 hne).2 rfl
        have e2 := (ih _ _ _ _ h (fss_ne_of_nactMap e1 hne)).2 rfl
        exact Pres_of_eq (e2.trans e1)
    | recfieldsCont tPos n0 =>
      replace h : recfieldsContF (run n) tPos n0 s = .ok (r, s') := h
      unfold recfieldsContF at h
      (try dsimp only at h)
      split at h
      · (try dsimp only at h)
        split at h
        · (try dsimp only at h)
          split at h
          · cases h
          · rename_i p2 ls2 h2
            cases h
            exact Pres_of_eq ((pres_code1 h2 (ne_next hne)).trans (eq_next s))
        · (try dsimp only at h)
          split at h
          · cases h
          · rename_i ls2 hf
            have e2 : nactMap ls2 = nactMap s := by
              (try dsimp only at hf)
              split at hf
              · (try dsimp only at hf)
                split at hf
                · cases hf
                · rename_i p3 ls3 h3
                  cases hf
                  exact (pres_code1 h3 (ne_next hne)).trans (eq_next s)
              · cases hf
                exact eq_next s
            (try dsimp only at h)
            split at h
            · cases h
            · rename_i r3 ls3 h3
              have e3 := ((ih _ _ _ _ h3 (fss_ne_of_nactMap e2 hne)).2 rfl).trans e2
              exact Pres_of_eq
                (((ih _ _ _ _ h (fss_ne_of_nactMap e3 hne)).2 rfl).trans e3)
      · (try dsimp only at h)
        split at h
        · cases h
        · rename_i p2 ls2 h2
          cases h
          exact Pres_of_eq (pres_code1 h2 hne)
    | listfields =>
      replace h : listfieldsF (run n) s = .ok (r, s') := h
      unfold listfieldsF at h
      dsimp only at h
      (try dsimp only at h)
      split at h
      · cases h
      · rename_i r1 ls1 h1
        have e1 := (ih _ _ _ _ h1 hne).2 rfl
        have e2 := (ih _ _ _ _ h (fss_ne_of_nactMap e1 hne)).2 rfl
        exact Pres_of_eq (e2.trans e1)
    | listfieldsCont tPos n0 v =>
      replace h : listfieldsContF (run n) tPos n0 v s = .ok (r, s') := h
      unfold listfieldsContF at h
      (try dsimp only at h)
      split at h
      · (try dsimp only at h)
        split at h
        · (try dsimp only at h)
          split at h
          · cases h
          · rename_i v2 ls2 ht
            have e2 := (pres_tostack ht (ne_next hne)).trans (eq_next s)
            (try dsimp only at h)
            split at h
            · cases h
            · rename_i p3 ls3 h3
              cases h
              exact Pres_of_eq ((pres_code2 h3 (fss_ne_of_nactMap e2 hne)).trans e2)
        · (try dsimp only at h)
          split at h
          · cases h
          · rename_i v2 ls2 ht
            have e2 := (pres_tostack ht (ne_next hne)).trans (eq_next s)
            (try dsimp only at h)
            split at h
            · cases h
            · (try dsimp only at h)
              split at h
              · cases h
              · rename_i ls3 hf
                have e3 : nactMap ls3 = nactMap ls2 := by
                  (try dsimp only at hf)
                  split at hf
                  · (try dsimp only at hf)
                    split at hf
                    · cases hf
                    · rename_i p4 ls4 h4
                      cases hf
                      exact pres_code2 h4 (fss_ne_of_nactMap e2 hne)
                  · cases hf
                    rfl
                have e3' := e3.trans e2
                (try dsimp only at h)
                split at h
                · cases h
                · rename_i r4 ls4 h4
                  have e4 := ((ih _ _ _ _ h4 (fss_ne_of_nactMap e3' hne)).2 rfl).trans e3'
                  exact Pres_of_eq
                    (((ih _ _ _ _ h (fss_ne_of_nactMap e4 hne)).2 rfl).trans e4)
      · (try dsimp only at h)
        split at h
        · cases h
        · rename_i v2 ls2 ht
          have e2 := pres_tostack ht hne
          (try dsimp only at h)
          split at h
          · cases h
          · rename_i p3 ls3 h3
            cases h
            exact Pres_of_eq ((pres_code2 h3 (fss_ne_of_nactMap e2 hne)).trans e2)
    | assignment v nvars =>
      replace h : assignmentF (run n) v nvars s = .ok (r, s') := h
      unfold assignmentF at h
      (try dsimp only at h)
      split at h
      · cases h
      · (try dsimp only at h)
        split at h
        · cases h
        · rename_i left ls1 hl
          have e1 : nactMap ls1 = nactMap s := by
            split at hl
            · (try dsimp only at hl)
              split at hl
              · cases hl
              · rename_i r2 ls2 h2
                have e2 := ((ih _ _ _ _ h2 (ne_next hne)).2 rfl).trans (eq_next s)
                split at hl
                · cases hl
                · (try dsimp only at hl)
                  split at hl
                  · cases hl
                  · rename_i r3 ls3 h3
                    cases hl
                    exact ((ih _ _ _ _ h3 (fss_ne_of_nactMap e2 hne)).2 rfl).trans e2
            · (try dsimp only at hl)
              split at hl
              · cases hl
              · rename_i ls2 h2
                have e2 := eq_check h2
                (try dsimp only at hl)
                split at hl
                · cases hl
                · rename_i r3 ls3 h3
                  have e3 := ((ih _ _ _ _ h3 (fss_ne_of_nactMap e2 hne)).2
                    rfl).trans e2
                  (try dsimp only at hl)
                  split at hl
                  · cases hl
                  · rename_i ls4 h4
                    cases hl
                    exact (pres_adjust_mult h4 (fss_ne_of_nactMap e3 hne)).trans e3
          (try dsimp only at h)
          split at h
          · (try dsimp only at h)
            split at h
            · cases h
            · rename_i ls2 h2
              cases h
              exact Pres_of_eq
                ((pres_storevar h2 (fss_ne_of_nactMap e1 hne)).trans e1)
          · (try dsimp only at h)
            split at h
            · cases h
            · rename_i p2 ls2 h2
              cases h
              exact Pres_of_eq
                ((pres_code2 h2 (fss_ne_of_nactMap e1 hne)).trans e1)
    | cond =>
      replace h : condF (run n) s = .ok (r, s') := h
      unfold condF at h
      (try dsimp only at h)
      split at h
      · cases h
      · rename_i r1 ls1 h1
        have e1 := (ih _ _ _ _ h1 hne).2 rfl
        (try dsimp only at h)
        split at h
        · cases h
        · rename_i v2 ls2 h2
          cases h
          exact Pres_of_eq ((pres_goiftrue h2 (fss_ne_of_nactMap e1 hne)).trans e1)
    | whilestat line =>
      replace h : whilestatF (run n) line s = .ok (r, s') := h
      unfold whilestatF at h
      (try dsimp only at h)
      have e0 : nactMap (next (enterbreak (luaK_getlabel s).2)) = nactMap s :=
        (eq_next _).trans ((pres_enterbreak _ (getlabel_ne s)).trans
          (pres_getlabel s hne))
      split at h
      · cases h
      · rename_i r1 ls1 h1
        have e1 := ((ih _ _ _ _ h1 (fss_ne_of_nactMap e0 hne)).2 rfl).trans e0
        (try dsimp only at h)
        split at h
        · cases h
        · rename_i ls2 h2
          have e2 := (eq_check h2).trans e1
          (try dsimp only at h)
          split at h
          · cases h
          · rename_i r3 ls3 h3
            have e3 := ((ih _ _ _ _ h3 (fss_ne_of_nactMap e2 hne)).2 rfl).trans e2
            (try dsimp only at h)
            split at h
            · cases h
            · rename_i j4 ls4 h4
              have e4 := (pres_jump h4 (fss_ne_of_nactMap e3 hne)).trans e3
              (try dsimp only at h)
              split at h
              · cases h
              · rename_i ls7 h7
                cases h
                have e7 : nactMap ls7 = nactMap s :=
                  (eq_check_match h7).trans ((pres_patchlist _ _ _
                    (getlabel_ne _)).trans ((pres_getlabel _
                    (patchlist_ne _ _ _)).trans ((pres_patchlist _ _ _
                    (fss_ne_of_nactMap e4 hne)).trans e4)))
                exact Pres_of_eq
                  ((pres_leavebreak ls7 (fss_ne_of_nactMap e7 hne)).trans e7)
    | repeatstat line =>
      replace h : repeatstatF (run n) line s = .ok (r, s') := h
      unfold repeatstatF at h
      (try dsimp only at h)
      have e0 : nactMap (next (enterbreak (luaK_getlabel s).2)) = nactMap s :=
        (eq_next _).trans ((pres_enterbreak _ (getlabel_ne s)).trans
          (pres_getlabel s hne))
      split at h
      · cases h
      · rename_i r1 ls1 h1
        have e1 := ((ih _ _ _ _ h1 (fss_ne_of_nactMap e0 hne)).2 rfl).trans e0
        (try dsimp only at h)
        split at h
        · cases h
        · rename_i ls2 h2
          have e2 := (eq_check_match h2).trans e1
          (try dsimp only at h)
          split at h
          · cases h
          · rename_i r3 ls3 h3
            have e3 := ((ih _ _ _ _ h3 (fss_ne_of_nactMap e2 hne)).2 rfl).trans e2
            cases h
            have e4 : nactMap (luaK_patchlist ls3 r3.toE.fl
                (luaK_getlabel s).1) = nactMap s :=
              (pres_patchlist _ _ _ (fss_ne_of_nactMap e3 hne)).trans e3
            exact Pres_of_eq
              ((pres_leavebreak _ (fss_ne_of_nactMap e4 hne)).trans e4)
    | forbody nvar pf lf =>
      replace h : forbodyF (run n) nvar pf lf s = .ok (r, s') := h
      unfold forbodyF at h
      (try dsimp only at h)
      split at h
      · cases h
      · rename_i prep ls1 h1
        have e1 := pres_code1 h1 hne
        have e2 : nactMap (luaK_getlabel ls1).2 = nactMap s :=
          (pres_getlabel ls1 (fss_ne_of_nactMap e1 hne)).trans e1
        (try dsimp only at h)
        split at h
        · cases h
        · rename_i ls3 h3
          have e3 := (eq_check h3).trans e2
          have hne3 := fss_ne_of_nactMap e3 hne
          have ea := nactMap_adjustlocalvars nvar ls3 hne3
          (try dsimp only at h)
          split at h
          · cases h
          · rename_i r4 ls4 h4
            have e4 := ((ih _ _ _ _ h4 (ne_of_nactMap_cons ea)).2 rfl).trans ea
            (try dsimp only at h)
            split at h
            · cases h
            · rename_i lp ls5 h5
              have e5 := (pres_code1 h5 (ne_of_nactMap_cons e4)).trans e4
              cases h
              exact Pres_of_eq ((forbody_tail e5 hne3 _ _ _).trans e3)
    | fornum varname =>
      replace h : fornumF (run n) varname s = .ok (r, s') := h
      unfold fornumF at h
      (try dsimp only at h)
      split at h
      · cases h
      · rename_i ls1 h1
        have e1 := eq_check h1
        (try dsimp only at h)
        split at h
        · cases h
        · rename_i r2 ls2 h2
          have e2 := ((ih _ _ _ _ h2 (fss_ne_of_nactMap e1 hne)).2 rfl).trans e1
          (try dsimp only at h)
          split at h
          · cases h
          · rename_i ls3 h3
            have e3 := (eq_check h3).trans e2
            (try dsimp only at h)
            split at h
            · cases h
            · rename_i r4 ls4 h4
              have e4 := ((ih _ _ _ _ h4 (fss_ne_of_nactMap e3 hne)).2 rfl).trans e3
              rcases ho : optional ls4 (.chr ',') with ⟨b5, ls5⟩
              rw [ho] at h
              (try dsimp only at h)
              have e5 : nactMap ls5 = nactMap s := by
                have hoe := eq_optional ls4 (Tk.chr ',')
                rw [ho] at hoe
                exact hoe.trans e4
              split at h
              · cases h
              · rename_i ls6 hs6
                have e6 : nactMap ls6 = nactMap s := by
                  split at hs6
                  · (try dsimp only at hs6)
                    split at hs6
                    · cases hs6
                    · rename_i r7 ls7 h7
                      cases hs6
                      exact ((ih _ _ _ _ h7 (fss_ne_of_nactMap e5 hne)).2
                        rfl).trans e5
                  · (try dsimp only at hs6)
                    split at hs6
                    · cases hs6
                    · rename_i p7 ls7 h7
                      cases hs6
                      exact (pres_code1 h7 (fss_ne_of_nactMap e5 hne)).trans e5
                (try dsimp only at h)
                split at h
                · cases h
                · rename_i ls8 h8
                  have e8 := (pres_new_localvar h8 (fss_ne_of_nactMap e6 hne)).trans e6
                  (try dsimp only at h)
                  split at h
                  · cases h
                  · rename_i ls9 h9
                    have e9 := (pres_new_localvar h9
                      (fss_ne_of_nactMap e8 hne)).trans e8
                    (try dsimp only at h)
                    split at h
                    · cases h
                    · rename_i ls10 h10
                      have e10 := (pres_new_localvar h10
                        (fss_ne_of_nactMap e9 hne)).trans e9
                      exact Pres_of_eq (((ih _ _ _ _ h
                        (fss_ne_of_nactMap e10 hne)).2 rfl).trans e10)
    | forlist indexname =>
      replace h : forlistF (run n) indexname s = .ok (r, s') := h
      unfold forlistF at h
      (try dsimp only at h)
      split at h
      · cases h
      · rename_i ls1 h1
        have e1 := eq_check h1
        (try dsimp only at h)
        split at h
        · cases h
        · rename_i vn ls2 h2
          have e2 := (eq_str_checkname h2).trans e1
          (try dsimp only at h)
          split at h
          · (try dsimp only at h)
            split at h
            · cases h
            · rename_i r3 ls3 h3
              have e3 := ((ih _ _ _ _ h3 (fss_ne_of_nactMap
                ((eq_next ls2).trans e2) hne)).2 rfl).trans
                ((eq_next ls2).trans e2)
              (try dsimp only at h)
              split at h
              · cases h
              · rename_i ls4 h4
                have e4 := (pres_new_localvar h4 (fss_ne_of_nactMap e3 hne)).trans e3
                (try dsimp only at h)
                split at h
                · cases h
                · rename_i ls5 h5
                  have e5 := (pres_new_localvar h5
                    (fss_ne_of_nactMap e4 hne)).trans e4
                  (try dsimp only at h)
                  split at h
                  · cases h
                  · rename_i ls6 h6
                    have e6 := (pres_new_localvar h6
                      (fss_ne_of_nactMap e5 hne)).trans e5
                    (try dsimp only at h)
                    split at h
                    · cases h
                    · rename_i ls7 h7
                      have e7 := (pres_new_localvar h7
                        (fss_ne_of_nactMap e6 hne)).trans e6
                      exact Pres_of_eq (((ih _ _ _ _ h
                        (fss_ne_of_nactMap e7 hne)).2 rfl).trans e7)
          · cases h
    | forstat line =>
      replace h : forstatF (run n) line s = .ok (r, s') := h
      unfold forstatF at h
      (try dsimp only at h)
      have e0 : nactMap (next (enterbreak s)) = nactMap s :=
        (eq_next _).trans (pres_enterbreak s hne)
      split at h
      · cases h
      · rename_i vn ls1 h1
        have e1 := (eq_str_checkname h1).trans e0
        (try dsimp only at h)
        split at h
        · cases h
        · rename_i r2 ls2 hb
          have e2 : nactMap ls2 = nactMap s := by
            split at hb
            · exact ((ih _ _ _ _ hb (fss_ne_of_nactMap e1 hne)).2 rfl).trans e1
            · exact ((ih _ _ _ _ hb (fss_ne_of_nactMap e1 hne)).2 rfl).trans e1
            · cases hb
          (try dsimp only at h)
          split at h
          · cases h
          · rename_i ls3 h3
            cases h
            have e3 := (eq_check_match h3).trans e2
            exact Pres_of_eq
              ((pres_leavebreak _ (fss_ne_of_nactMap e3 hne)).trans e3)
    | testThenBlock =>
      replace h : testThenBlockF (run n) s = .ok (r, s') := h
      unfold testThenBlockF at h
      dsimp only at h
      (try dsimp only at h)
      split at h
      · cases h
      · rename_i r1 ls1 h1
        have e1 := ((ih _ _ _ _ h1 (ne_next hne)).2 rfl).trans (eq_next s)
        (try dsimp only at h)
        split at h
        · cases h
        · rename_i ls2 h2
          have e2 := (eq_check h2).trans e1
          (try dsimp only at h)
          split at h
          · cases h
          · rename_i r3 ls3 h3
            cases h
            exact Pres_of_eq
              (((ih _ _ _ _ h3 (fss_ne_of_nactMap e2 hne)).2 rfl).trans e2)
    | ifstat line =>
      replace h : ifstatF (run n) line s = .ok (r, s') := h
      unfold ifstatF at h
      (try dsimp only at h)
      split at h
      · cases h
      · rename_i r1 ls1 h1
        have e1 := (ih _ _ _ _ h1 hne).2 rfl
        have e2 := (ih _ _ _ _ h (fss_ne_of_nactMap e1 hne)).2 rfl
        exact Pres_of_eq (e2.trans e1)
    | ifLoop v esc line =>
      replace h : ifLoopF (run n) v esc line s = .ok (r, s') := h
      unfold ifLoopF at h
      (try dsimp only at h)
      split at h
      · (try dsimp only at h)
        split at h
        · cases h
        · rename_i j1 ls1 h1
          have e1 := pres_jump h1 hne
          have e3 : nactMap (luaK_patchlist (luaK_getlabel ls1).2 v.fl
              (luaK_getlabel ls1).1) = nactMap s :=
            (pres_patchlist _ _ _ (getlabel_ne _)).trans
              ((pres_getlabel _ (fss_ne_of_nactMap e1 hne)).trans e1)
          (try dsimp only at h)
          split at h
          · cases h
          · rename_i r4 ls4 h4
            have e4 := ((ih _ _ _ _ h4 (fss_ne_of_nactMap e3 hne)).2 rfl).trans e3
            exact Pres_of_eq
              (((ih _ _ _ _ h (fss_ne_of_nactMap e4 hne)).2 rfl).trans e4)
      · (try dsimp only at h)
        split at h
        · cases h
        · rename_i esc2 ls1 hs1
          have e1 : nactMap ls1 = nactMap s := by
            split at hs1
            · (try dsimp only at hs1)
              split at hs1
              · cases hs1
              · rename_i j2 ls2 h2
                have e2 := pres_jump h2 hne
                have e4 : nactMap (next (luaK_patchlist (luaK_getlabel ls2).2
                    v.fl (luaK_getlabel ls2).1)) = nactMap s :=
                  (eq_next _).trans ((pres_patchlist _ _ _
                    (getlabel_ne _)).trans ((pres_getlabel _
                    (fss_ne_of_nactMap e2 hne)).trans e2))
                (try dsimp only at hs1)
                split at hs1
                · cases hs1
                · rename_i r5 ls5 h5
                  cases hs1
                  exact ((ih _ _ _ _ h5 (fss_ne_of_nactMap e4 hne)).2 rfl).trans e4
            · cases hs1
              rfl
          (try dsimp only at h)
          split at h
          · cases h
          · rename_i ls8 h8
            cases h
            exact Pres_of_eq ((eq_check_match h8).trans
              ((pres_patchlist _ _ _ (getlabel_ne _)).trans
              ((pres_getlabel _ (fss_ne_of_nactMap e1 hne)).trans e1)))
    | localstat =>
      replace h : localstatF (run n) s = .ok (r, s') := h
      unfold localstatF at h
      (try dsimp only at h)
      split at h
      · cases h
      · rename_i r1 ls1 h1
        have e1 := (ih _ _ _ _ h1 hne).2 rfl
        rcases ho : optional ls1 (.chr '=') with ⟨b2, ls2⟩
        rw [ho] at h
        (try dsimp only at h)
        have e2 : nactMap ls2 = nactMap s := by
          have hoe := eq_optional ls1 (Tk.chr '=')
          rw [ho] at hoe
          exact hoe.trans e1
        split at h
        · cases h
        · rename_i nexps ls3 hs3
          have e3 : nactMap ls3 = nactMap s := by
            split at hs3
            · (try dsimp only at hs3)
              split at hs3
              · cases hs3
              · rename_i r4 ls4 h4
                cases hs3
                exact ((ih _ _ _ _ h4 (fss_ne_of_nactMap e2 hne)).2 rfl).trans e2
            · cases hs3
              exact e2
          (try dsimp only at h)
          split at h
          · cases h
          · rename_i ls5 h5
            have e5 := (pres_adjust_mult h5 (fss_ne_of_nactMap e3 hne)).trans e3
            cases h
            have hb : nactMap (adjustlocalvars ls5 r1.toN) =
                ((headFS s).nactloc + r1.toN) :: (nactMap s).tail := by
              rw [nactMap_adjustlocalvars _ _ (fss_ne_of_nactMap e5 hne)]
              rw [headNact_of_nactMap _ _ e5, congrArg List.tail e5]
            exact Pres_of_le rfl (StepLe_of_bump hb hne)
    | localstatNames nvars =>
      replace h : localstatNamesF (run n) nvars s = .ok (r, s') := h
      unfold localstatNamesF at h
      dsimp only at h
      (try dsimp only at h)
      split at h
      · cases h
      · rename_i nm ls1 h1
        have e1 := (eq_str_checkname h1).trans (eq_next s)
        (try dsimp only at h)
        split at h
        · cases h
        · rename_i ls2 h2
          have e2 := (pres_new_localvar h2 (fss_ne_of_nactMap e1 hne)).trans e1
          (try dsimp only at h)
          split at h
          · have e3 := (ih _ _ _ _ h (fss_ne_of_nactMap e2 hne)).2 rfl
            exact Pres_of_eq (e3.trans e2)
          · cases h
            exact Pres_of_eq e2
    | funcname =>
      replace h : funcnameF (run n) s = .ok (r, s') := h
      unfold funcnameF at h
      (try dsimp only at h)
      split at h
      · cases h
      · rename_i nm ls1 h1
        (try dsimp only at h)
        split at h
        · cases h
        · rename_i v1 ls2 h2
          have e2 := (pres_singlevar h2).trans (eq_str_checkname h1)
          have e3 := (ih _ _ _ _ h (fss_ne_of_nactMap e2 hne)).2 rfl
          exact Pres_of_eq (e3.trans e2)
    | funcnameLoop v =>
      replace h : funcnameLoopF (run n) v s = .ok (r, s') := h
      unfold funcnameLoopF at h
      (try dsimp only at h)
      split at h
      · (try dsimp only at h)
        split at h
        · cases h
        · rename_i v2 ls2 ht
          have e2 := (pres_tostack ht (ne_next hne)).trans (eq_next s)
          (try dsimp only at h)
          split at h
          · cases h
          · rename_i c3 ls3 hc
            have e3 := (pres_checkname hc).trans e2
            (try dsimp only at h)
            split at h
            · cases h
            · rename_i ls4 hk
              have e4 := (pres_kstr hk (fss_ne_of_nactMap e3 hne)).trans e3
              exact Pres_of_eq
                (((ih _ _ _ _ h (fss_ne_of_nactMap e4 hne)).2 rfl).trans e4)
      · (try dsimp only at h)
        split at h
        · (try dsimp only at h)
          split at h
          · cases h
          · rename_i v2 ls2 ht
            have e2 := (pres_tostack ht (ne_next hne)).trans (eq_next s)
            (try dsimp only at h)
            split at h
            · cases h
            · rename_i c3 ls3 hc
              have e3 := (pres_checkname hc).trans e2
              (try dsimp only at h)
              split at h
              · cases h
              · rename_i ls4 hk
                cases h
                exact Pres_of_eq ((pres_kstr hk (fss_ne_of_nactMap e3 hne)).trans e3)
        · cases h
          exact Pres_of_eq rfl
    | funcstat line =>
      replace h : funcstatF (run n) line s = .ok (r, s') := h
      unfold funcstatF at h
      dsimp only at h
      (try dsimp only at h)
      split at h
      · cases h
      · rename_i r1 ls1 h1
        have e1 := ((ih _ _ _ _ h1 (ne_next hne)).2 rfl).trans (eq_next s)
        (try dsimp only at h)
        split at h
        · cases h
        · rename_i r2 ls2 h2
          have e2 := ((ih _ _ _ _ h2 (fss_ne_of_nactMap e1 hne)).2 rfl).trans e1
          (try dsimp only at h)
          split at h
          · cases h
          · rename_i ls3 h3
            cases h
            exact Pres_of_eq ((pres_storevar h3 (fss_ne_of_nactMap e2 hne)).trans e2)
    | exprstat =>
      replace h : exprstatF (run n) s = .ok (r, s') := h
      unfold exprstatF at h
      (try dsimp only at h)
      split at h
      · cases h
      · rename_i r1 ls1 h1
        have e1 := (ih _ _ _ _ h1 hne).2 rfl
        (try dsimp only at h)
        split at h
        · (try dsimp only at h)
          split at h
          · (try dsimp only at h)
            split at h
            · cases h
            · rename_i ls2 h2
              cases h
              exact Pres_of_eq
                ((pres_setcallreturns h2 (fss_ne_of_nactMap e1 hne)).trans e1)
          · cases h
        · (try dsimp only at h)
          split at h
          · cases h
          · rename_i r2 ls2 h2
            have e2 := ((ih _ _ _ _ h2 (fss_ne_of_nactMap e1 hne)).2 rfl).trans e1
            (try dsimp only at h)
            split at h
            · cases h
            · rename_i ls3 h3
              cases h
              exact Pres_of_eq
                ((pres_adjuststack h3 (fss_ne_of_nactMap e2 hne)).trans e2)
    | retstat =>
      replace h : retstatF (run n) s = .ok (r, s') := h
      unfold retstatF at h
      (try dsimp only at h)
      split at h
      · cases h
      · rename_i ls1 hs1
        have e1 : nactMap ls1 = nactMap s := by
          split at hs1
          · (try dsimp only at hs1)
            split at hs1
            · cases hs1
            · rename_i r2 ls2 h2
              cases hs1
              exact ((ih _ _ _ _ h2 (ne_next hne)).2 rfl).trans (eq_next s)
          · cases hs1
            exact eq_next s
        (try dsimp only at h)
        split at h
        · cases h
        · rename_i p2 ls2 h2
          have e2 := (pres_code1 h2 (fss_ne_of_nactMap e1 hne)).trans e1
          cases h
          exact Pres_of_eq
            ((nactMap_setFS _ _ (fss_ne_of_nactMap e2 hne) rfl).trans e2)
    | breakstat =>
      replace h : breakstatF s = .ok (r, s') := h
      exact Pres_of_eq (pres_breakstatF h hne)
    | parlist =>
      replace h : parlistF (run n) s = .ok (r, s') := h
      unfold parlistF at h
      (try dsimp only at h)
      split at h
      · (try dsimp only at h)
        split at h
        · cases h
        · rename_i ls1 h1
          cases h
          obtain ⟨k, hk⟩ := pres_code_params h1 hne
          exact Pres_of_le rfl (StepLe_of_bump hk hne)
      · (try dsimp only at h)
        split at h
        · cases h
        · rename_i r1 ls1 h1
          have e1 := (ih _ _ _ _ h1 hne).2 rfl
          (try dsimp only at h)
          split at h
          · cases h
          · rename_i ls2 h2
            cases h
            obtain ⟨k, hk⟩ := pres_code_params h2 (fss_ne_of_nactMap e1 hne)
            rw [headNact_of_nactMap _ _ e1, congrArg List.tail e1] at hk
            exact Pres_of_le rfl (StepLe_of_bump hk hne)
    | parlistLoop np =>
      replace h : parlistLoopF (run n) np s = .ok (r, s') := h
      unfold parlistLoopF at h
      split at h
      · cases h
        exact Pres_of_eq (eq_next s)
      · rename_i n1 heq
        (try dsimp only at h)
        split at h
        · cases h
        · rename_i nm ls1 h1
          have e1 := eq_str_checkname h1
          (try dsimp only at h)
          split at h
          · cases h
          · rename_i ls2 h2
            have e2 := (pres_new_localvar h2 (fss_ne_of_nactMap e1 hne)).trans e1
            rcases ho : optional ls2 (.chr ',') with ⟨b3, ls3⟩
            rw [ho] at h
            (try dsimp only at h)
            have e3 : nactMap ls3 = nactMap s := by
              have hoe := eq_optional ls2 (Tk.chr ',')
              rw [ho] at hoe
              exact hoe.trans e2
            split at h
            · exact Pres_of_eq
                (((ih _ _ _ _ h (fss_ne_of_nactMap e3 hne)).2 rfl).trans e3)
            · cases h
              exact Pres_of_eq e3
      · cases h
    | body needself line =>
      replace h : bodyF (run n) needself line s = .ok (r, s') := h
      unfold bodyF at h
      (try dsimp only at h)
      split at h
      · cases h
      · rename_i ls3 h3
        have ebase : nactMap (setFS (open_func s)
            { headFS (open_func s) with
              f := { (headFS (open_func s)).f with lineDefined := line } }) =
            0 :: nactMap s :=
          (nactMap_setFS _ _ (open_func_ne s) rfl).trans (nactMap_open_func s)
        have e3 : nactMap ls3 = 0 :: nactMap s := (eq_check h3).trans ebase
        (try dsimp only at h)
        split at h
        · cases h
        · rename_i ls4 hs4
          have e4 : ∃ c, nactMap ls4 = c :: nactMap s := by
            split at hs4
            · (try dsimp only at hs4)
              split at hs4
              · cases hs4
              · rename_i ls5 h5
                cases hs4
                have e5 := (pres_new_localvar h5 (ne_of_nactMap_cons e3)).trans e3
                refine ⟨1, ?_⟩
                rw [nactMap_adjustlocalvars 1 _ (ne_of_nactMap_cons e5)]
                rw [headNact_headD, e5]
                dsimp only [List.headD_cons, List.tail_cons]
            · cases hs4
              exact ⟨0, e3⟩
          obtain ⟨c4, e4⟩ := e4
          (try dsimp only at h)
          split at h
          · cases h
          · rename_i r5 ls5 h5
            have p5 := (ih _ _ _ _ h5 (ne_of_nactMap_cons e4)).1
            obtain ⟨c5, e5⟩ := cons_of_StepLe p5 e4
            (try dsimp only at h)
            split at h
            · cases h
            · rename_i ls6 h6
              have e6 : nactMap ls6 = c5 :: nactMap s := (eq_check h6).trans e5
              (try dsimp only at h)
              split at h
              · cases h
              · rename_i r7 ls7 h7
                have p7 := (ih _ _ _ _ h7 (ne_of_nactMap_cons e6)).1
                obtain ⟨c7, e7⟩ := cons_of_StepLe p7 e6
                (try dsimp only at h)
                split at h
                · cases h
                · rename_i ls8 h8
                  have e8 : nactMap ls8 = c7 :: nactMap s :=
                    (eq_check_match h8).trans e7
                  (try dsimp only at h)
                  split at h
                  · cases h
                  · rename_i fs9 ls9 h9
                    have e9 : nactMap ls9 = nactMap s := by
                      rw [pres_close_func h9 (ne_of_nactMap_cons e8), e8]
                      rfl
                    (try dsimp only at h)
                    split at h
                    · cases h
                    · rename_i ls10 h10
                      cases h
                      exact Pres_of_eq
                        ((pres_pushclosure h10 (fss_ne_of_nactMap e9 hne)).trans e9)

end Lua

namespace Lua

/-- State for the shadowing declaration `local x = x`: one function frame
with one active local `x` in slot 0 (stack and count at 1). -/
def c5fs : FuncState :=
  { f := { source := "chunk", locvars := [{ varname := "x" }] },
    stacklevel := 1, nactloc := 1 }

def c5state : LexState :=
  { fss := [c5fs], t := .LOCAL,
    rest := [(.NAME "x", 1), (.chr '=', 1), (.NAME "x", 1)],
    source := "chunk" }

/-- C5: in `local n1, ..., nk = e1, ..., em` the whole right-hand expression
list is parsed and emitted before any declared local is activated: a
successful localstat factors as names, `=`, explist1, arity adjustment, and
only then `adjustlocalvars`; the active-local count of every frame is
unchanged through the names and through the entire right-hand side, and is
incremented by the number of declared variables only by the final
activation (which also stamps startpc with the current pc, after the
right-hand code).  Consequently `local x = x` emits GETLOCAL 0 for the
previously visible `x` in slot 0, while the new `x` ends in slot 1 with
startpc after that instruction. -/
theorem C5_localstat (n : Nat) (s s1 s2 s3 : LexState) (nvars nexps : Nat)
    (hne : s.fss ≠ [])
    (h1 : run n (.localstatNames 0) s = .ok (.n nvars, s1))
    (hopt : s1.t = .chr '=')
    (h2 : run n .explist1 (next s1) = .ok (.n nexps, s2))
    (h3 : adjust_mult_assign s2 nvars nexps = .ok s3) :
    run (n + 1) .localstat s = .ok (.unit, adjustlocalvars s3 nvars) ∧
    (headFS s1).nactloc = (headFS s).nactloc ∧
    (headFS s2).nactloc = (headFS s).nactloc ∧
    (headFS s3).nactloc = (headFS s).nactloc ∧
    (headFS (adjustlocalvars s3 nvars)).nactloc = (headFS s).nactloc + nvars ∧
    (run 20 .localstat c5state).map (fun p => ((headFS p.2).f.code,
      (headFS p.2).nactloc, findSlot (headFS p.2) "x",
      ((headFS p.2).f.locvars.getD 1 default).startpc)) =
      .ok ([{ op := .GETLOCAL }], 2, some 1, 1) := by
  have e1 : nactMap s1 = nactMap s := (runPres n _ s _ s1 h1 hne).2 rfl
  have e2 : nactMap s2 = nactMap s :=
    ((runPres n _ (next s1) _ s2 h2
      (ne_next (fss_ne_of_nactMap e1 hne))).2 rfl).trans
      ((eq_next s1).trans e1)
  have e3 : nactMap s3 = nactMap s :=
    (pres_adjust_mult h3 (fss_ne_of_nactMap e2 hne)).trans e2
  refine ⟨?_, headNact_of_nactMap _ _ e1, headNact_of_nactMap _ _ e2,
    headNact_of_nactMap _ _ e3, ?_, by rfl⟩
  · show localstatF (run n) s = _
    unfold localstatF
    rw [h1]
    dsimp only [Res.toN]
    unfold optional
    rw [if_pos hopt]
    dsimp only
    rw [if_pos rfl, h2]
    dsimp only [Res.toN]
    rw [h3]
  · rw [headNact_headD,
      nactMap_adjustlocalvars nvars s3 (fss_ne_of_nactMap e3 hne)]
    dsimp only [List.headD_cons]
    rw [headNact_of_nactMap _ _ e3]

theorem C5_localstat_witness :
    (run 20 .localstat c5state).map (fun p => ((headFS p.2).f.code,
      (headFS p.2).nactloc, findSlot (headFS p.2) "x",
      ((headFS p.2).f.locvars.getD 1 default).startpc)) =
      .ok ([{ op := .GETLOCAL }], 2, some 1, 1) :=
  (C5_localstat 19 c5state _ _ _ 1 1 (List.cons_ne_nil _ _)
    rfl rfl rfl rfl).2.2.2.2.2

end Lua
